import Mathlib

/-!
Traversal entry points of xtensor (xiterable.hpp).

Shallow embedding of the three iterable bases of `xiterable.hpp`
(`xconst_iterable`, `xiterable`, `xcontiguous_iterable`) together with a model
of the stepper contract and of the odometer iterator they plug into.

* Template parameters become explicit arguments: the layout `L` of every entry
  point is its first argument, the macro `XTENSOR_DEFAULT_LAYOUT` is an
  argument `DL` of the functions that mention it.
* The derived type `D` reached through `derived_cast()` is a record of the
  members the bases call on it.
* Overloads are told apart by a suffix: `_broadcast` for the overload taking a
  shape, `_const` for the const overload of `xcontiguous_iterable`; `end_`
  stands for `end`.
* `&get_shape()` and `shape` both become the shape value held by the iterator.
* For the forwarding among member functions, each body is embedded a second time over an
  explicit call (`member_body`), and calls are run with a bound on their nesting depth
  (`run`); a theorem relates the values of the two embeddings.
-/

set_option autoImplicit false

namespace xt

/-! ## Layouts, iterators, results -/

/-- Enumeration `layout_type`. -/
inductive layout_type where
  | row_major
  | column_major
  | dynamic
deriving DecidableEq, Repr

/-- Error raised by a stepper request for a shape that cannot be broadcast. -/
inductive shape_error where
  | IncompatibleShapeError
deriving DecidableEq, Repr

/-- Outcome of a call to a function declared `noexcept`: either it returns a
value, or an exception reached its boundary and the program was terminated. -/
inductive noexcept_result (α : Type) where
  | returned (value : α)
  | terminated
deriving DecidableEq, Repr

/-- Boundary of a `noexcept` function around a body that may throw. -/
def noexcept {ε α : Type} (body : Except ε α) : noexcept_result α :=
  match body with
  | Except.ok a => noexcept_result.returned a
  | Except.error _ => noexcept_result.terminated

/-- Use of the value of a `noexcept` call inside another `noexcept` function. -/
def noexcept_result.map {α β : Type} (f : α → β) : noexcept_result α → noexcept_result β
  | noexcept_result.returned a => noexcept_result.returned (f a)
  | noexcept_result.terminated => noexcept_result.terminated

/-- The value `xiterator<St, S, L>(st, shape, end_index)`: the three constructor
arguments and the layout template argument. -/
structure xiterator (St S : Type) where
  stepper : St
  shape : S
  end_index : Bool
  L : layout_type
deriving DecidableEq, Repr

/-- The adaptor `std::reverse_iterator<It>`: it stores the iterator it wraps. -/
structure reverse_iterator (It : Type) where
  current : It
deriving DecidableEq, Repr

/-- The alias `select_iterator_impl<L, It1, It2>` of `xcontiguous_iterable`:
a value is either of the storage iterator type `It1` or of the stepper-based
iterator type `It2`. -/
inductive select_iterator_impl (It1 It2 : Type) where
  | storage (it : It1)
  | layout (it : It2)
deriving DecidableEq, Repr

/-! ## The derived type -/

/-- The types `xiterable_inner_types<D>` provides. -/
structure xiterable_inner_types where
  inner_shape_type : Type
  stepper : Type
  const_stepper : Type

/-- The storage iterator types and the static layout that
`xcontainer_inner_types<D>` provides to `xcontiguous_iterable`. -/
structure xcontainer_inner_types where
  storage_iterator : Type
  const_storage_iterator : Type
  reverse_storage_iterator : Type
  const_reverse_storage_iterator : Type
  layout : layout_type

/-- Modelled from the spec: the capability contract of the derived type `D`
(its definition is not in `xiterable.hpp`): `shape()`, `stepper_begin(shape)` and
`stepper_end(shape, layout)`, for mutable and for const access. A stepper
request may signal `IncompatibleShapeError`. -/
structure derived_type (I : xiterable_inner_types) where
  shape : I.inner_shape_type
  stepper_begin : I.inner_shape_type → Except shape_error I.stepper
  stepper_end : I.inner_shape_type → layout_type → Except shape_error I.stepper
  stepper_begin_const : I.inner_shape_type → Except shape_error I.const_stepper
  stepper_end_const : I.inner_shape_type → layout_type → Except shape_error I.const_stepper

/-- Modelled from the spec: the members that `xcontiguous_iterable` calls on the
derived type (direct linear storage access), on top of the stepper contract. -/
structure contiguous_derived_type (I : xiterable_inner_types) (C : xcontainer_inner_types)
    extends derived_type I where
  storage_begin : C.storage_iterator
  storage_end : C.storage_iterator
  storage_cbegin : C.const_storage_iterator
  storage_cend : C.const_storage_iterator
  storage_rbegin : C.reverse_storage_iterator
  storage_rend : C.reverse_storage_iterator
  storage_crbegin : C.const_reverse_storage_iterator
  storage_crend : C.const_reverse_storage_iterator

/-! ## xconst_iterable -/

namespace xconst_iterable

variable {I : xiterable_inner_types}

/-- Alias `const_layout_iterator<L>` (and `const_broadcast_iterator<S, L>`). -/
abbrev const_layout_iterator (I : xiterable_inner_types) : Type :=
  xiterator I.const_stepper I.inner_shape_type

/-- Alias `const_reverse_layout_iterator<L>`. -/
abbrev const_reverse_layout_iterator (I : xiterable_inner_types) : Type :=
  reverse_iterator (const_layout_iterator I)

/-- Member `get_shape`. -/
def get_shape (d : derived_type I) : I.inner_shape_type :=
  d.shape

/-- Member `get_stepper_begin`. -/
def get_stepper_begin (d : derived_type I) (shape : I.inner_shape_type) :
    noexcept_result I.const_stepper :=
  noexcept (d.stepper_begin_const shape)

/-- Member `get_stepper_end`. -/
def get_stepper_end (d : derived_type I) (shape : I.inner_shape_type) (l : layout_type) :
    noexcept_result I.const_stepper :=
  noexcept (d.stepper_end_const shape l)

/-- Member `get_cbegin<L>(end_index)`. -/
def get_cbegin (L : layout_type) (d : derived_type I) (end_index : Bool) :
    noexcept_result (const_layout_iterator I) :=
  (get_stepper_begin d (get_shape d)).map fun st => xiterator.mk st (get_shape d) end_index L

/-- Member `get_cend<L>(end_index)`. -/
def get_cend (L : layout_type) (d : derived_type I) (end_index : Bool) :
    noexcept_result (const_layout_iterator I) :=
  (get_stepper_end d (get_shape d) L).map fun st => xiterator.mk st (get_shape d) end_index L

/-- Member `get_cbegin<S, L>(shape, end_index)`. -/
def get_cbegin_broadcast (L : layout_type) (d : derived_type I) (shape : I.inner_shape_type)
    (end_index : Bool) : noexcept_result (const_layout_iterator I) :=
  (get_stepper_begin d shape).map fun st => xiterator.mk st shape end_index L

/-- Member `get_cend<S, L>(shape, end_index)`. -/
def get_cend_broadcast (L : layout_type) (d : derived_type I) (shape : I.inner_shape_type)
    (end_index : Bool) : noexcept_result (const_layout_iterator I) :=
  (get_stepper_end d shape L).map fun st => xiterator.mk st shape end_index L

/-- Member `cbegin<L>()`. -/
def cbegin (L : layout_type) (d : derived_type I) : noexcept_result (const_layout_iterator I) :=
  get_cbegin L d false

/-- Member `cend<L>()`. -/
def cend (L : layout_type) (d : derived_type I) : noexcept_result (const_layout_iterator I) :=
  get_cend L d true

/-- Member `begin<L>() const`. -/
def begin (L : layout_type) (d : derived_type I) : noexcept_result (const_layout_iterator I) :=
  cbegin L d

/-- Member `end<L>() const`. -/
def end_ (L : layout_type) (d : derived_type I) : noexcept_result (const_layout_iterator I) :=
  cend L d

/-- Member `crbegin<L>()`. -/
def crbegin (L : layout_type) (d : derived_type I) :
    noexcept_result (const_reverse_layout_iterator I) :=
  (get_cend L d true).map reverse_iterator.mk

/-- Member `crend<L>()`. -/
def crend (L : layout_type) (d : derived_type I) :
    noexcept_result (const_reverse_layout_iterator I) :=
  (get_cbegin L d false).map reverse_iterator.mk

/-- Member `rbegin<L>() const`. -/
def rbegin (L : layout_type) (d : derived_type I) :
    noexcept_result (const_reverse_layout_iterator I) :=
  crbegin L d

/-- Member `rend<L>() const`. -/
def rend (L : layout_type) (d : derived_type I) :
    noexcept_result (const_reverse_layout_iterator I) :=
  crend L d

/-- Member `cbegin<S, L>(shape)`. -/
def cbegin_broadcast (L : layout_type) (d : derived_type I) (shape : I.inner_shape_type) :
    noexcept_result (const_layout_iterator I) :=
  get_cbegin_broadcast L d shape false

/-- Member `cend<S, L>(shape)`. -/
def cend_broadcast (L : layout_type) (d : derived_type I) (shape : I.inner_shape_type) :
    noexcept_result (const_layout_iterator I) :=
  get_cend_broadcast L d shape true

/-- Member `begin<S, L>(shape) const`. -/
def begin_broadcast (L : layout_type) (d : derived_type I) (shape : I.inner_shape_type) :
    noexcept_result (const_layout_iterator I) :=
  cbegin_broadcast L d shape

/-- Member `end<S, L>(shape) const`. -/
def end_broadcast (L : layout_type) (d : derived_type I) (shape : I.inner_shape_type) :
    noexcept_result (const_layout_iterator I) :=
  cend_broadcast L d shape

/-- Member `crbegin<S, L>(shape)`. -/
def crbegin_broadcast (L : layout_type) (d : derived_type I) (shape : I.inner_shape_type) :
    noexcept_result (const_reverse_layout_iterator I) :=
  (get_cend_broadcast L d shape true).map reverse_iterator.mk

/-- Member `crend<S, L>(shape)`. -/
def crend_broadcast (L : layout_type) (d : derived_type I) (shape : I.inner_shape_type) :
    noexcept_result (const_reverse_layout_iterator I) :=
  (get_cbegin_broadcast L d shape false).map reverse_iterator.mk

/-- Member `rbegin<S, L>(shape) const`. -/
def rbegin_broadcast (L : layout_type) (d : derived_type I) (shape : I.inner_shape_type) :
    noexcept_result (const_reverse_layout_iterator I) :=
  crbegin_broadcast L d shape

/-- Member `rend<S, L>(shape) const`. -/
def rend_broadcast (L : layout_type) (d : derived_type I) (shape : I.inner_shape_type) :
    noexcept_result (const_reverse_layout_iterator I) :=
  crend_broadcast L d shape

/-- Member `storage_begin() const`. -/
def storage_begin (DL : layout_type) (d : derived_type I) :
    noexcept_result (const_layout_iterator I) :=
  cbegin DL d

/-- Member `storage_end() const`. -/
def storage_end (DL : layout_type) (d : derived_type I) :
    noexcept_result (const_layout_iterator I) :=
  cend DL d

/-- Member `storage_cbegin()`. -/
def storage_cbegin (DL : layout_type) (d : derived_type I) :
    noexcept_result (const_layout_iterator I) :=
  cbegin DL d

/-- Member `storage_cend()`. -/
def storage_cend (DL : layout_type) (d : derived_type I) :
    noexcept_result (const_layout_iterator I) :=
  cend DL d

/-- Member `storage_rbegin() const`. -/
def storage_rbegin (DL : layout_type) (d : derived_type I) :
    noexcept_result (const_reverse_layout_iterator I) :=
  crbegin DL d

/-- Member `storage_rend() const`. -/
def storage_rend (DL : layout_type) (d : derived_type I) :
    noexcept_result (const_reverse_layout_iterator I) :=
  crend DL d

/-- Member `storage_crbegin()`. -/
def storage_crbegin (DL : layout_type) (d : derived_type I) :
    noexcept_result (const_reverse_layout_iterator I) :=
  crbegin DL d

/-- Member `storage_crend()`. -/
def storage_crend (DL : layout_type) (d : derived_type I) :
    noexcept_result (const_reverse_layout_iterator I) :=
  crend DL d

end xconst_iterable

/-! ## xiterable -/

namespace xiterable

variable {I : xiterable_inner_types}

/-- Alias `layout_iterator<L>` (and `broadcast_iterator<S, L>`). -/
abbrev layout_iterator (I : xiterable_inner_types) : Type :=
  xiterator I.stepper I.inner_shape_type

/-- Alias `reverse_layout_iterator<L>`. -/
abbrev reverse_layout_iterator (I : xiterable_inner_types) : Type :=
  reverse_iterator (layout_iterator I)

/-- Member `get_stepper_begin` (mutable overload). The const overload declared next to it
calls `derived_cast()`, which in `xiterable` names only the non-const member, so its body
cannot be instantiated; no member function calls it and it has no embedding. -/
def get_stepper_begin (d : derived_type I) (shape : I.inner_shape_type) :
    noexcept_result I.stepper :=
  noexcept (d.stepper_begin shape)

/-- Member `get_stepper_end` (mutable overload). The const overload declared next to it calls
`derived_cast()` as well and has no embedding either. -/
def get_stepper_end (d : derived_type I) (shape : I.inner_shape_type) (l : layout_type) :
    noexcept_result I.stepper :=
  noexcept (d.stepper_end shape l)

/-- Member `get_begin<L>(end_index)`. -/
def get_begin (L : layout_type) (d : derived_type I) (end_index : Bool) :
    noexcept_result (layout_iterator I) :=
  (get_stepper_begin d (xconst_iterable.get_shape d)).map fun st =>
    xiterator.mk st (xconst_iterable.get_shape d) end_index L

/-- Member `get_end<L>(end_index)`. -/
def get_end (L : layout_type) (d : derived_type I) (end_index : Bool) :
    noexcept_result (layout_iterator I) :=
  (get_stepper_end d (xconst_iterable.get_shape d) L).map fun st =>
    xiterator.mk st (xconst_iterable.get_shape d) end_index L

/-- Member `get_begin<S, L>(shape, end_index)`. -/
def get_begin_broadcast (L : layout_type) (d : derived_type I) (shape : I.inner_shape_type)
    (end_index : Bool) : noexcept_result (layout_iterator I) :=
  (get_stepper_begin d shape).map fun st => xiterator.mk st shape end_index L

/-- Member `get_end<S, L>(shape, end_index)`. -/
def get_end_broadcast (L : layout_type) (d : derived_type I) (shape : I.inner_shape_type)
    (end_index : Bool) : noexcept_result (layout_iterator I) :=
  (get_stepper_end d shape L).map fun st => xiterator.mk st shape end_index L

/-- Member `begin<L>()`. -/
def begin (L : layout_type) (d : derived_type I) : noexcept_result (layout_iterator I) :=
  get_begin L d false

/-- Member `end<L>()`. -/
def end_ (L : layout_type) (d : derived_type I) : noexcept_result (layout_iterator I) :=
  get_end L d true

/-- Member `rbegin<L>()`. -/
def rbegin (L : layout_type) (d : derived_type I) :
    noexcept_result (reverse_layout_iterator I) :=
  (get_end L d true).map reverse_iterator.mk

/-- Member `rend<L>()`. -/
def rend (L : layout_type) (d : derived_type I) :
    noexcept_result (reverse_layout_iterator I) :=
  (get_begin L d false).map reverse_iterator.mk

/-- Member `begin<S, L>(shape)`. -/
def begin_broadcast (L : layout_type) (d : derived_type I) (shape : I.inner_shape_type) :
    noexcept_result (layout_iterator I) :=
  get_begin_broadcast L d shape false

/-- Member `end<S, L>(shape)`. -/
def end_broadcast (L : layout_type) (d : derived_type I) (shape : I.inner_shape_type) :
    noexcept_result (layout_iterator I) :=
  get_end_broadcast L d shape true

/-- Member `rbegin<S, L>(shape)`. -/
def rbegin_broadcast (L : layout_type) (d : derived_type I) (shape : I.inner_shape_type) :
    noexcept_result (reverse_layout_iterator I) :=
  (get_end_broadcast L d shape true).map reverse_iterator.mk

/-- Member `rend<S, L>(shape)`. -/
def rend_broadcast (L : layout_type) (d : derived_type I) (shape : I.inner_shape_type) :
    noexcept_result (reverse_layout_iterator I) :=
  (get_begin_broadcast L d shape false).map reverse_iterator.mk

/-- Member `storage_begin()`. -/
def storage_begin (DL : layout_type) (d : derived_type I) :
    noexcept_result (layout_iterator I) :=
  begin DL d

/-- Member `storage_end()`. -/
def storage_end (DL : layout_type) (d : derived_type I) :
    noexcept_result (layout_iterator I) :=
  end_ DL d

/-- Member `storage_rbegin()`. -/
def storage_rbegin (DL : layout_type) (d : derived_type I) :
    noexcept_result (reverse_layout_iterator I) :=
  rbegin DL d

/-- Member `storage_rend()`. -/
def storage_rend (DL : layout_type) (d : derived_type I) :
    noexcept_result (reverse_layout_iterator I) :=
  rend DL d

end xiterable

/-! ## xcontiguous_iterable -/

namespace xcontiguous_iterable

variable {I : xiterable_inner_types} {C : xcontainer_inner_types}

/-- Constant `static_layout`. -/
def static_layout (C : xcontainer_inner_types) : layout_type :=
  C.layout

/-- Constant `contiguous_layout`. -/
def contiguous_layout (C : xcontainer_inner_types) : Bool :=
  decide (static_layout C ≠ layout_type.dynamic)

/-- Alias `select_iterator<L>`. -/
abbrev select_iterator (I : xiterable_inner_types) (C : xcontainer_inner_types) : Type :=
  select_iterator_impl C.storage_iterator (xiterable.layout_iterator I)

/-- Alias `select_const_iterator<L>`. -/
abbrev select_const_iterator (I : xiterable_inner_types) (C : xcontainer_inner_types) : Type :=
  select_iterator_impl C.const_storage_iterator (xconst_iterable.const_layout_iterator I)

/-- Alias `select_reverse_iterator<L>`. -/
abbrev select_reverse_iterator (I : xiterable_inner_types) (C : xcontainer_inner_types) : Type :=
  select_iterator_impl C.reverse_storage_iterator (xiterable.reverse_layout_iterator I)

/-- Alias `select_const_reverse_iterator<L>`. -/
abbrev select_const_reverse_iterator (I : xiterable_inner_types) (C : xcontainer_inner_types) :
    Type :=
  select_iterator_impl C.const_reverse_storage_iterator
    (xconst_iterable.const_reverse_layout_iterator I)

/-- The call `xtl::mpl::static_if<L == static_layout>(storage branch, else branch)` as the
entry points use it: the first branch returns the storage iterator of the derived
type, the second the iterator of `iterable_base`. -/
def static_if {It1 It2 : Type} (cond : Bool) (storage_branch : It1)
    (else_branch : noexcept_result It2) : noexcept_result (select_iterator_impl It1 It2) :=
  if cond then noexcept_result.returned (select_iterator_impl.storage storage_branch)
  else else_branch.map select_iterator_impl.layout

/-- Member `begin<L>()`. -/
def begin (L : layout_type) (d : contiguous_derived_type I C) :
    noexcept_result (select_iterator I C) :=
  static_if (decide (L = static_layout C)) d.storage_begin (xiterable.begin L d.toderived_type)

/-- Member `end<L>()`. -/
def end_ (L : layout_type) (d : contiguous_derived_type I C) :
    noexcept_result (select_iterator I C) :=
  static_if (decide (L = static_layout C)) d.storage_end (xiterable.end_ L d.toderived_type)

/-- Member `cbegin<L>()`. -/
def cbegin (L : layout_type) (d : contiguous_derived_type I C) :
    noexcept_result (select_const_iterator I C) :=
  static_if (decide (L = static_layout C)) d.storage_cbegin
    (xconst_iterable.cbegin L d.toderived_type)

/-- Member `cend<L>()`. -/
def cend (L : layout_type) (d : contiguous_derived_type I C) :
    noexcept_result (select_const_iterator I C) :=
  static_if (decide (L = static_layout C)) d.storage_cend
    (xconst_iterable.cend L d.toderived_type)

/-- Member `begin<L>() const`. -/
def begin_const (L : layout_type) (d : contiguous_derived_type I C) :
    noexcept_result (select_const_iterator I C) :=
  cbegin L d

/-- Member `end<L>() const`. -/
def end_const (L : layout_type) (d : contiguous_derived_type I C) :
    noexcept_result (select_const_iterator I C) :=
  cend L d

/-- Member `rbegin<L>()`. -/
def rbegin (L : layout_type) (d : contiguous_derived_type I C) :
    noexcept_result (select_reverse_iterator I C) :=
  static_if (decide (L = static_layout C)) d.storage_rbegin
    (xiterable.rbegin L d.toderived_type)

/-- Member `rend<L>()`. -/
def rend (L : layout_type) (d : contiguous_derived_type I C) :
    noexcept_result (select_reverse_iterator I C) :=
  static_if (decide (L = static_layout C)) d.storage_rend (xiterable.rend L d.toderived_type)

/-- Member `crbegin<L>()`. -/
def crbegin (L : layout_type) (d : contiguous_derived_type I C) :
    noexcept_result (select_const_reverse_iterator I C) :=
  static_if (decide (L = static_layout C)) d.storage_crbegin
    (xconst_iterable.crbegin L d.toderived_type)

/-- Member `crend<L>()`. -/
def crend (L : layout_type) (d : contiguous_derived_type I C) :
    noexcept_result (select_const_reverse_iterator I C) :=
  static_if (decide (L = static_layout C)) d.storage_crend
    (xconst_iterable.crend L d.toderived_type)

/-- Member `rbegin<L>() const`. -/
def rbegin_const (L : layout_type) (d : contiguous_derived_type I C) :
    noexcept_result (select_const_reverse_iterator I C) :=
  crbegin L d

/-- Member `rend<L>() const`. -/
def rend_const (L : layout_type) (d : contiguous_derived_type I C) :
    noexcept_result (select_const_reverse_iterator I C) :=
  crend L d

/-- Member `begin<S, L>(shape)`. -/
def begin_broadcast (L : layout_type) (d : contiguous_derived_type I C)
    (shape : I.inner_shape_type) : noexcept_result (xiterable.layout_iterator I) :=
  xiterable.begin_broadcast L d.toderived_type shape

/-- Member `end<S, L>(shape)`. -/
def end_broadcast (L : layout_type) (d : contiguous_derived_type I C)
    (shape : I.inner_shape_type) : noexcept_result (xiterable.layout_iterator I) :=
  xiterable.end_broadcast L d.toderived_type shape

/-- Member `begin<S, L>(shape) const`. -/
def begin_broadcast_const (L : layout_type) (d : contiguous_derived_type I C)
    (shape : I.inner_shape_type) : noexcept_result (xconst_iterable.const_layout_iterator I) :=
  xconst_iterable.begin_broadcast L d.toderived_type shape

/-- Member `end<S, L>(shape) const`. -/
def end_broadcast_const (L : layout_type) (d : contiguous_derived_type I C)
    (shape : I.inner_shape_type) : noexcept_result (xconst_iterable.const_layout_iterator I) :=
  xconst_iterable.end_broadcast L d.toderived_type shape

/-- Member `cbegin<S, L>(shape)`. -/
def cbegin_broadcast (L : layout_type) (d : contiguous_derived_type I C)
    (shape : I.inner_shape_type) : noexcept_result (xconst_iterable.const_layout_iterator I) :=
  xconst_iterable.cbegin_broadcast L d.toderived_type shape

/-- Member `cend<S, L>(shape)`. -/
def cend_broadcast (L : layout_type) (d : contiguous_derived_type I C)
    (shape : I.inner_shape_type) : noexcept_result (xconst_iterable.const_layout_iterator I) :=
  xconst_iterable.cend_broadcast L d.toderived_type shape

/-- Member `rbegin<S, L>(shape)`. -/
def rbegin_broadcast (L : layout_type) (d : contiguous_derived_type I C)
    (shape : I.inner_shape_type) : noexcept_result (xiterable.reverse_layout_iterator I) :=
  xiterable.rbegin_broadcast L d.toderived_type shape

/-- Member `rend<S, L>(shape)`. -/
def rend_broadcast (L : layout_type) (d : contiguous_derived_type I C)
    (shape : I.inner_shape_type) : noexcept_result (xiterable.reverse_layout_iterator I) :=
  xiterable.rend_broadcast L d.toderived_type shape

/-- Member `rbegin<S, L>(shape) const`. -/
def rbegin_broadcast_const (L : layout_type) (d : contiguous_derived_type I C)
    (shape : I.inner_shape_type) :
    noexcept_result (xconst_iterable.const_reverse_layout_iterator I) :=
  xconst_iterable.rbegin_broadcast L d.toderived_type shape

/-- Member `rend<S, L>(shape) const`. -/
def rend_broadcast_const (L : layout_type) (d : contiguous_derived_type I C)
    (shape : I.inner_shape_type) :
    noexcept_result (xconst_iterable.const_reverse_layout_iterator I) :=
  xconst_iterable.rend_broadcast L d.toderived_type shape

/-- Member `crbegin<S, L>(shape)`. -/
def crbegin_broadcast (L : layout_type) (d : contiguous_derived_type I C)
    (shape : I.inner_shape_type) :
    noexcept_result (xconst_iterable.const_reverse_layout_iterator I) :=
  xconst_iterable.crbegin_broadcast L d.toderived_type shape

/-- Member `crend<S, L>(shape)`. -/
def crend_broadcast (L : layout_type) (d : contiguous_derived_type I C)
    (shape : I.inner_shape_type) :
    noexcept_result (xconst_iterable.const_reverse_layout_iterator I) :=
  xconst_iterable.crend_broadcast L d.toderived_type shape

end xcontiguous_iterable

/-! ## Model of the array, the stepper and the odometer iterator

`xiterable.hpp` only forwards to the stepper of the derived type and to the
constructor of `xiterator`; the stepper, the advancement of `xiterator` and the
array itself are described by the specification (sections 3, 4.1 and 4.2) and
modelled here from it. -/

/-- Modelled from the spec: size of a shape, the product of its extents. -/
def size (shape : List Nat) : Nat :=
  shape.prod

/-- Modelled from the spec: broadcast compatibility (section 3). The rank of the
traversal shape is at least the rank of the array and, aligning the axes from the
trailing end, each array extent equals the traversal extent or equals 1. -/
def broadcast_compatible (array_shape target : List Nat) : Bool :=
  decide (array_shape.length ≤ target.length) &&
    (List.zipWith (fun a t => decide (a = t ∨ a = 1)) array_shape
      (target.drop (target.length - array_shape.length))).all id

/-- Modelled from the spec: an array (the derived type `D` of the claims about
traversal): its shape, its strides (an input computed elsewhere), the layout it
reports at run time and its linear storage. -/
structure xarray (α : Type) where
  shape : List Nat
  strides : List Nat
  layout : layout_type
  storage : List α
deriving DecidableEq, Repr

/-- Modelled from the spec: stepper state (section 3), a cursor over one array:
the position along each axis of the traversal shape, the running linear offset
into the storage, and whether the cursor is at the end sentinel. -/
structure xstepper (α : Type) where
  c : xarray α
  target : List Nat
  index : List Nat
  offset : Nat
  past_end : Bool
deriving DecidableEq, Repr

namespace xstepper

variable {α : Type}

/-- Number of leading axes of the traversal shape that the array does not have. -/
def lead (st : xstepper α) : Nat :=
  st.target.length - st.c.shape.length

/-- Modelled from the spec: change of storage offset for one position along an
axis of the traversal shape. A leading axis the array does not have and an axis
where the array has extent 1 are broadcast axes: the offset does not change. -/
def stride (st : xstepper α) (axis : Nat) : Nat :=
  if axis < st.lead then 0
  else if st.c.shape.getD (axis - st.lead) 1 = 1 then 0
  else st.c.strides.getD (axis - st.lead) 0

/-- Modelled from the spec: `step(axis, count)`. -/
def step (st : xstepper α) (axis count : Nat) : xstepper α :=
  { st with
    index := st.index.set axis (st.index.getD axis 0 + count)
    offset := st.offset + count * st.stride axis }

/-- Modelled from the spec: `step_back(axis, count)`. -/
def step_back (st : xstepper α) (axis count : Nat) : xstepper α :=
  { st with
    index := st.index.set axis (st.index.getD axis 0 - count)
    offset := st.offset - count * st.stride axis }

/-- Modelled from the spec: `reset(axis)`, the axis returns to its first position. -/
def reset (st : xstepper α) (axis : Nat) : xstepper α :=
  { st with
    index := st.index.set axis 0
    offset := st.offset - st.index.getD axis 0 * st.stride axis }

/-- Modelled from the spec: `reset_back(axis)`, the axis returns to its last position. -/
def reset_back (st : xstepper α) (axis : Nat) : xstepper α :=
  { st with
    index := st.index.set axis (st.target.getD axis 0 - 1)
    offset := st.offset - st.index.getD axis 0 * st.stride axis
      + (st.target.getD axis 0 - 1) * st.stride axis }

/-- Modelled from the spec: `to_end(layout)`, the jump to the end sentinel. The
sentinel is the odometer after its carry left the slowest axis: every axis is back
at its first position and the cursor is marked past the end, whatever the layout. -/
def to_end (st : xstepper α) (_l : layout_type) : xstepper α :=
  { st with
    index := List.replicate st.target.length 0
    offset := 0
    past_end := true }

/-- Modelled from the spec: the way back from the end sentinel in the mirror
algorithm: the cursor leaves the sentinel for the last position of every axis. -/
def to_last (st : xstepper α) : xstepper α :=
  { st with
    index := st.target.map fun extent => extent - 1
    offset := ((List.range st.target.length).map fun axis =>
      (st.target.getD axis 0 - 1) * st.stride axis).sum
    past_end := false }

/-- Modelled from the spec: `dereference()`, valid only away from the end sentinel. -/
def dereference (st : xstepper α) : Option α :=
  if st.past_end then none else st.c.storage.get? st.offset

end xstepper

namespace xarray

variable {α : Type}

/-- Modelled from the spec: `stepper_begin(target_shape)` (section 4.1): the cursor
at the first element of the index space of the traversal shape, offset 0 in the
storage. The request fails for a shape that is not broadcast compatible. When the
index space is empty there is no first element and the cursor is the end sentinel
(section 4.2, item 4: the end is reached after `size` advances, here none). -/
def stepper_begin (c : xarray α) (target : List Nat) : Except shape_error (xstepper α) :=
  if broadcast_compatible c.shape target then
    Except.ok
      { c := c
        target := target
        index := List.replicate target.length 0
        offset := 0
        past_end := decide (size target = 0) }
  else Except.error shape_error.IncompatibleShapeError

/-- Modelled from the spec: `stepper_end(target_shape, layout)` (section 4.1): the
cursor one past the last element, obtained by `to_end(layout)`. -/
def stepper_end (c : xarray α) (target : List Nat) (l : layout_type) :
    Except shape_error (xstepper α) :=
  if broadcast_compatible c.shape target then
    Except.ok
      (xstepper.to_end
        { c := c
          target := target
          index := List.replicate target.length 0
          offset := 0
          past_end := false } l)
  else Except.error shape_error.IncompatibleShapeError

/-- The inner types of the array seen as a derived type. -/
def inner_types (α : Type) : xiterable_inner_types where
  inner_shape_type := List Nat
  stepper := xstepper α
  const_stepper := xstepper α

/-- Modelled from the spec: the array as the derived type `D` of the iterable bases. -/
def derived (c : xarray α) : derived_type (inner_types α) where
  shape := c.shape
  stepper_begin := c.stepper_begin
  stepper_end := c.stepper_end
  stepper_begin_const := c.stepper_begin
  stepper_end_const := c.stepper_end

end xarray

/-- Iterators over the array model. -/
abbrev array_iterator (α : Type) : Type :=
  xiterator (xstepper α) (List Nat)

namespace xiterator

variable {α : Type}

/-- Modelled from the spec: the order in which the odometer goes through the axes
(section 4.2, item 1): trailing to leading for row-major, leading to trailing for
column-major; a dynamic layout is resolved from the layout the array reports. -/
def axis_order (L reported : layout_type) (rank : Nat) : List Nat :=
  match L with
  | layout_type.row_major => (List.range rank).reverse
  | layout_type.column_major => List.range rank
  | layout_type.dynamic =>
    match reported with
    | layout_type.column_major => List.range rank
    | _ => (List.range rank).reverse

/-- Modelled from the spec: the carry loop of the odometer (section 4.2, items 2 to
4) over the axes still to visit: advance the axis by one; when its new index
reaches its extent, reset it and carry to the next axis; a carry past the slowest
axis is the end position. -/
def carry (L : layout_type) (shape : List Nat) : xstepper α → List Nat → xstepper α
  | st, [] => st.to_end L
  | st, axis :: rest =>
    if (st.step axis 1).index.getD axis 0 = shape.getD axis 0 then
      carry L shape ((st.step axis 1).reset axis) rest
    else st.step axis 1

/-- Modelled from the spec: the borrow loop of the mirror algorithm: step the axis
back by one; an axis at its first position is set to its last position and the
borrow goes to the next axis. -/
def borrow : xstepper α → List Nat → xstepper α
  | st, [] => st
  | st, axis :: rest =>
    if st.index.getD axis 0 = 0 then borrow (st.reset_back axis) rest
    else st.step_back axis 1

/-- Modelled from the spec: `operator++` of `xiterator`. -/
def increment (it : array_iterator α) : array_iterator α :=
  { it with
    stepper := carry it.L it.shape it.stepper
      (axis_order it.L it.stepper.c.layout it.shape.length) }

/-- Modelled from the spec: `operator--` of `xiterator`, the mirror algorithm. -/
def decrement (it : array_iterator α) : array_iterator α :=
  { it with
    stepper :=
      if it.stepper.past_end then it.stepper.to_last
      else borrow it.stepper (axis_order it.L it.stepper.c.layout it.shape.length) }

/-- Modelled from the spec: `operator*` of `xiterator`. -/
def dereference (it : array_iterator α) : Option α :=
  it.stepper.dereference

/-- Modelled from the spec: equality of iterators (section 3): the steppers report
the same position and the iterators reference the same shape. -/
def equal [DecidableEq α] (a b : array_iterator α) : Bool :=
  decide (a.stepper = b.stepper ∧ a.shape = b.shape)

/-- The walk from `first` by repeated increment until the iterator equals `last`:
the iterators that were dereferenced on the way, or `none` when `last` was not
reached within `fuel` increments. -/
def traverse [DecidableEq α] : Nat → array_iterator α → array_iterator α →
    Option (List (array_iterator α))
  | 0, first, last => if equal first last then some [] else none
  | fuel + 1, first, last =>
    if equal first last then some []
    else (traverse fuel (increment first) last).map fun visited => first :: visited

end xiterator

namespace reverse_iterator

variable {α : Type}

/-- Modelled from the spec: `operator*` of the reverse adaptor: the element just
before the position of the wrapped iterator. -/
def dereference (r : reverse_iterator (array_iterator α)) : Option α :=
  (xiterator.decrement r.current).dereference

/-- Modelled from the spec: `operator++` of the reverse adaptor. -/
def increment (r : reverse_iterator (array_iterator α)) : reverse_iterator (array_iterator α) :=
  { current := xiterator.decrement r.current }

/-- Modelled from the spec: equality of two reverse adaptors. -/
def equal [DecidableEq α] (a b : reverse_iterator (array_iterator α)) : Bool :=
  xiterator.equal a.current b.current

/-- The walk from `first` by repeated increment until the adaptor equals `last`:
the adaptors that were dereferenced on the way. -/
def traverse [DecidableEq α] : Nat → reverse_iterator (array_iterator α) →
    reverse_iterator (array_iterator α) → Option (List (reverse_iterator (array_iterator α)))
  | 0, first, last => if equal first last then some [] else none
  | fuel + 1, first, last =>
    if equal first last then some []
    else (traverse fuel (increment first) last).map fun visited => first :: visited

end reverse_iterator

/-! ## Ranks of indices and positions of a traversal -/

open xiterator

variable {α : Type}

/-- Rank of an index along an order of axes (mixed radix, first axis of the order fastest). -/
def lin (shape idx : List Nat) : List Nat → Nat
  | [] => 0
  | axis :: rest => idx.getD axis 0 + shape.getD axis 0 * lin shape idx rest

/-- Number of positions spanned by the axes of an order. -/
def vol (shape : List Nat) : List Nat → Nat
  | [] => 1
  | axis :: rest => shape.getD axis 0 * vol shape rest

/-- Storage offset of an index of the traversal shape, for the array and traversal
shape of a stepper. -/
def offset_at (st : xstepper α) (idx : List Nat) : Nat :=
  ((List.range st.target.length).map fun axis => idx.getD axis 0 * st.stride axis).sum

/-- The end sentinel of a traversal of `target` over the array `c`. -/
def end_stepper (c : xarray α) (target : List Nat) : xstepper α :=
  { c := c, target := target, index := List.replicate target.length 0, offset := 0,
    past_end := true }

/-- The iterator is at the position of rank `k` of the traversal of `target` over the
array `c` with layout `L`: it is not at the end, every axis is within its extent, the
rank of its index along the axis order is `k`, and its offset is the one of its index. -/
def at_rank (c : xarray α) (target : List Nat) (L : layout_type) (k : Nat)
    (it : array_iterator α) : Prop :=
  it.shape = target ∧ it.L = L ∧ it.stepper.c = c ∧ it.stepper.target = target ∧
    it.stepper.past_end = false ∧ it.stepper.index.length = target.length ∧
    (∀ a, a < target.length → it.stepper.index.getD a 0 < target.getD a 0) ∧
    lin target it.stepper.index (axis_order L c.layout target.length) = k ∧
    it.stepper.offset = offset_at it.stepper it.stepper.index

/-- The cursor at the first element of a traversal of `target` over the array `c`. -/
def begin_stepper (c : xarray α) (target : List Nat) : xstepper α :=
  { c := c, target := target, index := List.replicate target.length 0, offset := 0,
    past_end := decide (size target = 0) }

/-- The multi-index `idx` is an index of the shape: one position per axis, each below
the extent of its axis. -/
def in_shape (shape idx : List Nat) : Prop :=
  idx.length = shape.length ∧ ∀ a, a < shape.length → idx.getD a 0 < shape.getD a 0

/-- The array of the example of the specification: storage `[1,2,3,4,5,6]`, shape `[2,3]`,
row-major strides. -/
def example_2x3 : xarray Nat :=
  { shape := [2, 3], strides := [3, 1], layout := layout_type.row_major,
    storage := [1, 2, 3, 4, 5, 6] }

/-- Modelled from the spec: the index in the array that an index of the traversal shape is
mapped to by broadcasting: the trailing axes that the array has, with 0 on every axis
where the array has extent 1. -/
def source_index (array_shape idx : List Nat) : List Nat :=
  List.zipWith (fun extent i => if extent = 1 then 0 else i) array_shape
    (idx.drop (idx.length - array_shape.length))

/-- Modelled from the spec: linear offset in the storage of an index of the array. -/
def linear_offset (strides idx : List Nat) : Nat :=
  (List.zipWith (fun i s => i * s) idx strides).sum

/-- Modelled from the spec: the element of the array at an index, by linear access to
the storage. -/
def xarray.element (c : xarray α) (idx : List Nat) : Option α :=
  c.storage.get? (linear_offset c.strides idx)

/-- The array of the first broadcasting example of the specification: shape `[3]`. -/
def example_3 : xarray Nat :=
  { shape := [3], strides := [1], layout := layout_type.row_major, storage := [10, 20, 30] }

/-- The array of the second broadcasting example of the specification: shape `[1,4]`. -/
def example_1x4 : xarray Nat :=
  { shape := [1, 4], strides := [4, 1], layout := layout_type.row_major,
    storage := [7, 8, 9, 10] }

/-- The iterator is `m` decrements away from the begin position of the traversal: it is at
the end sentinel when `m` is the size of the traversal shape, at the position of rank `m`
otherwise. -/
def at_position (c : xarray α) (target : List Nat) (L : layout_type) (m : Nat)
    (it : array_iterator α) : Prop :=
  (m = size target ∧ it.stepper = end_stepper c target ∧ it.shape = target ∧ it.L = L) ∨
    at_rank c target L m it

/-- Modelled from the spec: an iterator of the linear storage of an array (the external
storage layer): the buffer it walks and its position in it. -/
structure storage_pointer (α : Type) where
  buffer : List α
  position : Nat
deriving DecidableEq, Repr

namespace storage_pointer

/-- Modelled from the spec: `operator*` of a storage iterator, linear access to the buffer. -/
def dereference (p : storage_pointer α) : Option α :=
  p.buffer.get? p.position

/-- Modelled from the spec: `operator++` of a storage iterator, the next position. -/
def increment (p : storage_pointer α) : storage_pointer α :=
  { p with position := p.position + 1 }

/-- Modelled from the spec: equality of two storage iterators. -/
def equal [DecidableEq α] (a b : storage_pointer α) : Bool :=
  decide (a = b)

/-- The walk from `first` by repeated increment until the iterator equals `last`: the
iterators that were dereferenced on the way, or `none` when `last` was not reached within
`fuel` increments. -/
def traverse [DecidableEq α] : Nat → storage_pointer α → storage_pointer α →
    Option (List (storage_pointer α))
  | 0, first, last => if equal first last then some [] else none
  | fuel + 1, first, last =>
    if equal first last then some []
    else (traverse fuel (increment first) last).map fun visited => first :: visited

end storage_pointer

/-- Modelled from the spec: strides of a row-major contiguous array of the given shape. -/
def row_major_strides : List Nat → List Nat
  | [] => []
  | _ :: rest => size rest :: row_major_strides rest

/-- Modelled from the spec: strides of a column-major contiguous array whose leading axis
has stride `stride`. -/
def column_major_strides_from (stride : Nat) : List Nat → List Nat
  | [] => []
  | extent :: rest => stride :: column_major_strides_from (stride * extent) rest

/-- Modelled from the spec: strides of a column-major contiguous array of the given shape. -/
def column_major_strides (shape : List Nat) : List Nat :=
  column_major_strides_from 1 shape

namespace xarray

/-- Modelled from the spec: the array is contiguous with the static layout `static`: the
layout is not dynamic, the strides are the ones of that layout for the shape, and the storage
holds one element per index. -/
def contiguous (c : xarray α) (static : layout_type) : Bool :=
  match static with
  | layout_type.row_major =>
    decide (c.strides = row_major_strides c.shape ∧ c.storage.length = size c.shape)
  | layout_type.column_major =>
    decide (c.strides = column_major_strides c.shape ∧ c.storage.length = size c.shape)
  | layout_type.dynamic => false

/-- The container types of the array seen as a derived type of `xcontiguous_iterable` with
static layout `static`. -/
def container_types (α : Type) (static : layout_type) : xcontainer_inner_types where
  storage_iterator := storage_pointer α
  const_storage_iterator := storage_pointer α
  reverse_storage_iterator := reverse_iterator (storage_pointer α)
  const_reverse_storage_iterator := reverse_iterator (storage_pointer α)
  layout := static

/-- Modelled from the spec: the array as the derived type of `xcontiguous_iterable`, with the
iterators of its linear storage. -/
def contiguous_derived (c : xarray α) (static : layout_type) :
    contiguous_derived_type (inner_types α) (container_types α static) where
  toderived_type := c.derived
  storage_begin := { buffer := c.storage, position := 0 }
  storage_end := { buffer := c.storage, position := c.storage.length }
  storage_cbegin := { buffer := c.storage, position := 0 }
  storage_cend := { buffer := c.storage, position := c.storage.length }
  storage_rbegin := { current := { buffer := c.storage, position := c.storage.length } }
  storage_rend := { current := { buffer := c.storage, position := 0 } }
  storage_crbegin := { current := { buffer := c.storage, position := c.storage.length } }
  storage_crend := { current := { buffer := c.storage, position := 0 } }

end xarray

/-- Inner types of a small derived type whose steppers are plain positions. -/
@[reducible] def plain_types : xiterable_inner_types where
  inner_shape_type := List Nat
  stepper := Nat
  const_stepper := Nat

/-- Container types whose reverse storage iterators are the reverse adaptors of the storage
iterators, as for a storage type that uses `std::reverse_iterator`. -/
@[reducible] def adaptor_container_types (SIt CSIt : Type) (static : layout_type) :
    xcontainer_inner_types where
  storage_iterator := SIt
  const_storage_iterator := CSIt
  reverse_storage_iterator := reverse_iterator SIt
  const_reverse_storage_iterator := reverse_iterator CSIt
  layout := static

/-- Container types whose storage iterators are plain positions, with the given static
layout. -/
@[reducible] def plain_container_types (static : layout_type) : xcontainer_inner_types :=
  adaptor_container_types Nat Nat static

/-- A derived type over a storage of two elements with the given static layout; its reverse
storage iterators wrap the positions given as arguments. -/
def plain_derived (static : layout_type) (rbegin_position rend_position : Nat) :
    contiguous_derived_type plain_types (plain_container_types static) where
  shape := [2]
  stepper_begin := fun _ => Except.ok (0 : Nat)
  stepper_end := fun _ _ => Except.ok (2 : Nat)
  stepper_begin_const := fun _ => Except.ok (0 : Nat)
  stepper_end_const := fun _ _ => Except.ok (2 : Nat)
  storage_begin := (0 : Nat)
  storage_end := (2 : Nat)
  storage_cbegin := (0 : Nat)
  storage_cend := (2 : Nat)
  storage_rbegin := (⟨rbegin_position⟩ : reverse_iterator Nat)
  storage_rend := (⟨rend_position⟩ : reverse_iterator Nat)
  storage_crbegin := (⟨rbegin_position⟩ : reverse_iterator Nat)
  storage_crend := (⟨rend_position⟩ : reverse_iterator Nat)

/-- What the caller of an entry point observes of a call: the iterator it returned, an
error signalled to the caller, or the end of the program. -/
inductive observation (α : Type) where
  | iterator (value : α)
  | signalled (error : shape_error)
  | program_terminated
deriving DecidableEq, Repr

/-- What the caller observes of a call to a function declared `noexcept`: such a function
never passes an exception on to its caller. -/
def noexcept_result.observed {α : Type} : noexcept_result α → observation α
  | noexcept_result.returned a => observation.iterator a
  | noexcept_result.terminated => observation.program_terminated

/-- A property of the value of a `noexcept` call, when the call returned one. -/
def noexcept_result.all {α : Type} (p : α → Prop) : noexcept_result α → Prop
  | noexcept_result.returned a => p a
  | noexcept_result.terminated => True

/-- The request to the derived type by which a stepper was obtained. -/
inductive stepper_request (S : Type) where
  | stepper_begin (shape : S)
  | stepper_end (shape : S) (l : layout_type)
deriving DecidableEq, Repr

/-- Whether the request was a call to `stepper_end`. -/
def stepper_request.from_end {S : Type} : stepper_request S → Bool
  | stepper_request.stepper_begin _ => false
  | stepper_request.stepper_end _ _ => true

/-- The shape handed to the derived type in the request. -/
def stepper_request.shape {S : Type} : stepper_request S → S
  | stepper_request.stepper_begin shape => shape
  | stepper_request.stepper_end shape _ => shape

/-- The layout handed to the derived type in the request, when the request takes one. -/
def stepper_request.layout {S : Type} : stepper_request S → Option layout_type
  | stepper_request.stepper_begin _ => none
  | stepper_request.stepper_end _ l => some l

/-- Inner types of a derived type whose steppers carry the request they were obtained by. -/
@[reducible] def instrumented_types (I : xiterable_inner_types) : xiterable_inner_types where
  inner_shape_type := I.inner_shape_type
  stepper := stepper_request I.inner_shape_type × I.stepper
  const_stepper := stepper_request I.inner_shape_type × I.const_stepper

/-- The derived type `d` with each stepper paired with the request that produced it. -/
def instrumented {I : xiterable_inner_types} (d : derived_type I) :
    derived_type (instrumented_types I) where
  shape := d.shape
  stepper_begin := fun s =>
    (d.stepper_begin s).map fun st => (stepper_request.stepper_begin s, st)
  stepper_end := fun s l =>
    (d.stepper_end s l).map fun st => (stepper_request.stepper_end s l, st)
  stepper_begin_const := fun s =>
    (d.stepper_begin_const s).map fun st => (stepper_request.stepper_begin s, st)
  stepper_end_const := fun s l =>
    (d.stepper_end_const s l).map fun st => (stepper_request.stepper_end s l, st)

/-- The iterator with another layout tag. -/
def xiterator.with_layout {St S : Type} (L : layout_type) (it : xiterator St S) :
    xiterator St S :=
  { it with L := L }

/-- The iterator with its stepper replaced by its image under `f`. -/
def xiterator.map_stepper {St St2 S : Type} (f : St → St2) (it : xiterator St S) :
    xiterator St2 S :=
  { stepper := f it.stepper, shape := it.shape, end_index := it.end_index, L := it.L }

/-- The end flag of the iterator is true exactly when its stepper was obtained from
`stepper_end` (and false exactly when it was obtained from `stepper_begin`). -/
def flag_matches_request {S St : Type} (it : xiterator (stepper_request S × St) S) : Prop :=
  it.end_index = it.stepper.1.from_end

/-- The iterator traverses `shape` with the layout tag `L`, its stepper was requested for
`shape`, and a layout handed to the derived type in the request is `L`. -/
def requested_as_traversed {S St : Type} (shape : S) (L : layout_type)
    (it : xiterator (stepper_request S × St) S) : Prop :=
  it.shape = shape ∧ it.L = L ∧ it.stepper.1.shape = shape ∧
    ∀ l, it.stepper.1.layout = some l → l = L

/-- The eight storage functions that `xcontiguous_iterable` calls on the derived type. -/
inductive storage_function where
  | storage_begin
  | storage_end
  | storage_cbegin
  | storage_cend
  | storage_rbegin
  | storage_rend
  | storage_crbegin
  | storage_crend
deriving DecidableEq, Repr

/-- Container types whose storage iterators are the names of the storage functions. -/
@[reducible] def labelled_container_types (static : layout_type) : xcontainer_inner_types where
  storage_iterator := storage_function
  const_storage_iterator := storage_function
  reverse_storage_iterator := storage_function
  const_reverse_storage_iterator := storage_function
  layout := static

/-- A derived type each of whose storage functions returns its own name. -/
def labelled_derived (static : layout_type) :
    contiguous_derived_type plain_types (labelled_container_types static) where
  shape := [2]
  stepper_begin := fun _ => Except.ok (0 : Nat)
  stepper_end := fun _ _ => Except.ok (2 : Nat)
  stepper_begin_const := fun _ => Except.ok (0 : Nat)
  stepper_end_const := fun _ _ => Except.ok (2 : Nat)
  storage_begin := storage_function.storage_begin
  storage_end := storage_function.storage_end
  storage_cbegin := storage_function.storage_cbegin
  storage_cend := storage_function.storage_cend
  storage_rbegin := storage_function.storage_rbegin
  storage_rend := storage_function.storage_rend
  storage_crbegin := storage_function.storage_crbegin
  storage_crend := storage_function.storage_crend

/-- The classes whose member functions forward to each other: the three iterable bases and the
derived type. -/
inductive class_name where
  | xconst_iterable
  | xiterable
  | xcontiguous_iterable
  | derived
deriving DecidableEq, Repr

/-- The names of the member functions of the three bases and of the members they call on the
derived type. -/
inductive function_name where
  | begin
  | end_
  | cbegin
  | cend
  | rbegin
  | rend
  | crbegin
  | crend
  | storage_begin
  | storage_end
  | storage_cbegin
  | storage_cend
  | storage_rbegin
  | storage_rend
  | storage_crbegin
  | storage_crend
  | get_cbegin
  | get_cend
  | get_begin
  | get_end
  | get_stepper_begin
  | get_stepper_end
  | get_shape
  | derived_cast
  | shape
  | stepper_begin
  | stepper_end
deriving DecidableEq, Repr

/-- A member function: its class, its name, whether it is the overload taking a shape, and
whether it is the const overload. -/
structure member where
  owner : class_name
  name : function_name
  with_shape : Bool
  const_access : Bool
deriving DecidableEq, Repr

/-- A member function of `xconst_iterable` (all of them are const). -/
def const_member (name : function_name) (with_shape : Bool) : member :=
  { owner := class_name.xconst_iterable, name := name, with_shape := with_shape,
    const_access := true }

/-- A member function of `xiterable`. -/
def mutable_member (name : function_name) (with_shape const_access : Bool) : member :=
  { owner := class_name.xiterable, name := name, with_shape := with_shape,
    const_access := const_access }

/-- A member function of `xcontiguous_iterable`. -/
def contiguous_member (name : function_name) (with_shape const_access : Bool) : member :=
  { owner := class_name.xcontiguous_iterable, name := name, with_shape := with_shape,
    const_access := const_access }

/-- A member function of the derived type. -/
def derived_member (name : function_name) (with_shape const_access : Bool) : member :=
  { owner := class_name.derived, name := name, with_shape := with_shape,
    const_access := const_access }

/-- The names of the eight public iterator entry points. -/
def iterator_names : List function_name :=
  [function_name.begin, function_name.end_, function_name.cbegin, function_name.cend,
    function_name.rbegin, function_name.rend, function_name.crbegin, function_name.crend]

/-- The names of the four entry points that have a mutable overload. -/
def mutable_iterator_names : List function_name :=
  [function_name.begin, function_name.end_, function_name.rbegin, function_name.rend]

/-- The names of the eight storage entry points. -/
def storage_names : List function_name :=
  [function_name.storage_begin, function_name.storage_end, function_name.storage_cbegin,
    function_name.storage_cend, function_name.storage_rbegin, function_name.storage_rend,
    function_name.storage_crbegin, function_name.storage_crend]

/-- The names of the four storage entry points that have a mutable overload. -/
def mutable_storage_names : List function_name :=
  [function_name.storage_begin, function_name.storage_end, function_name.storage_rbegin,
    function_name.storage_rend]

/-- The public entry points of `xconst_iterable` and `xiterable`. -/
def iterable_entry_points : List member :=
  (iterator_names.map fun n => const_member n false) ++
  (iterator_names.map fun n => const_member n true) ++
  (storage_names.map fun n => const_member n false) ++
  (mutable_iterator_names.map fun n => mutable_member n false false) ++
  (mutable_iterator_names.map fun n => mutable_member n true false) ++
  (mutable_storage_names.map fun n => mutable_member n false false)

/-- The public entry points of `xcontiguous_iterable`. -/
def contiguous_entry_points : List member :=
  (mutable_iterator_names.map fun n => contiguous_member n false false) ++
  (iterator_names.map fun n => contiguous_member n false true) ++
  (mutable_iterator_names.map fun n => contiguous_member n true false) ++
  (iterator_names.map fun n => contiguous_member n true true)

/-- The member is `stepper_begin` or `stepper_end` of the derived type. -/
def is_stepper_request (m : member) : Bool :=
  decide (m.owner = class_name.derived ∧
    (m.name = function_name.stepper_begin ∨ m.name = function_name.stepper_end))

/-- A call of a member function: the member, and the arguments of the call: the layout
template argument `L` (for `get_stepper_end` and `stepper_end`, the layout argument `l`), the
shape argument and the `end_index` argument. A member ignores the arguments it does not
take. -/
structure invocation (S : Type) where
  callee : member
  L : layout_type
  shape : S
  end_index : Bool

/-- What a call of a member function returns: the derived object (`derived_cast`), a shape, a
stepper as the derived type hands it out (or the error it raises), a stepper or an iterator at
the boundary of a `noexcept` member of the bases, or a storage iterator of the derived
type. -/
inductive outcome (I : xiterable_inner_types) (C : xcontainer_inner_types) where
  | self
  | shape (s : I.inner_shape_type)
  | requested_stepper (r : Except shape_error I.stepper)
  | requested_const_stepper (r : Except shape_error I.const_stepper)
  | stepper (r : noexcept_result I.stepper)
  | const_stepper (r : noexcept_result I.const_stepper)
  | iterator (r : noexcept_result (xiterable.layout_iterator I))
  | const_iterator (r : noexcept_result (xconst_iterable.const_layout_iterator I))
  | reverse (r : noexcept_result (xiterable.reverse_layout_iterator I))
  | const_reverse (r : noexcept_result (xconst_iterable.const_reverse_layout_iterator I))
  | storage (it : C.storage_iterator)
  | const_storage (it : C.const_storage_iterator)
  | reverse_storage (it : C.reverse_storage_iterator)
  | const_reverse_storage (it : C.const_reverse_storage_iterator)
  | selected (r : noexcept_result (xcontiguous_iterable.select_iterator I C))
  | selected_const (r : noexcept_result (xcontiguous_iterable.select_const_iterator I C))
  | selected_reverse (r : noexcept_result (xcontiguous_iterable.select_reverse_iterator I C))
  | selected_const_reverse
    (r : noexcept_result (xcontiguous_iterable.select_const_reverse_iterator I C))

/-- The value of the first branch of a `static_if` of `xcontiguous_iterable` as the value of
the entry point: a storage iterator of the derived type becomes the selected iterator; what
an inherited storage function returned is an iterator of `xiterable` and stays one. -/
def outcome.select_storage {I : xiterable_inner_types} {C : xcontainer_inner_types} :
    outcome I C → Option (outcome I C)
  | outcome.storage it =>
    some (outcome.selected (noexcept_result.returned (select_iterator_impl.storage it)))
  | outcome.const_storage it =>
    some (outcome.selected_const (noexcept_result.returned (select_iterator_impl.storage it)))
  | outcome.reverse_storage it =>
    some (outcome.selected_reverse (noexcept_result.returned (select_iterator_impl.storage it)))
  | outcome.const_reverse_storage it =>
    some (outcome.selected_const_reverse
      (noexcept_result.returned (select_iterator_impl.storage it)))
  | outcome.iterator r => some (outcome.iterator r)
  | outcome.const_iterator r => some (outcome.const_iterator r)
  | outcome.reverse r => some (outcome.reverse r)
  | outcome.const_reverse r => some (outcome.const_reverse r)
  | _ => none

/-- The value of the second branch of a `static_if` of `xcontiguous_iterable` as the value of
the entry point: the iterator of `iterable_base` becomes the selected iterator. -/
def outcome.select_layout {I : xiterable_inner_types} {C : xcontainer_inner_types} :
    outcome I C → Option (outcome I C)
  | outcome.iterator r => some (outcome.selected (r.map select_iterator_impl.layout))
  | outcome.const_iterator r =>
    some (outcome.selected_const (r.map select_iterator_impl.layout))
  | outcome.reverse r => some (outcome.selected_reverse (r.map select_iterator_impl.layout))
  | outcome.const_reverse r =>
    some (outcome.selected_const_reverse (r.map select_iterator_impl.layout))
  | _ => none

/-- The body of a member function of `xconst_iterable`, written over `call`, which runs a call
of a member function and gives what it returned together with the member functions entered
during the call, in order. -/
def xconst_iterable.member_body {I : xiterable_inner_types} {C : xcontainer_inner_types}
    (DL : layout_type)
    (call : invocation I.inner_shape_type → Option (outcome I C × List member))
    (inv : invocation I.inner_shape_type) : Option (outcome I C × List member) :=
  match inv.callee.name, inv.callee.with_shape with
  | function_name.begin, s => call { inv with callee := const_member function_name.cbegin s }
  | function_name.end_, s => call { inv with callee := const_member function_name.cend s }
  | function_name.rbegin, s => call { inv with callee := const_member function_name.crbegin s }
  | function_name.rend, s => call { inv with callee := const_member function_name.crend s }
  | function_name.cbegin, s =>
    call { inv with callee := const_member function_name.get_cbegin s, end_index := false }
  | function_name.cend, s =>
    call { inv with callee := const_member function_name.get_cend s, end_index := true }
  | function_name.crbegin, s =>
    match call { inv with callee := const_member function_name.get_cend s,
                          end_index := true } with
    | some (outcome.const_iterator r, entered) =>
      some (outcome.const_reverse (r.map reverse_iterator.mk), entered)
    | _ => none
  | function_name.crend, s =>
    match call { inv with callee := const_member function_name.get_cbegin s,
                          end_index := false } with
    | some (outcome.const_iterator r, entered) =>
      some (outcome.const_reverse (r.map reverse_iterator.mk), entered)
    | _ => none
  | function_name.storage_begin, false =>
    call { inv with callee := const_member function_name.cbegin false, L := DL }
  | function_name.storage_end, false =>
    call { inv with callee := const_member function_name.cend false, L := DL }
  | function_name.storage_cbegin, false =>
    call { inv with callee := const_member function_name.cbegin false, L := DL }
  | function_name.storage_cend, false =>
    call { inv with callee := const_member function_name.cend false, L := DL }
  | function_name.storage_rbegin, false =>
    call { inv with callee := const_member function_name.crbegin false, L := DL }
  | function_name.storage_rend, false =>
    call { inv with callee := const_member function_name.crend false, L := DL }
  | function_name.storage_crbegin, false =>
    call { inv with callee := const_member function_name.crbegin false, L := DL }
  | function_name.storage_crend, false =>
    call { inv with callee := const_member function_name.crend false, L := DL }
  | function_name.get_cbegin, false =>
    match call { inv with callee := const_member function_name.get_shape false } with
    | some (outcome.shape own, entered1) =>
      match call { inv with callee := const_member function_name.get_stepper_begin true,
                            shape := own },
        call { inv with callee := const_member function_name.get_shape false } with
      | some (outcome.const_stepper r, entered2), some (outcome.shape held, entered3) =>
        some (outcome.const_iterator (r.map fun st => xiterator.mk st held inv.end_index inv.L),
          entered1 ++ entered2 ++ entered3)
      | _, _ => none
    | _ => none
  | function_name.get_cend, false =>
    match call { inv with callee := const_member function_name.get_shape false } with
    | some (outcome.shape own, entered1) =>
      match call { inv with callee := const_member function_name.get_stepper_end true,
                            shape := own },
        call { inv with callee := const_member function_name.get_shape false } with
      | some (outcome.const_stepper r, entered2), some (outcome.shape held, entered3) =>
        some (outcome.const_iterator (r.map fun st => xiterator.mk st held inv.end_index inv.L),
          entered1 ++ entered2 ++ entered3)
      | _, _ => none
    | _ => none
  | function_name.get_cbegin, true =>
    match call { inv with callee := const_member function_name.get_stepper_begin true } with
    | some (outcome.const_stepper r, entered) =>
      some (outcome.const_iterator
        (r.map fun st => xiterator.mk st inv.shape inv.end_index inv.L), entered)
    | _ => none
  | function_name.get_cend, true =>
    match call { inv with callee := const_member function_name.get_stepper_end true } with
    | some (outcome.const_stepper r, entered) =>
      some (outcome.const_iterator
        (r.map fun st => xiterator.mk st inv.shape inv.end_index inv.L), entered)
    | _ => none
  | function_name.get_stepper_begin, true =>
    match call { inv with callee := const_member function_name.derived_cast false },
      call { inv with callee := derived_member function_name.stepper_begin true true } with
    | some (outcome.self, entered1), some (outcome.requested_const_stepper r, entered2) =>
      some (outcome.const_stepper (noexcept r), entered1 ++ entered2)
    | _, _ => none
  | function_name.get_stepper_end, true =>
    match call { inv with callee := const_member function_name.derived_cast false },
      call { inv with callee := derived_member function_name.stepper_end true true } with
    | some (outcome.self, entered1), some (outcome.requested_const_stepper r, entered2) =>
      some (outcome.const_stepper (noexcept r), entered1 ++ entered2)
    | _, _ => none
  | function_name.get_shape, false =>
    match call { inv with callee := const_member function_name.derived_cast false },
      call { inv with callee := derived_member function_name.shape false true } with
    | some (outcome.self, entered1), some (outcome.shape s, entered2) =>
      some (outcome.shape s, entered1 ++ entered2)
    | _, _ => none
  | function_name.derived_cast, false => some (outcome.self, [])
  | _, _ => none

/-- The body of a member function of `xiterable` (the mutable overloads it declares), written
over `call`. The const overloads of `get_stepper_begin` and `get_stepper_end` have no body
here: they cannot be instantiated and nothing calls them. -/
def xiterable.member_body {I : xiterable_inner_types} {C : xcontainer_inner_types}
    (DL : layout_type)
    (call : invocation I.inner_shape_type → Option (outcome I C × List member))
    (inv : invocation I.inner_shape_type) : Option (outcome I C × List member) :=
  match inv.callee.name, inv.callee.with_shape with
  | function_name.begin, s =>
    call { inv with callee := mutable_member function_name.get_begin s false,
                    end_index := false }
  | function_name.end_, s =>
    call { inv with callee := mutable_member function_name.get_end s false, end_index := true }
  | function_name.rbegin, s =>
    match call { inv with callee := mutable_member function_name.get_end s false,
                          end_index := true } with
    | some (outcome.iterator r, entered) =>
      some (outcome.reverse (r.map reverse_iterator.mk), entered)
    | _ => none
  | function_name.rend, s =>
    match call { inv with callee := mutable_member function_name.get_begin s false,
                          end_index := false } with
    | some (outcome.iterator r, entered) =>
      some (outcome.reverse (r.map reverse_iterator.mk), entered)
    | _ => none
  | function_name.storage_begin, false =>
    call { inv with callee := mutable_member function_name.begin false false, L := DL }
  | function_name.storage_end, false =>
    call { inv with callee := mutable_member function_name.end_ false false, L := DL }
  | function_name.storage_rbegin, false =>
    call { inv with callee := mutable_member function_name.rbegin false false, L := DL }
  | function_name.storage_rend, false =>
    call { inv with callee := mutable_member function_name.rend false false, L := DL }
  | function_name.get_begin, false =>
    match call { inv with callee := const_member function_name.get_shape false } with
    | some (outcome.shape own, entered1) =>
      match call { inv with callee := mutable_member function_name.get_stepper_begin true false,
                            shape := own },
        call { inv with callee := const_member function_name.get_shape false } with
      | some (outcome.stepper r, entered2), some (outcome.shape held, entered3) =>
        some (outcome.iterator (r.map fun st => xiterator.mk st held inv.end_index inv.L),
          entered1 ++ entered2 ++ entered3)
      | _, _ => none
    | _ => none
  | function_name.get_end, false =>
    match call { inv with callee := const_member function_name.get_shape false } with
    | some (outcome.shape own, entered1) =>
      match call { inv with callee := mutable_member function_name.get_stepper_end true false,
                            shape := own },
        call { inv with callee := const_member function_name.get_shape false } with
      | some (outcome.stepper r, entered2), some (outcome.shape held, entered3) =>
        some (outcome.iterator (r.map fun st => xiterator.mk st held inv.end_index inv.L),
          entered1 ++ entered2 ++ entered3)
      | _, _ => none
    | _ => none
  | function_name.get_begin, true =>
    match call { inv with callee := mutable_member function_name.get_stepper_begin true
                            false } with
    | some (outcome.stepper r, entered) =>
      some (outcome.iterator
        (r.map fun st => xiterator.mk st inv.shape inv.end_index inv.L), entered)
    | _ => none
  | function_name.get_end, true =>
    match call { inv with callee := mutable_member function_name.get_stepper_end true
                            false } with
    | some (outcome.stepper r, entered) =>
      some (outcome.iterator
        (r.map fun st => xiterator.mk st inv.shape inv.end_index inv.L), entered)
    | _ => none
  | function_name.get_stepper_begin, true =>
    match call { inv with callee := mutable_member function_name.derived_cast false false },
      call { inv with callee := derived_member function_name.stepper_begin true false } with
    | some (outcome.self, entered1), some (outcome.requested_stepper r, entered2) =>
      some (outcome.stepper (noexcept r), entered1 ++ entered2)
    | _, _ => none
  | function_name.get_stepper_end, true =>
    match call { inv with callee := mutable_member function_name.derived_cast false false },
      call { inv with callee := derived_member function_name.stepper_end true false } with
    | some (outcome.self, entered1), some (outcome.requested_stepper r, entered2) =>
      some (outcome.stepper (noexcept r), entered1 ++ entered2)
    | _, _ => none
  | function_name.derived_cast, false => some (outcome.self, [])
  | _, _ => none

/-- One `static_if<L == static_layout>` of `xcontiguous_iterable`: the first branch calls
`derived_cast()` and then the storage function on the derived object, the second branch calls
the member of `iterable_base`. -/
def xcontiguous_iterable.selected_call {I : xiterable_inner_types}
    {C : xcontainer_inner_types}
    (call : invocation I.inner_shape_type → Option (outcome I C × List member))
    (inv : invocation I.inner_shape_type) (storage_function base_function : member) :
    Option (outcome I C × List member) :=
  if inv.L = xcontiguous_iterable.static_layout C then
    match call { inv with callee := contiguous_member function_name.derived_cast false
                            inv.callee.const_access },
      call { inv with callee := storage_function } with
    | some (outcome.self, entered1), some (value, entered2) =>
      value.select_storage.map fun selected => (selected, entered1 ++ entered2)
    | _, _ => none
  else
    match call { inv with callee := base_function } with
    | some (value, entered) => value.select_layout.map fun selected => (selected, entered)
    | none => none

/-- The body of a member function of `xcontiguous_iterable`, written over `call`. -/
def xcontiguous_iterable.member_body {I : xiterable_inner_types} {C : xcontainer_inner_types}
    (call : invocation I.inner_shape_type → Option (outcome I C × List member))
    (inv : invocation I.inner_shape_type) : Option (outcome I C × List member) :=
  match inv.callee.name, inv.callee.with_shape, inv.callee.const_access with
  | function_name.begin, false, false =>
    xcontiguous_iterable.selected_call call inv
      (derived_member function_name.storage_begin false false)
      (mutable_member function_name.begin false false)
  | function_name.end_, false, false =>
    xcontiguous_iterable.selected_call call inv
      (derived_member function_name.storage_end false false)
      (mutable_member function_name.end_ false false)
  | function_name.begin, false, true =>
    call { inv with callee := contiguous_member function_name.cbegin false true }
  | function_name.end_, false, true =>
    call { inv with callee := contiguous_member function_name.cend false true }
  | function_name.cbegin, false, true =>
    xcontiguous_iterable.selected_call call inv
      (derived_member function_name.storage_cbegin false true)
      (const_member function_name.cbegin false)
  | function_name.cend, false, true =>
    xcontiguous_iterable.selected_call call inv
      (derived_member function_name.storage_cend false true)
      (const_member function_name.cend false)
  | function_name.rbegin, false, false =>
    xcontiguous_iterable.selected_call call inv
      (derived_member function_name.storage_rbegin false false)
      (mutable_member function_name.rbegin false false)
  | function_name.rend, false, false =>
    xcontiguous_iterable.selected_call call inv
      (derived_member function_name.storage_rend false false)
      (mutable_member function_name.rend false false)
  | function_name.rbegin, false, true =>
    call { inv with callee := contiguous_member function_name.crbegin false true }
  | function_name.rend, false, true =>
    call { inv with callee := contiguous_member function_name.crend false true }
  | function_name.crbegin, false, true =>
    xcontiguous_iterable.selected_call call inv
      (derived_member function_name.storage_crbegin false true)
      (const_member function_name.crbegin false)
  | function_name.crend, false, true =>
    xcontiguous_iterable.selected_call call inv
      (derived_member function_name.storage_crend false true)
      (const_member function_name.crend false)
  | function_name.begin, true, false =>
    call { inv with callee := mutable_member function_name.begin true false }
  | function_name.end_, true, false =>
    call { inv with callee := mutable_member function_name.end_ true false }
  | function_name.begin, true, true =>
    call { inv with callee := const_member function_name.begin true }
  | function_name.end_, true, true =>
    call { inv with callee := const_member function_name.end_ true }
  | function_name.cbegin, true, true =>
    call { inv with callee := const_member function_name.cbegin true }
  | function_name.cend, true, true =>
    call { inv with callee := const_member function_name.cend true }
  | function_name.rbegin, true, false =>
    call { inv with callee := mutable_member function_name.rbegin true false }
  | function_name.rend, true, false =>
    call { inv with callee := mutable_member function_name.rend true false }
  | function_name.rbegin, true, true =>
    call { inv with callee := const_member function_name.rbegin true }
  | function_name.rend, true, true =>
    call { inv with callee := const_member function_name.rend true }
  | function_name.crbegin, true, true =>
    call { inv with callee := const_member function_name.crbegin true }
  | function_name.crend, true, true =>
    call { inv with callee := const_member function_name.crend true }
  | function_name.derived_cast, false, _ => some (outcome.self, [])
  | _, _, _ => none

/-- Modelled from the spec: the members of the derived type that the bases call. `shape`,
`stepper_begin` and `stepper_end` are its own and call nothing of the bases. Its storage
functions are its own too, unless `inherited` is set: then the derived type defines none and
the name resolves to the member it inherits: the one `xiterable` declares for mutable access
(`storage_begin`, `storage_end`, `storage_rbegin`, `storage_rend`), the one of
`xconst_iterable` for the c-prefixed names. -/
def derived_type.member_body {I : xiterable_inner_types} {C : xcontainer_inner_types}
    (d : contiguous_derived_type I C) (inherited : Bool)
    (call : invocation I.inner_shape_type → Option (outcome I C × List member))
    (inv : invocation I.inner_shape_type) : Option (outcome I C × List member) :=
  match inv.callee.name, inv.callee.with_shape, inv.callee.const_access with
  | function_name.shape, false, true => some (outcome.shape d.shape, [])
  | function_name.stepper_begin, true, false =>
    some (outcome.requested_stepper (d.stepper_begin inv.shape), [])
  | function_name.stepper_begin, true, true =>
    some (outcome.requested_const_stepper (d.stepper_begin_const inv.shape), [])
  | function_name.stepper_end, true, false =>
    some (outcome.requested_stepper (d.stepper_end inv.shape inv.L), [])
  | function_name.stepper_end, true, true =>
    some (outcome.requested_const_stepper (d.stepper_end_const inv.shape inv.L), [])
  | function_name.storage_begin, false, false =>
    if inherited then
      call { inv with callee := mutable_member function_name.storage_begin false false }
    else some (outcome.storage d.storage_begin, [])
  | function_name.storage_end, false, false =>
    if inherited then
      call { inv with callee := mutable_member function_name.storage_end false false }
    else some (outcome.storage d.storage_end, [])
  | function_name.storage_rbegin, false, false =>
    if inherited then
      call { inv with callee := mutable_member function_name.storage_rbegin false false }
    else some (outcome.reverse_storage d.storage_rbegin, [])
  | function_name.storage_rend, false, false =>
    if inherited then
      call { inv with callee := mutable_member function_name.storage_rend false false }
    else some (outcome.reverse_storage d.storage_rend, [])
  | function_name.storage_cbegin, false, true =>
    if inherited then call { inv with callee := const_member function_name.storage_cbegin false }
    else some (outcome.const_storage d.storage_cbegin, [])
  | function_name.storage_cend, false, true =>
    if inherited then call { inv with callee := const_member function_name.storage_cend false }
    else some (outcome.const_storage d.storage_cend, [])
  | function_name.storage_crbegin, false, true =>
    if inherited then
      call { inv with callee := const_member function_name.storage_crbegin false }
    else some (outcome.const_reverse_storage d.storage_crbegin, [])
  | function_name.storage_crend, false, true =>
    if inherited then call { inv with callee := const_member function_name.storage_crend false }
    else some (outcome.const_reverse_storage d.storage_crend, [])
  | _, _, _ => none

/-- The body of the member function that a call enters. -/
def member_body {I : xiterable_inner_types} {C : xcontainer_inner_types}
    (d : contiguous_derived_type I C) (DL : layout_type) (inherited : Bool)
    (call : invocation I.inner_shape_type → Option (outcome I C × List member))
    (inv : invocation I.inner_shape_type) : Option (outcome I C × List member) :=
  match inv.callee.owner, inv.callee.const_access with
  | class_name.xconst_iterable, true => xconst_iterable.member_body DL call inv
  | class_name.xiterable, false => xiterable.member_body DL call inv
  | class_name.xcontiguous_iterable, _ => xcontiguous_iterable.member_body call inv
  | class_name.derived, _ => derived_type.member_body d inherited call inv
  | _, _ => none

/-- Runs a call of a member function, every call nested at most `fuel` deep: what the call
returned and the member functions entered, in order, the called member first; `none` when
the nesting goes deeper than `fuel` or the call names no member function. -/
def run {I : xiterable_inner_types} {C : xcontainer_inner_types}
    (d : contiguous_derived_type I C) (DL : layout_type) (inherited : Bool) :
    Nat → invocation I.inner_shape_type → Option (outcome I C × List member)
  | 0, _ => none
  | fuel + 1, inv =>
    (member_body d DL inherited (run d DL inherited fuel) inv).map fun r =>
      (r.1, inv.callee :: r.2)

/-- The member function of `xconst_iterable` that a call names, applied to the arguments of
the call. -/
def xconst_iterable.embedded {I : xiterable_inner_types} {C : xcontainer_inner_types}
    (d : derived_type I) (DL : layout_type) (inv : invocation I.inner_shape_type) :
    Option (outcome I C) :=
  match inv.callee.name, inv.callee.with_shape with
  | function_name.begin, false => some (outcome.const_iterator (xconst_iterable.begin inv.L d))
  | function_name.end_, false => some (outcome.const_iterator (xconst_iterable.end_ inv.L d))
  | function_name.cbegin, false => some (outcome.const_iterator (xconst_iterable.cbegin inv.L d))
  | function_name.cend, false => some (outcome.const_iterator (xconst_iterable.cend inv.L d))
  | function_name.rbegin, false => some (outcome.const_reverse (xconst_iterable.rbegin inv.L d))
  | function_name.rend, false => some (outcome.const_reverse (xconst_iterable.rend inv.L d))
  | function_name.crbegin, false => some (outcome.const_reverse (xconst_iterable.crbegin inv.L d))
  | function_name.crend, false => some (outcome.const_reverse (xconst_iterable.crend inv.L d))
  | function_name.begin, true =>
    some (outcome.const_iterator (xconst_iterable.begin_broadcast inv.L d inv.shape))
  | function_name.end_, true =>
    some (outcome.const_iterator (xconst_iterable.end_broadcast inv.L d inv.shape))
  | function_name.cbegin, true =>
    some (outcome.const_iterator (xconst_iterable.cbegin_broadcast inv.L d inv.shape))
  | function_name.cend, true =>
    some (outcome.const_iterator (xconst_iterable.cend_broadcast inv.L d inv.shape))
  | function_name.rbegin, true =>
    some (outcome.const_reverse (xconst_iterable.rbegin_broadcast inv.L d inv.shape))
  | function_name.rend, true =>
    some (outcome.const_reverse (xconst_iterable.rend_broadcast inv.L d inv.shape))
  | function_name.crbegin, true =>
    some (outcome.const_reverse (xconst_iterable.crbegin_broadcast inv.L d inv.shape))
  | function_name.crend, true =>
    some (outcome.const_reverse (xconst_iterable.crend_broadcast inv.L d inv.shape))
  | function_name.storage_begin, false =>
    some (outcome.const_iterator (xconst_iterable.storage_begin DL d))
  | function_name.storage_end, false =>
    some (outcome.const_iterator (xconst_iterable.storage_end DL d))
  | function_name.storage_cbegin, false =>
    some (outcome.const_iterator (xconst_iterable.storage_cbegin DL d))
  | function_name.storage_cend, false =>
    some (outcome.const_iterator (xconst_iterable.storage_cend DL d))
  | function_name.storage_rbegin, false =>
    some (outcome.const_reverse (xconst_iterable.storage_rbegin DL d))
  | function_name.storage_rend, false =>
    some (outcome.const_reverse (xconst_iterable.storage_rend DL d))
  | function_name.storage_crbegin, false =>
    some (outcome.const_reverse (xconst_iterable.storage_crbegin DL d))
  | function_name.storage_crend, false =>
    some (outcome.const_reverse (xconst_iterable.storage_crend DL d))
  | function_name.get_cbegin, false =>
    some (outcome.const_iterator (xconst_iterable.get_cbegin inv.L d inv.end_index))
  | function_name.get_cend, false =>
    some (outcome.const_iterator (xconst_iterable.get_cend inv.L d inv.end_index))
  | function_name.get_cbegin, true =>
    some (outcome.const_iterator
      (xconst_iterable.get_cbegin_broadcast inv.L d inv.shape inv.end_index))
  | function_name.get_cend, true =>
    some (outcome.const_iterator
      (xconst_iterable.get_cend_broadcast inv.L d inv.shape inv.end_index))
  | function_name.get_stepper_begin, true =>
    some (outcome.const_stepper (xconst_iterable.get_stepper_begin d inv.shape))
  | function_name.get_stepper_end, true =>
    some (outcome.const_stepper (xconst_iterable.get_stepper_end d inv.shape inv.L))
  | function_name.get_shape, false => some (outcome.shape (xconst_iterable.get_shape d))
  | function_name.derived_cast, false => some outcome.self
  | _, _ => none

/-- The member function of `xiterable` that a call names, applied to the arguments of the
call. -/
def xiterable.embedded {I : xiterable_inner_types} {C : xcontainer_inner_types}
    (d : derived_type I) (DL : layout_type) (inv : invocation I.inner_shape_type) :
    Option (outcome I C) :=
  match inv.callee.name, inv.callee.with_shape with
  | function_name.begin, false => some (outcome.iterator (xiterable.begin inv.L d))
  | function_name.end_, false => some (outcome.iterator (xiterable.end_ inv.L d))
  | function_name.rbegin, false => some (outcome.reverse (xiterable.rbegin inv.L d))
  | function_name.rend, false => some (outcome.reverse (xiterable.rend inv.L d))
  | function_name.begin, true =>
    some (outcome.iterator (xiterable.begin_broadcast inv.L d inv.shape))
  | function_name.end_, true =>
    some (outcome.iterator (xiterable.end_broadcast inv.L d inv.shape))
  | function_name.rbegin, true =>
    some (outcome.reverse (xiterable.rbegin_broadcast inv.L d inv.shape))
  | function_name.rend, true =>
    some (outcome.reverse (xiterable.rend_broadcast inv.L d inv.shape))
  | function_name.storage_begin, false => some (outcome.iterator (xiterable.storage_begin DL d))
  | function_name.storage_end, false => some (outcome.iterator (xiterable.storage_end DL d))
  | function_name.storage_rbegin, false => some (outcome.reverse (xiterable.storage_rbegin DL d))
  | function_name.storage_rend, false => some (outcome.reverse (xiterable.storage_rend DL d))
  | function_name.get_begin, false =>
    some (outcome.iterator (xiterable.get_begin inv.L d inv.end_index))
  | function_name.get_end, false =>
    some (outcome.iterator (xiterable.get_end inv.L d inv.end_index))
  | function_name.get_begin, true =>
    some (outcome.iterator (xiterable.get_begin_broadcast inv.L d inv.shape inv.end_index))
  | function_name.get_end, true =>
    some (outcome.iterator (xiterable.get_end_broadcast inv.L d inv.shape inv.end_index))
  | function_name.get_stepper_begin, true =>
    some (outcome.stepper (xiterable.get_stepper_begin d inv.shape))
  | function_name.get_stepper_end, true =>
    some (outcome.stepper (xiterable.get_stepper_end d inv.shape inv.L))
  | function_name.derived_cast, false => some outcome.self
  | _, _ => none

/-- Modelled from the spec: the member of the derived type that a call names, applied to the
arguments of the call; a storage function that the derived type inherits is the member
function of `xiterable` or of `xconst_iterable`. -/
def derived_type.embedded {I : xiterable_inner_types} {C : xcontainer_inner_types}
    (d : contiguous_derived_type I C) (DL : layout_type) (inherited : Bool)
    (inv : invocation I.inner_shape_type) : Option (outcome I C) :=
  match inv.callee.name, inv.callee.with_shape, inv.callee.const_access with
  | function_name.shape, false, true => some (outcome.shape d.shape)
  | function_name.stepper_begin, true, false =>
    some (outcome.requested_stepper (d.stepper_begin inv.shape))
  | function_name.stepper_begin, true, true =>
    some (outcome.requested_const_stepper (d.stepper_begin_const inv.shape))
  | function_name.stepper_end, true, false =>
    some (outcome.requested_stepper (d.stepper_end inv.shape inv.L))
  | function_name.stepper_end, true, true =>
    some (outcome.requested_const_stepper (d.stepper_end_const inv.shape inv.L))
  | function_name.storage_begin, false, false =>
    some (if inherited then outcome.iterator (xiterable.storage_begin DL d.toderived_type)
      else outcome.storage d.storage_begin)
  | function_name.storage_end, false, false =>
    some (if inherited then outcome.iterator (xiterable.storage_end DL d.toderived_type)
      else outcome.storage d.storage_end)
  | function_name.storage_rbegin, false, false =>
    some (if inherited then outcome.reverse (xiterable.storage_rbegin DL d.toderived_type)
      else outcome.reverse_storage d.storage_rbegin)
  | function_name.storage_rend, false, false =>
    some (if inherited then outcome.reverse (xiterable.storage_rend DL d.toderived_type)
      else outcome.reverse_storage d.storage_rend)
  | function_name.storage_cbegin, false, true =>
    some (if inherited then
        outcome.const_iterator (xconst_iterable.storage_cbegin DL d.toderived_type)
      else outcome.const_storage d.storage_cbegin)
  | function_name.storage_cend, false, true =>
    some (if inherited then
        outcome.const_iterator (xconst_iterable.storage_cend DL d.toderived_type)
      else outcome.const_storage d.storage_cend)
  | function_name.storage_crbegin, false, true =>
    some (if inherited then
        outcome.const_reverse (xconst_iterable.storage_crbegin DL d.toderived_type)
      else outcome.const_reverse_storage d.storage_crbegin)
  | function_name.storage_crend, false, true =>
    some (if inherited then
        outcome.const_reverse (xconst_iterable.storage_crend DL d.toderived_type)
      else outcome.const_reverse_storage d.storage_crend)
  | _, _, _ => none

/-- The member function of `xcontiguous_iterable` that a call names, applied to the arguments
of the call. When the derived type inherits its storage functions, a no-argument entry point
called with the static layout returns what the inherited storage function returns. -/
def xcontiguous_iterable.embedded {I : xiterable_inner_types} {C : xcontainer_inner_types}
    (d : contiguous_derived_type I C) (DL : layout_type) (inherited : Bool)
    (inv : invocation I.inner_shape_type) : Option (outcome I C) :=
  match inv.callee.name, inv.callee.with_shape, inv.callee.const_access with
  | function_name.begin, false, false =>
    if inherited ∧ inv.L = xcontiguous_iterable.static_layout C then
      some (outcome.iterator (xiterable.storage_begin DL d.toderived_type))
    else some (outcome.selected
      (xcontiguous_iterable.begin inv.L d))
  | function_name.end_, false, false =>
    if inherited ∧ inv.L = xcontiguous_iterable.static_layout C then
      some (outcome.iterator (xiterable.storage_end DL d.toderived_type))
    else some (outcome.selected
      (xcontiguous_iterable.end_ inv.L d))
  | function_name.rbegin, false, false =>
    if inherited ∧ inv.L = xcontiguous_iterable.static_layout C then
      some (outcome.reverse (xiterable.storage_rbegin DL d.toderived_type))
    else some (outcome.selected_reverse
      (xcontiguous_iterable.rbegin inv.L d))
  | function_name.rend, false, false =>
    if inherited ∧ inv.L = xcontiguous_iterable.static_layout C then
      some (outcome.reverse (xiterable.storage_rend DL d.toderived_type))
    else some (outcome.selected_reverse
      (xcontiguous_iterable.rend inv.L d))
  | function_name.cbegin, false, true =>
    if inherited ∧ inv.L = xcontiguous_iterable.static_layout C then
      some (outcome.const_iterator (xconst_iterable.storage_cbegin DL d.toderived_type))
    else some (outcome.selected_const
      (xcontiguous_iterable.cbegin inv.L d))
  | function_name.cend, false, true =>
    if inherited ∧ inv.L = xcontiguous_iterable.static_layout C then
      some (outcome.const_iterator (xconst_iterable.storage_cend DL d.toderived_type))
    else some (outcome.selected_const
      (xcontiguous_iterable.cend inv.L d))
  | function_name.crbegin, false, true =>
    if inherited ∧ inv.L = xcontiguous_iterable.static_layout C then
      some (outcome.const_reverse (xconst_iterable.storage_crbegin DL d.toderived_type))
    else some (outcome.selected_const_reverse
      (xcontiguous_iterable.crbegin inv.L d))
  | function_name.crend, false, true =>
    if inherited ∧ inv.L = xcontiguous_iterable.static_layout C then
      some (outcome.const_reverse (xconst_iterable.storage_crend DL d.toderived_type))
    else some (outcome.selected_const_reverse
      (xcontiguous_iterable.crend inv.L d))
  | function_name.begin, false, true =>
    if inherited ∧ inv.L = xcontiguous_iterable.static_layout C then
      some (outcome.const_iterator (xconst_iterable.storage_cbegin DL d.toderived_type))
    else some (outcome.selected_const
      (xcontiguous_iterable.begin_const inv.L d))
  | function_name.end_, false, true =>
    if inherited ∧ inv.L = xcontiguous_iterable.static_layout C then
      some (outcome.const_iterator (xconst_iterable.storage_cend DL d.toderived_type))
    else some (outcome.selected_const
      (xcontiguous_iterable.end_const inv.L d))
  | function_name.rbegin, false, true =>
    if inherited ∧ inv.L = xcontiguous_iterable.static_layout C then
      some (outcome.const_reverse (xconst_iterable.storage_crbegin DL d.toderived_type))
    else some (outcome.selected_const_reverse
      (xcontiguous_iterable.rbegin_const inv.L d))
  | function_name.rend, false, true =>
    if inherited ∧ inv.L = xcontiguous_iterable.static_layout C then
      some (outcome.const_reverse (xconst_iterable.storage_crend DL d.toderived_type))
    else some (outcome.selected_const_reverse
      (xcontiguous_iterable.rend_const inv.L d))
  | function_name.begin, true, false =>
    some (outcome.iterator (xcontiguous_iterable.begin_broadcast inv.L d inv.shape))
  | function_name.end_, true, false =>
    some (outcome.iterator (xcontiguous_iterable.end_broadcast inv.L d inv.shape))
  | function_name.begin, true, true =>
    some (outcome.const_iterator (xcontiguous_iterable.begin_broadcast_const inv.L d inv.shape))
  | function_name.end_, true, true =>
    some (outcome.const_iterator (xcontiguous_iterable.end_broadcast_const inv.L d inv.shape))
  | function_name.cbegin, true, true =>
    some (outcome.const_iterator (xcontiguous_iterable.cbegin_broadcast inv.L d inv.shape))
  | function_name.cend, true, true =>
    some (outcome.const_iterator (xcontiguous_iterable.cend_broadcast inv.L d inv.shape))
  | function_name.rbegin, true, false =>
    some (outcome.reverse (xcontiguous_iterable.rbegin_broadcast inv.L d inv.shape))
  | function_name.rend, true, false =>
    some (outcome.reverse (xcontiguous_iterable.rend_broadcast inv.L d inv.shape))
  | function_name.rbegin, true, true =>
    some (outcome.const_reverse (xcontiguous_iterable.rbegin_broadcast_const inv.L d inv.shape))
  | function_name.rend, true, true =>
    some (outcome.const_reverse (xcontiguous_iterable.rend_broadcast_const inv.L d inv.shape))
  | function_name.crbegin, true, true =>
    some (outcome.const_reverse (xcontiguous_iterable.crbegin_broadcast inv.L d inv.shape))
  | function_name.crend, true, true =>
    some (outcome.const_reverse (xcontiguous_iterable.crend_broadcast inv.L d inv.shape))
  | function_name.derived_cast, false, _ => some outcome.self
  | _, _, _ => none

/-- The embedded member function that a call names, applied to the arguments of the call;
`none` when the call names no member function. -/
def embedded {I : xiterable_inner_types} {C : xcontainer_inner_types}
    (d : contiguous_derived_type I C) (DL : layout_type) (inherited : Bool)
    (inv : invocation I.inner_shape_type) : Option (outcome I C) :=
  match inv.callee.owner, inv.callee.const_access with
  | class_name.xconst_iterable, true => xconst_iterable.embedded d.toderived_type DL inv
  | class_name.xiterable, false => xiterable.embedded d.toderived_type DL inv
  | class_name.xcontiguous_iterable, _ => xcontiguous_iterable.embedded d DL inherited inv
  | class_name.derived, _ => derived_type.embedded d DL inherited inv
  | _, _ => none

/-- The call `m` with the given arguments. -/
def member.called {S : Type} (L : layout_type) (shape : S) (end_index : Bool) (m : member) :
    invocation S :=
  { callee := m, L := L, shape := shape, end_index := end_index }

/-- The call returned, and the member function `m` was entered once during it. -/
def entered_once {I : xiterable_inner_types} {C : xcontainer_inner_types} (m : member)
    (result : Option (outcome I C × List member)) : Bool :=
  match result with
  | some (_, entered) => decide (entered.count m = 1)
  | none => false

/-- The call returned, it entered `stepper_begin` or `stepper_end` of the derived type, and
it entered at most `bound` member functions. -/
def reaches_stepper_request {I : xiterable_inner_types} {C : xcontainer_inner_types}
    (bound : Nat) (result : Option (outcome I C × List member)) : Bool :=
  match result with
  | some (_, entered) => entered.any is_stepper_request && decide (entered.length ≤ bound)
  | none => false

/-! # Theorems -/

theorem getD_set_eq (l : List Nat) (a i v : Nat) :
    (l.set a v).getD i 0 = if a = i ∧ a < l.length then v else l.getD i 0 := by
  simp only [List.getD_eq_getElem?_getD, List.getElem?_set]
  by_cases h : a = i
  · subst h
    by_cases h2 : a < l.length
    · simp [h2]
    · simp [h2, List.getElem?_eq_none (not_lt.mp h2)]
  · simp [h]

theorem lin_set_not_mem (shape idx : List Nat) (a v : Nat) (o : List Nat) (h : a ∉ o) :
    lin shape (idx.set a v) o = lin shape idx o := by
  induction o with
  | nil => rfl
  | cons b r ih =>
    have hb : a ≠ b := fun e => h (by simp [e])
    have hr : a ∉ r := fun e => h (by simp [e])
    simp [lin, getD_set_eq, hb, ih hr]

theorem lin_lt_vol (shape idx : List Nat) (o : List Nat)
    (h : ∀ a ∈ o, idx.getD a 0 < shape.getD a 0) : lin shape idx o < vol shape o := by
  induction o with
  | nil => simp [lin, vol]
  | cons b r ih =>
    have h1 := h b (by simp)
    have h2 := ih (fun a ha => h a (by simp [ha]))
    simp only [lin, vol]
    calc idx.getD b 0 + shape.getD b 0 * lin shape idx r
        < shape.getD b 0 + shape.getD b 0 * lin shape idx r := by omega
      _ = shape.getD b 0 * (lin shape idx r + 1) := by ring
      _ ≤ shape.getD b 0 * vol shape r := Nat.mul_le_mul_left _ h2

theorem sum_range_set (f : Nat → Nat) (l : List Nat) (a v : Nat) (ha : a < l.length) :
    ∀ n : Nat,
      (a < n → ((List.range n).map fun i => (l.set a v).getD i 0 * f i).sum + l.getD a 0 * f a
          = ((List.range n).map fun i => l.getD i 0 * f i).sum + v * f a) ∧
      (n ≤ a → ((List.range n).map fun i => (l.set a v).getD i 0 * f i).sum
          = ((List.range n).map fun i => l.getD i 0 * f i).sum) := by
  intro n
  induction n with
  | zero => simp
  | succ n ih =>
    simp only [List.range_succ, List.map_append, List.sum_append, List.map_cons, List.map_nil,
      List.sum_cons, List.sum_nil, Nat.add_zero]
    constructor
    · intro h
      by_cases hn : a = n
      · subst hn
        have := ih.2 (le_refl _)
        rw [this, getD_set_eq, if_pos ⟨rfl, ha⟩]
        ring
      · have h1 : a < n := by omega
        have := ih.1 h1
        rw [getD_set_eq, if_neg (fun e => hn e.1)]
        omega
    · intro h
      have := ih.2 (by omega)
      have hne : a ≠ n := by omega
      rw [this, getD_set_eq, if_neg (fun e => hne e.1)]

theorem offset_at_set (st : xstepper α) (idx : List Nat) (a v : Nat) (ha : a < idx.length)
    (hn : a < st.target.length) :
    offset_at st (idx.set a v) + idx.getD a 0 * st.stride a = offset_at st idx + v * st.stride a :=
  (sum_range_set st.stride idx a v ha st.target.length).1 hn

theorem offset_at_congr (st st2 : xstepper α) (hc : st2.c = st.c) (ht : st2.target = st.target)
    (idx : List Nat) : offset_at st2 idx = offset_at st idx := by
  simp [offset_at, xstepper.stride, xstepper.lead, hc, ht]

theorem carry_lt (L : layout_type) (s : List Nat) :
    ∀ (o : List Nat) (st : xstepper α), o.Nodup →
      (∀ a ∈ o, a < st.index.length ∧ a < st.target.length) →
      (∀ a ∈ o, st.index.getD a 0 < s.getD a 0) →
      lin s st.index o + 1 < vol s o →
      st.offset = offset_at st st.index →
      (carry L s st o).c = st.c ∧ (carry L s st o).target = st.target ∧
      (carry L s st o).past_end = st.past_end ∧
      (carry L s st o).index.length = st.index.length ∧
      lin s (carry L s st o).index o = lin s st.index o + 1 ∧
      (∀ a ∈ o, (carry L s st o).index.getD a 0 < s.getD a 0) ∧
      (∀ a, a ∉ o → (carry L s st o).index.getD a 0 = st.index.getD a 0) ∧
      (carry L s st o).offset = offset_at st (carry L s st o).index := by
  intro o
  induction o with
  | nil => intro st _ _ _ h; simp [lin, vol] at h
  | cons b r ih =>
    intro st hnd hlen hrange hlt hoff
    have hb := hlen b (by simp)
    have hbr := hrange b (by simp)
    have hbnr : b ∉ r := (List.nodup_cons.mp hnd).1
    have hrnd : r.Nodup := (List.nodup_cons.mp hnd).2
    have hstep : (st.step b 1).index.getD b 0 = st.index.getD b 0 + 1 := by
      simp only [xstepper.step]
      rw [getD_set_eq, if_pos ⟨rfl, hb.1⟩]
    have hset := offset_at_set st st.index b (st.index.getD b 0 + 1) hb.1 hb.2
    by_cases hreach : (st.step b 1).index.getD b 0 = s.getD b 0
    · -- the axis reached its extent: reset and carry
      have hcarry : carry L s st (b :: r) = carry L s ((st.step b 1).reset b) r := by
        simp only [carry]
        rw [if_pos hreach]
      have hidx2 : ((st.step b 1).reset b).index = st.index.set b 0 := by
        simp [xstepper.step, xstepper.reset]
      have hset0 := offset_at_set st st.index b 0 hb.1 hb.2
      have hstr : (st.step b 1).stride b = st.stride b := rfl
      have hoff2 : ((st.step b 1).reset b).offset
          = offset_at ((st.step b 1).reset b) ((st.step b 1).reset b).index := by
        rw [offset_at_congr st ((st.step b 1).reset b) rfl rfl, hidx2]
        simp only [xstepper.reset]
        rw [hstep, hstr]
        simp only [xstepper.step]
        rw [hoff]
        have : (st.index.getD b 0 + 1) * st.stride b
            = st.index.getD b 0 * st.stride b + st.stride b := by ring
        omega
      have hl2 : lin s ((st.step b 1).reset b).index r = lin s st.index r := by
        rw [hidx2, lin_set_not_mem _ _ _ _ _ hbnr]
      have hlt2 : lin s ((st.step b 1).reset b).index r + 1 < vol s r := by
        rw [hl2]
        simp only [lin, vol] at hlt
        rw [hstep] at hreach
        rw [← hreach] at hlt
        by_contra hcon
        have h3 : vol s r ≤ lin s st.index r + 1 := by omega
        have h4 := Nat.mul_le_mul_left (st.index.getD b 0 + 1) h3
        have h5 : (st.index.getD b 0 + 1) * (lin s st.index r + 1)
            = st.index.getD b 0 + (st.index.getD b 0 + 1) * lin s st.index r + 1 := by ring
        omega
      have hres := ih ((st.step b 1).reset b) hrnd
        (fun a ha => by
          rw [hidx2, List.length_set]
          exact hlen a (by simp [ha]))
        (fun a ha => by
          have hne : b ≠ a := fun e => hbnr (e ▸ ha)
          rw [hidx2, getD_set_eq, if_neg (fun e => hne e.1)]
          exact hrange a (by simp [ha]))
        hlt2 hoff2
      rw [hcarry]
      obtain ⟨h1, h2, h3, h4, h5, h6, h7, h8⟩ := hres
      have hb0 : (carry L s ((st.step b 1).reset b) r).index.getD b 0 = 0 := by
        rw [h7 b hbnr, hidx2, getD_set_eq, if_pos ⟨rfl, hb.1⟩]
      refine ⟨h1, h2, h3, ?_, ?_, ?_, ?_, ?_⟩
      · rw [h4, hidx2, List.length_set]
      · simp only [lin]
        rw [hb0, h5, hl2]
        rw [hstep] at hreach
        rw [← hreach]
        ring
      · intro a ha
        rcases List.mem_cons.mp ha with e | e
        · subst e
          rw [hb0]
          omega
        · exact h6 a e
      · intro a ha
        have hne : b ≠ a := fun e => ha (by simp [e])
        have har : a ∉ r := fun e => ha (by simp [e])
        rw [h7 a har, hidx2, getD_set_eq, if_neg (fun e => hne e.1)]
      · rw [h8]
        exact offset_at_congr _ _ rfl rfl _
    · -- the axis stays below its extent
      have hcarry : carry L s st (b :: r) = st.step b 1 := by
        simp only [carry]
        rw [if_neg hreach]
      rw [hcarry]
      have hidx1 : (st.step b 1).index = st.index.set b (st.index.getD b 0 + 1) := rfl
      refine ⟨rfl, rfl, rfl, ?_, ?_, ?_, ?_, ?_⟩
      · rw [hidx1, List.length_set]
      · simp only [lin]
        rw [hstep, hidx1, lin_set_not_mem _ _ _ _ _ hbnr]
        ring
      · intro a ha
        rcases List.mem_cons.mp ha with e | e
        · subst e
          rw [hstep]
          rw [hstep] at hreach
          omega
        · have hne : b ≠ a := fun h => hbnr (h ▸ e)
          rw [hidx1, getD_set_eq, if_neg (fun h => hne h.1)]
          exact hrange a (by simp [e])
      · intro a ha
        have hne : b ≠ a := fun e => ha (by simp [e])
        rw [hidx1, getD_set_eq, if_neg (fun e => hne e.1)]
      · rw [hidx1]
        simp only [xstepper.step]
        rw [hoff]
        have : (st.index.getD b 0 + 1) * st.stride b
            = st.index.getD b 0 * st.stride b + st.stride b := by ring
        omega

theorem carry_eq_end (L : layout_type) (s : List Nat) :
    ∀ (o : List Nat) (st : xstepper α), o.Nodup →
      (∀ a ∈ o, a < st.index.length) →
      (∀ a ∈ o, st.index.getD a 0 < s.getD a 0) →
      lin s st.index o + 1 = vol s o →
      carry L s st o = end_stepper st.c st.target := by
  intro o
  induction o with
  | nil => intro st _ _ _ _; rfl
  | cons b r ih =>
    intro st hnd hlen hrange heq
    have hb := hlen b (by simp)
    have hbr := hrange b (by simp)
    have hbnr : b ∉ r := (List.nodup_cons.mp hnd).1
    have hrnd : r.Nodup := (List.nodup_cons.mp hnd).2
    have hstep : (st.step b 1).index.getD b 0 = st.index.getD b 0 + 1 := by
      simp only [xstepper.step]
      rw [getD_set_eq, if_pos ⟨rfl, hb⟩]
    have hlr : lin s st.index r < vol s r :=
      lin_lt_vol s st.index r (fun a ha => hrange a (by simp [ha]))
    simp only [lin, vol] at heq
    have h1 := Nat.mul_le_mul_left (s.getD b 0) (Nat.succ_le_of_lt hlr)
    have h2 : s.getD b 0 * (lin s st.index r + 1)
        = s.getD b 0 * lin s st.index r + s.getD b 0 := by ring
    have hreach : st.index.getD b 0 + 1 = s.getD b 0 := by
      simp only [Nat.succ_eq_add_one] at h1
      omega
    have hvol : lin s st.index r + 1 = vol s r := by
      have h3 : s.getD b 0 * (lin s st.index r + 1) = s.getD b 0 * vol s r := by
        rw [h2]
        omega
      exact Nat.eq_of_mul_eq_mul_left (by omega) h3
    have hidx2 : ((st.step b 1).reset b).index = st.index.set b 0 := by
      simp [xstepper.step, xstepper.reset]
    have hcarry : carry L s st (b :: r) = carry L s ((st.step b 1).reset b) r := by
      simp only [carry]
      rw [if_pos (hstep.trans hreach)]
    rw [hcarry]
    have hres := ih ((st.step b 1).reset b) hrnd
      (fun a ha => by
        rw [hidx2, List.length_set]
        exact hlen a (by simp [ha]))
      (fun a ha => by
        have hne : b ≠ a := fun e => hbnr (e ▸ ha)
        rw [hidx2, getD_set_eq, if_neg (fun e => hne e.1)]
        exact hrange a (by simp [ha]))
      (by rw [hidx2, lin_set_not_mem _ _ _ _ _ hbnr]; exact hvol)
    rw [hres]
    rfl

theorem axis_order_cases (L reported : layout_type) (n : Nat) :
    axis_order L reported n = List.range n ∨
      axis_order L reported n = (List.range n).reverse := by
  cases L <;> cases reported <;> simp [axis_order]

theorem axis_order_nodup (L reported : layout_type) (n : Nat) :
    (axis_order L reported n).Nodup := by
  rcases axis_order_cases L reported n with h | h <;> rw [h]
  · exact List.nodup_range n
  · exact List.nodup_reverse.mpr (List.nodup_range n)

theorem mem_axis_order (L reported : layout_type) (n a : Nat) :
    a ∈ axis_order L reported n ↔ a < n := by
  rcases axis_order_cases L reported n with h | h <;> rw [h] <;> simp

theorem vol_eq_prod_map (s o : List Nat) : vol s o = (o.map fun a => s.getD a 0).prod := by
  induction o with
  | nil => rfl
  | cons b r ih => simp [vol, ih]

theorem map_getD_range (s : List Nat) : ((List.range s.length).map fun a => s.getD a 0) = s := by
  apply List.ext_getElem
  · simp
  · intro i h1 h2
    simp [List.getD_eq_getElem?_getD, List.getElem?_eq_getElem h2]

theorem vol_axis_order (L reported : layout_type) (s : List Nat) :
    vol s (axis_order L reported s.length) = size s := by
  rw [vol_eq_prod_map, size]
  rcases axis_order_cases L reported s.length with h | h <;> rw [h]
  · rw [map_getD_range]
  · rw [List.map_reverse, List.prod_reverse, map_getD_range]

theorem at_rank_lt {c : xarray α} {target : List Nat} {L : layout_type} {k : Nat}
    {it : array_iterator α} (h : at_rank c target L k it) : k < size target := by
  obtain ⟨_, _, _, _, _, _, h7, h8, _⟩ := h
  rw [← h8, ← vol_axis_order L c.layout target]
  exact lin_lt_vol _ _ _ (fun a ha => h7 a ((mem_axis_order _ _ _ _).mp ha))

theorem increment_at_rank {c : xarray α} {target : List Nat} {L : layout_type} {k : Nat}
    {it : array_iterator α} (h : at_rank c target L k it) (hk : k + 1 < size target) :
    at_rank c target L (k + 1) (increment it) ∧ (increment it).end_index = it.end_index := by
  obtain ⟨h1, h2, h3, h4, h5, h6, h7, h8, h9⟩ := h
  subst h1 h2 h3
  have hc := carry_lt it.L it.shape (axis_order it.L it.stepper.c.layout it.shape.length)
    it.stepper (axis_order_nodup _ _ _)
    (fun a ha => by
      have := (mem_axis_order _ _ _ _).mp ha
      rw [h6, h4]
      exact ⟨this, this⟩)
    (fun a ha => h7 a ((mem_axis_order _ _ _ _).mp ha))
    (by
      rw [h8, vol_axis_order]
      exact hk)
    h9
  obtain ⟨c1, c2, c3, c4, c5, c6, c7, c8⟩ := hc
  refine ⟨⟨rfl, rfl, c1, c2.trans h4, c3.trans h5, c4.trans h6, ?_, ?_, ?_⟩, rfl⟩
  · intro a ha
    exact c6 a ((mem_axis_order _ _ _ _).mpr ha)
  · rw [← h8]
    exact c5
  · show (carry it.L it.shape it.stepper _).offset = offset_at (carry it.L it.shape it.stepper _) _
    rw [c8]
    exact (offset_at_congr _ _ c1 c2 _).symm

theorem increment_last {c : xarray α} {target : List Nat} {L : layout_type} {k : Nat}
    {it : array_iterator α} (h : at_rank c target L k it) (hk : k + 1 = size target) :
    (increment it).stepper = end_stepper c target ∧ (increment it).shape = target := by
  obtain ⟨h1, h2, h3, h4, h5, h6, h7, h8, h9⟩ := h
  subst h1 h2 h3
  have hc := carry_eq_end it.L it.shape (axis_order it.L it.stepper.c.layout it.shape.length)
    it.stepper (axis_order_nodup _ _ _)
    (fun a ha => by
      have := (mem_axis_order _ _ _ _).mp ha
      rw [h6]
      exact this)
    (fun a ha => h7 a ((mem_axis_order _ _ _ _).mp ha))
    (by
      rw [h8, vol_axis_order]
      exact hk)
  refine ⟨?_, rfl⟩
  show carry it.L it.shape it.stepper _ = _
  rw [hc, h4]

theorem at_rank_iterate {c : xarray α} {target : List Nat} {L : layout_type}
    {it : array_iterator α} (h : at_rank c target L 0 it) :
    ∀ k, k < size target →
      at_rank c target L k (increment^[k] it) ∧ (increment^[k] it).end_index = it.end_index := by
  intro k
  induction k with
  | zero => intro _; exact ⟨h, rfl⟩
  | succ k ih =>
    intro hk
    have hprev := ih (by omega)
    rw [Function.iterate_succ_apply']
    have := increment_at_rank hprev.1 hk
    exact ⟨this.1, this.2.trans hprev.2⟩

theorem traverse_at_rank [DecidableEq α] {c : xarray α} {target : List Nat} {L : layout_type}
    (e : array_iterator α) (he : e.stepper = end_stepper c target) (hes : e.shape = target) :
    ∀ (m k fuel : Nat) (it : array_iterator α), at_rank c target L k it →
      k + m = size target → m ≤ fuel →
      xiterator.traverse fuel it e = some ((List.range m).map fun j => increment^[j] it) := by
  intro m
  induction m with
  | zero =>
    intro k fuel it h hk _
    have := at_rank_lt h
    omega
  | succ m ih =>
    intro k fuel it h hk hfuel
    obtain ⟨f, rfl⟩ : ∃ f, fuel = f + 1 := ⟨fuel - 1, by omega⟩
    have hne : equal it e = false := by
      have hp : it.stepper.past_end = false := h.2.2.2.2.1
      have : it.stepper ≠ e.stepper := by
        intro heq
        rw [heq, he] at hp
        simp [end_stepper] at hp
      simp [equal, this]
    simp only [xiterator.traverse, hne]
    by_cases hm : m = 0
    · subst hm
      have hl := increment_last h (by omega)
      have heq : equal (increment it) e = true := by
        simp [equal, hl.1, hl.2, he, hes]
      have : xiterator.traverse f (increment it) e = some [] := by
        cases f <;> simp [xiterator.traverse, heq]
      rw [this]
      simp
    · have hn := increment_at_rank h (by omega)
      rw [ih (k + 1) f (increment it) hn.1 (by omega) (by omega)]
      simp only [Option.map_some', List.range_succ_eq_map, List.map_cons, List.map_map,
        Function.iterate_zero, id_eq]
      rfl

theorem broadcast_compatible_self (s : List Nat) : broadcast_compatible s s = true := by
  simp [broadcast_compatible, List.all_eq_true]

theorem begin_broadcast_eq (L : layout_type) (c : xarray α) (target : List Nat)
    (h : broadcast_compatible c.shape target = true) :
    xconst_iterable.begin_broadcast L c.derived target
      = noexcept_result.returned ⟨begin_stepper c target, target, false, L⟩ := by
  simp [xconst_iterable.begin_broadcast, xconst_iterable.cbegin_broadcast,
    xconst_iterable.get_cbegin_broadcast, xconst_iterable.get_stepper_begin, xarray.derived,
    xarray.stepper_begin, h, noexcept, noexcept_result.map, begin_stepper]

theorem end_broadcast_eq (L : layout_type) (c : xarray α) (target : List Nat)
    (h : broadcast_compatible c.shape target = true) :
    xconst_iterable.end_broadcast L c.derived target
      = noexcept_result.returned ⟨end_stepper c target, target, true, L⟩ := by
  simp [xconst_iterable.end_broadcast, xconst_iterable.cend_broadcast,
    xconst_iterable.get_cend_broadcast, xconst_iterable.get_stepper_end, xarray.derived,
    xarray.stepper_end, h, noexcept, noexcept_result.map, end_stepper, xstepper.to_end]

theorem getD_replicate_zero (n a : Nat) : (List.replicate n 0).getD a 0 = 0 := by
  simp [List.getD_eq_getElem?_getD, List.getElem?_replicate]
  split <;> simp

theorem lin_replicate_zero (s : List Nat) (n : Nat) (o : List Nat) :
    lin s (List.replicate n 0) o = 0 := by
  induction o with
  | nil => rfl
  | cons b r ih =>
    simp only [lin, ih, Nat.mul_zero, Nat.add_zero]
    exact getD_replicate_zero n b

theorem offset_at_replicate_zero (st : xstepper α) (n : Nat) :
    offset_at st (List.replicate n 0) = 0 := by
  simp only [offset_at]
  apply List.sum_eq_zero
  intro x hx
  rw [List.mem_map] at hx
  obtain ⟨a, _, rfl⟩ := hx
  rw [getD_replicate_zero, Nat.zero_mul]

theorem getD_pos_of_size_ne_zero (s : List Nat) (h : size s ≠ 0) (a : Nat) (ha : a < s.length) :
    0 < s.getD a 0 := by
  rw [List.getD_eq_getElem?_getD, List.getElem?_eq_getElem ha]
  simp only [Option.getD_some]
  have hmem : s[a] ∈ s := List.getElem_mem ha
  rcases Nat.eq_zero_or_pos s[a] with h0 | h0
  · exfalso
    apply h
    rw [size]
    exact List.prod_eq_zero (h0 ▸ hmem)
  · exact h0

theorem at_rank_begin (L : layout_type) (c : xarray α) (target : List Nat) (fl : Bool)
    (h : size target ≠ 0) : at_rank c target L 0 ⟨begin_stepper c target, target, fl, L⟩ := by
  refine ⟨rfl, rfl, rfl, rfl, ?_, ?_, ?_, ?_, ?_⟩
  · simp [begin_stepper, h]
  · simp [begin_stepper]
  · intro a ha
    have := getD_pos_of_size_ne_zero target h a ha
    show (List.replicate target.length 0).getD a 0 < _
    rw [getD_replicate_zero]
    exact this
  · exact lin_replicate_zero _ _ _
  · show 0 = offset_at _ (List.replicate target.length 0)
    rw [offset_at_replicate_zero]

theorem begin_stepper_empty (c : xarray α) (target : List Nat) (h : size target = 0) :
    begin_stepper c target = end_stepper c target := by
  simp [begin_stepper, end_stepper, h]

/-- Walk of the whole traversal: the iterators dereferenced between the begin iterator and
an end iterator are the first `size target` iterates of the increment. -/
theorem traverse_begin [DecidableEq α] (L : layout_type) (c : xarray α) (target : List Nat)
    (fl : Bool) (e : array_iterator α) (he : e.stepper = end_stepper c target)
    (hes : e.shape = target) (fuel : Nat) (hfuel : size target ≤ fuel) :
    xiterator.traverse fuel ⟨begin_stepper c target, target, fl, L⟩ e
      = some ((List.range (size target)).map fun j =>
          increment^[j] (⟨begin_stepper c target, target, fl, L⟩ : array_iterator α)) := by
  by_cases h : size target = 0
  · have heq :
        equal (⟨begin_stepper c target, target, fl, L⟩ : array_iterator α) e = true := by
      simp [equal, begin_stepper_empty c target h, he, hes]
    rw [h]
    cases fuel <;> simp [xiterator.traverse, heq]
  · exact traverse_at_rank e he hes (size target) 0 fuel _ (at_rank_begin L c target fl h)
      (by omega) hfuel

theorem lin_inj (s idx idx2 : List Nat) :
    ∀ o : List Nat, (∀ a ∈ o, idx.getD a 0 < s.getD a 0) →
      (∀ a ∈ o, idx2.getD a 0 < s.getD a 0) →
      lin s idx o = lin s idx2 o → ∀ a ∈ o, idx.getD a 0 = idx2.getD a 0 := by
  intro o
  induction o with
  | nil => intro _ _ _ a ha; simp at ha
  | cons b r ih =>
    intro h1 h2 heq a ha
    simp only [lin] at heq
    have hb1 := h1 b (by simp)
    have hb2 := h2 b (by simp)
    have hmod := congrArg (fun x => x % s.getD b 0) heq
    simp only [Nat.add_mul_mod_self_left, Nat.mod_eq_of_lt hb1, Nat.mod_eq_of_lt hb2] at hmod
    rw [hmod] at heq
    have hl : lin s idx r = lin s idx2 r :=
      Nat.eq_of_mul_eq_mul_left (by omega) (Nat.add_left_cancel heq)
    rcases List.mem_cons.mp ha with e | e
    · rw [e]; exact hmod
    · exact ih (fun a ha => h1 a (by simp [ha])) (fun a ha => h2 a (by simp [ha])) hl a e

theorem list_eq_of_getD (l1 l2 : List Nat) (hlen : l1.length = l2.length)
    (h : ∀ a, a < l1.length → l1.getD a 0 = l2.getD a 0) : l1 = l2 := by
  apply List.ext_getElem hlen
  intro i h1 h2
  have := h i h1
  simpa [List.getD_eq_getElem?_getD, List.getElem?_eq_getElem h1, List.getElem?_eq_getElem h2]
    using this

theorem index_eq_of_at_rank {c : xarray α} {target : List Nat} {L : layout_type} {k : Nat}
    {it : array_iterator α} (h : at_rank c target L k it) (idx : List Nat)
    (hidx : in_shape target idx)
    (hk : lin target idx (axis_order L c.layout target.length) = k) :
    it.stepper.index = idx := by
  obtain ⟨_, _, _, _, _, h6, h7, h8, _⟩ := h
  apply list_eq_of_getD _ _ (h6.trans hidx.1.symm)
  intro a ha
  rw [h6] at ha
  exact lin_inj target _ _ _ (fun a ha => h7 a ((mem_axis_order _ _ _ _).mp ha))
    (fun a ha => hidx.2 a ((mem_axis_order _ _ _ _).mp ha)) (h8.trans hk.symm) a
    ((mem_axis_order _ _ _ _).mpr ha)

theorem in_shape_of_at_rank {c : xarray α} {target : List Nat} {L : layout_type} {k : Nat}
    {it : array_iterator α} (h : at_rank c target L k it) : in_shape target it.stepper.index :=
  ⟨h.2.2.2.2.2.1, h.2.2.2.2.2.2.1⟩

theorem lin_lt_size (L reported : layout_type) (target idx : List Nat) (h : in_shape target idx) :
    lin target idx (axis_order L reported target.length) < size target := by
  rw [← vol_axis_order L reported target]
  exact lin_lt_vol _ _ _ (fun a ha => h.2 a ((mem_axis_order _ _ _ _).mp ha))

/-- Indices visited by a whole traversal: no repeats, and exactly the indices of the shape. -/
theorem visited_indices (L : layout_type) (c : xarray α) (target : List Nat) (fl : Bool)
    (visited : List (array_iterator α))
    (hv : visited = (List.range (size target)).map fun j =>
          increment^[j] (⟨begin_stepper c target, target, fl, L⟩ : array_iterator α)) :
    visited.length = size target ∧
      (visited.map fun it => it.stepper.index).Nodup ∧
      ∀ idx, idx ∈ (visited.map fun it => it.stepper.index) ↔ in_shape target idx := by
  subst hv
  have hrank : ∀ k, k < size target → at_rank c target L k
      (increment^[k] (⟨begin_stepper c target, target, fl, L⟩ : array_iterator α)) := by
    intro k hk
    exact (at_rank_iterate (at_rank_begin L c target fl (by omega)) k hk).1
  refine ⟨by simp, ?_, ?_⟩
  · rw [List.map_map]
    apply (List.nodup_map_iff_inj_on (List.nodup_range _)).mpr
    intro j hj k hk hjk
    have hj2 := hrank j (List.mem_range.mp hj)
    have hk2 := hrank k (List.mem_range.mp hk)
    have := hj2.2.2.2.2.2.2.2.1
    rw [← hj2.2.2.2.2.2.2.2.1, ← hk2.2.2.2.2.2.2.2.1]
    simp only [Function.comp] at hjk
    rw [hjk]
  · intro idx
    rw [List.map_map, List.mem_map]
    constructor
    · rintro ⟨k, hk, rfl⟩
      exact in_shape_of_at_rank (hrank k (List.mem_range.mp hk))
    · intro hidx
      have hlt := lin_lt_size L c.layout target idx hidx
      exact ⟨_, List.mem_range.mpr hlt, index_eq_of_at_rank (hrank _ hlt) idx hidx rfl⟩

/-- Claim C1. For every array (any shape, rank 0 and zero extents included) and every
layout, in particular the default one, the walk from `begin()` by repeated increment
until the iterator equals `end()` is completed with `size(shape)` increments of fuel,
dereferences exactly `size(shape)` iterators, and the multi-indices it visits are all
the indices of the shape, each of them once. -/
theorem C1_own_shape_walk_visits_every_index_once [DecidableEq α] (DL : layout_type)
    (c : xarray α) (extra : Nat) :
    ∃ b e visited,
      xconst_iterable.begin DL c.derived = noexcept_result.returned b ∧
      xconst_iterable.end_ DL c.derived = noexcept_result.returned e ∧
      xiterator.traverse (size c.shape + extra) b e = some visited ∧
      visited.length = size c.shape ∧
      (visited.map fun it => it.stepper.index).Nodup ∧
      ∀ idx, idx ∈ (visited.map fun it => it.stepper.index) ↔ in_shape c.shape idx := by
  have hb : xconst_iterable.begin DL c.derived = _ :=
    begin_broadcast_eq DL c c.shape (broadcast_compatible_self _)
  have he : xconst_iterable.end_ DL c.derived = _ :=
    end_broadcast_eq DL c c.shape (broadcast_compatible_self _)
  refine ⟨_, _, _, hb, he, traverse_begin DL c c.shape false _ rfl rfl _ (by omega), ?_⟩
  exact visited_indices DL c c.shape false _ rfl

theorem lin_append (s idx o1 o2 : List Nat) :
    lin s idx (o1 ++ o2) = lin s idx o1 + vol s o1 * lin s idx o2 := by
  induction o1 with
  | nil => simp [lin, vol]
  | cons b r ih =>
    show idx.getD b 0 + s.getD b 0 * lin s idx (r ++ o2) = _
    rw [ih]
    simp only [lin, vol]
    ring

theorem lin_map_succ (s0 x0 : Nat) (ss xs o : List Nat) :
    lin (s0 :: ss) (x0 :: xs) (o.map Nat.succ) = lin ss xs o := by
  induction o with
  | nil => rfl
  | cons b r ih => simp [lin, ih]

theorem vol_map_succ (s0 : Nat) (ss o : List Nat) :
    vol (s0 :: ss) (o.map Nat.succ) = vol ss o := by
  induction o with
  | nil => rfl
  | cons b r ih => simp [vol, ih]

theorem vol_range_reverse (s : List Nat) : vol s (List.range s.length).reverse = size s :=
  vol_axis_order layout_type.row_major layout_type.row_major s

theorem vol_range (s : List Nat) : vol s (List.range s.length) = size s :=
  vol_axis_order layout_type.column_major layout_type.row_major s

theorem lin_row_cons (s0 x0 : Nat) (ss xs : List Nat) :
    lin (s0 :: ss) (x0 :: xs) (List.range (ss.length + 1)).reverse
      = lin ss xs (List.range ss.length).reverse + size ss * x0 := by
  rw [List.range_succ_eq_map, List.reverse_cons, ← List.map_reverse, lin_append, lin_map_succ,
    vol_map_succ, vol_range_reverse]
  simp [lin]

theorem lin_col_cons (s0 x0 : Nat) (ss xs : List Nat) :
    lin (s0 :: ss) (x0 :: xs) (List.range (ss.length + 1))
      = x0 + s0 * lin ss xs (List.range ss.length) := by
  rw [List.range_succ_eq_map]
  simp only [lin, lin_map_succ]
  simp

theorem in_shape_cons (s0 x0 : Nat) (ss xs : List Nat) :
    in_shape (s0 :: ss) (x0 :: xs) ↔ x0 < s0 ∧ in_shape ss xs := by
  constructor
  · rintro ⟨h1, h2⟩
    refine ⟨by simpa using h2 0 (by simp), by simpa using h1, ?_⟩
    intro a ha
    simpa using h2 (a + 1) (by simpa using ha)
  · rintro ⟨h0, h1, h2⟩
    refine ⟨by simpa using h1, ?_⟩
    intro a ha
    cases a with
    | zero => simpa using h0
    | succ a => simpa using h2 a (by simpa using ha)

theorem in_shape_nil_left (x : List Nat) (h : in_shape [] x) : x = [] :=
  List.length_eq_zero.mp h.1

theorem in_shape_cons_left (s0 : Nat) (ss x : List Nat) (h : in_shape (s0 :: ss) x) :
    ∃ x0 xs, x = x0 :: xs := by
  cases x with
  | nil => simp [in_shape] at h
  | cons x0 xs => exact ⟨x0, xs, rfl⟩

theorem lex_of_lin_row_lt :
    ∀ (s x y : List Nat), in_shape s x → in_shape s y →
      lin s x (List.range s.length).reverse < lin s y (List.range s.length).reverse →
      List.Lex (fun a b => a < b) x y := by
  intro s
  induction s with
  | nil =>
    intro x y hx hy h
    rw [in_shape_nil_left x hx, in_shape_nil_left y hy] at h
    simp [lin] at h
  | cons s0 ss ih =>
    intro x y hx hy h
    obtain ⟨x0, xs, rfl⟩ := in_shape_cons_left s0 ss x hx
    obtain ⟨y0, ys, rfl⟩ := in_shape_cons_left s0 ss y hy
    rw [in_shape_cons] at hx hy
    simp only [List.length_cons] at h
    rw [lin_row_cons, lin_row_cons] at h
    have hxs := lin_lt_size layout_type.row_major layout_type.row_major ss xs hx.2
    have hys := lin_lt_size layout_type.row_major layout_type.row_major ss ys hy.2
    simp only [axis_order] at hxs hys
    rcases Nat.lt_trichotomy x0 y0 with hlt | heq | hgt
    · exact List.Lex.rel hlt
    · subst heq
      exact List.Lex.cons (ih xs ys hx.2 hy.2 (by omega))
    · exfalso
      have := Nat.mul_le_mul_left (size ss) (Nat.succ_le_of_lt hgt)
      have h2 : size ss * (y0 + 1) = size ss * y0 + size ss := by ring
      simp only [Nat.succ_eq_add_one] at this
      omega

theorem lex_append_of_length_eq (a b u v : List Nat) (h : List.Lex (fun a b => a < b) a b)
    (hlen : a.length = b.length) : List.Lex (fun a b => a < b) (a ++ u) (b ++ v) := by
  induction h with
  | nil => simp at hlen
  | cons _ ih => exact List.Lex.cons (ih (by simpa using hlen))
  | rel hr => exact List.Lex.rel hr

theorem lex_reverse_of_lin_col_lt :
    ∀ (s x y : List Nat), in_shape s x → in_shape s y →
      lin s x (List.range s.length) < lin s y (List.range s.length) →
      List.Lex (fun a b => a < b) x.reverse y.reverse := by
  intro s
  induction s with
  | nil =>
    intro x y hx hy h
    rw [in_shape_nil_left x hx, in_shape_nil_left y hy] at h
    simp [lin] at h
  | cons s0 ss ih =>
    intro x y hx hy h
    obtain ⟨x0, xs, rfl⟩ := in_shape_cons_left s0 ss x hx
    obtain ⟨y0, ys, rfl⟩ := in_shape_cons_left s0 ss y hy
    rw [in_shape_cons] at hx hy
    simp only [List.length_cons] at h
    rw [lin_col_cons, lin_col_cons] at h
    simp only [List.reverse_cons]
    rcases Nat.lt_trichotomy (lin ss xs (List.range ss.length))
        (lin ss ys (List.range ss.length)) with hlt | heq | hgt
    · exact lex_append_of_length_eq _ _ _ _ (ih xs ys hx.2 hy.2 hlt)
        (by simp [hx.2.1, hy.2.1])
    · have hxy : xs = ys := by
        apply list_eq_of_getD _ _ (hx.2.1.trans hy.2.1.symm)
        intro a ha
        rw [hx.2.1] at ha
        exact lin_inj ss xs ys _ (fun a ha => hx.2.2 a (List.mem_range.mp ha))
          (fun a ha => hy.2.2 a (List.mem_range.mp ha)) heq a (List.mem_range.mpr ha)
      subst hxy
      rw [heq] at h
      exact List.Lex.append_left _ (List.Lex.rel (by omega)) _
    · exfalso
      have := Nat.mul_le_mul_left s0 (Nat.succ_le_of_lt hgt)
      have h2 : s0 * (lin ss ys (List.range ss.length) + 1)
          = s0 * lin ss ys (List.range ss.length) + s0 := by ring
      simp only [Nat.succ_eq_add_one] at this
      omega

theorem visited_sorted (L : layout_type) (c : xarray α) (target : List Nat) (fl : Bool)
    (R : List Nat → List Nat → Prop)
    (hR : ∀ x y, in_shape target x → in_shape target y →
      lin target x (axis_order L c.layout target.length)
        < lin target y (axis_order L c.layout target.length) → R x y) :
    (((List.range (size target)).map fun j =>
        increment^[j] (⟨begin_stepper c target, target, fl, L⟩ : array_iterator α)).map
      fun it => it.stepper.index).Pairwise R := by
  have hrank : ∀ k, k < size target → at_rank c target L k
      (increment^[k] (⟨begin_stepper c target, target, fl, L⟩ : array_iterator α)) := by
    intro k hk
    exact (at_rank_iterate (at_rank_begin L c target fl (by omega)) k hk).1
  rw [List.map_map, List.pairwise_map]
  apply List.Pairwise.imp_of_mem _ (List.pairwise_lt_range (size target))
  intro j k hj hk hjk
  have hj2 := hrank j (List.mem_range.mp hj)
  have hk2 := hrank k (List.mem_range.mp hk)
  apply hR _ _ (in_shape_of_at_rank hj2) (in_shape_of_at_rank hk2)
  rw [hj2.2.2.2.2.2.2.2.1, hk2.2.2.2.2.2.2.2.1]
  exact hjk

/-- Claim C2. For every array, the walk `begin<row_major>()..end<row_major>()` visits all the
indices of the shape in increasing lexicographic order (trailing axis fastest), and the walk
`begin<column_major>()..end<column_major>()` visits all of them in increasing
colexicographic order (lexicographic on the reversed indices, leading axis fastest). On
storage `[1,2,3,4,5,6]` with shape `[2,3]` the two walks yield `1,2,3,4,5,6` and
`1,4,2,5,3,6`. -/
theorem C2_row_major_lexicographic_column_major_colexicographic [DecidableEq α]
    (c : xarray α) (extra : Nat) :
    (∃ b e visited,
      xconst_iterable.begin layout_type.row_major c.derived = noexcept_result.returned b ∧
      xconst_iterable.end_ layout_type.row_major c.derived = noexcept_result.returned e ∧
      xiterator.traverse (size c.shape + extra) b e = some visited ∧
      (∀ idx, idx ∈ (visited.map fun it => it.stepper.index) ↔ in_shape c.shape idx) ∧
      (visited.map fun it => it.stepper.index).Pairwise
        fun x y => List.Lex (fun a b => a < b) x y) ∧
    (∃ b e visited,
      xconst_iterable.begin layout_type.column_major c.derived = noexcept_result.returned b ∧
      xconst_iterable.end_ layout_type.column_major c.derived = noexcept_result.returned e ∧
      xiterator.traverse (size c.shape + extra) b e = some visited ∧
      (∀ idx, idx ∈ (visited.map fun it => it.stepper.index) ↔ in_shape c.shape idx) ∧
      (visited.map fun it => it.stepper.index).Pairwise
        fun x y => List.Lex (fun a b => a < b) x.reverse y.reverse) ∧
    (∃ b e visited,
      xconst_iterable.begin layout_type.row_major example_2x3.derived
        = noexcept_result.returned b ∧
      xconst_iterable.end_ layout_type.row_major example_2x3.derived
        = noexcept_result.returned e ∧
      xiterator.traverse 6 b e = some visited ∧
      visited.map xiterator.dereference
        = [some 1, some 2, some 3, some 4, some 5, some 6]) ∧
    (∃ b e visited,
      xconst_iterable.begin layout_type.column_major example_2x3.derived
        = noexcept_result.returned b ∧
      xconst_iterable.end_ layout_type.column_major example_2x3.derived
        = noexcept_result.returned e ∧
      xiterator.traverse 6 b e = some visited ∧
      visited.map xiterator.dereference
        = [some 1, some 4, some 2, some 5, some 3, some 6]) := by
  refine ⟨?_, ?_, ?_, ?_⟩
  · refine ⟨_, _, _, begin_broadcast_eq _ c c.shape (broadcast_compatible_self _),
      end_broadcast_eq _ c c.shape (broadcast_compatible_self _),
      traverse_begin _ c c.shape false _ rfl rfl _ (by omega),
      (visited_indices _ c c.shape false _ rfl).2.2, ?_⟩
    exact visited_sorted _ c c.shape false _ (fun x y hx hy h => lex_of_lin_row_lt _ x y hx hy h)
  · refine ⟨_, _, _, begin_broadcast_eq _ c c.shape (broadcast_compatible_self _),
      end_broadcast_eq _ c c.shape (broadcast_compatible_self _),
      traverse_begin _ c c.shape false _ rfl rfl _ (by omega),
      (visited_indices _ c c.shape false _ rfl).2.2, ?_⟩
    exact visited_sorted _ c c.shape false _
      (fun x y hx hy h => lex_reverse_of_lin_col_lt _ x y hx hy h)
  · exact ⟨_, _, _, rfl, rfl, rfl, rfl⟩
  · exact ⟨_, _, _, rfl, rfl, rfl, rfl⟩

theorem sum_map_range_succ (F : Nat → Nat) (k : Nat) :
    ((List.range (k + 1)).map F).sum = F 0 + ((List.range k).map fun j => F (j + 1)).sum := by
  rw [List.range_succ_eq_map]
  simp only [List.map_cons, List.sum_cons, List.map_map]
  rfl

theorem sum_broadcast_eq :
    ∀ (A t strides : List Nat), A.length ≤ t.length →
      ((List.range A.length).map fun j =>
          t.getD j 0 * (if A.getD j 1 = 1 then 0 else strides.getD j 0)).sum
        = linear_offset strides
            (List.zipWith (fun extent i => if extent = 1 then 0 else i) A t) := by
  intro A
  induction A with
  | nil => intro t strides _; simp [linear_offset]
  | cons a A ih =>
    intro t strides hlen
    cases t with
    | nil => simp at hlen
    | cons t0 t =>
      rw [List.length_cons, sum_map_range_succ]
      cases strides with
      | nil =>
        simp [linear_offset]
      | cons s0 strides =>
        have := ih t strides (by simpa using hlen)
        simp only [List.getD_cons_succ, List.getD_cons_zero] at this ⊢
        rw [this]
        simp only [linear_offset, List.zipWith_cons_cons, List.sum_cons]
        split <;> simp

theorem offset_at_eq_linear_offset (st : xstepper α) (idx : List Nat)
    (hrank : st.c.shape.length ≤ st.target.length) (hlen : idx.length = st.target.length) :
    offset_at st idx = linear_offset st.c.strides (source_index st.c.shape idx) := by
  have hn : st.target.length = st.lead + st.c.shape.length := by
    simp only [xstepper.lead]
    omega
  rw [source_index, hlen, ← sum_broadcast_eq _ _ _ (by rw [List.length_drop]; omega)]
  simp only [offset_at]
  rw [hn, List.range_add, List.map_append, List.sum_append, List.map_map]
  have hzero : ((List.range st.lead).map fun axis => idx.getD axis 0 * st.stride axis).sum = 0 := by
    apply List.sum_eq_zero
    intro x hx
    rw [List.mem_map] at hx
    obtain ⟨a, ha, rfl⟩ := hx
    have : st.stride a = 0 := by
      simp only [xstepper.stride]
      rw [if_pos (List.mem_range.mp ha)]
    rw [this, Nat.mul_zero]
  rw [hzero, Nat.zero_add]
  congr 1
  apply List.map_congr_left
  intro j _
  have h1 : idx.getD (st.lead + j) 0
      = (List.drop (st.lead + st.c.shape.length - st.c.shape.length) idx).getD j 0 := by
    simp only [List.getD_eq_getElem?_getD, List.getElem?_drop]
    congr 2
    omega
  have h2 : st.stride (st.lead + j)
      = if st.c.shape.getD j 1 = 1 then 0 else st.c.strides.getD j 0 := by
    simp only [xstepper.stride]
    rw [if_neg (by omega)]
    have : st.lead + j - st.lead = j := by omega
    rw [this]
  simp only [Function.comp]
  rw [h1, h2]

theorem length_le_of_broadcast_compatible (A T : List Nat)
    (h : broadcast_compatible A T = true) : A.length ≤ T.length := by
  simp only [broadcast_compatible, Bool.and_eq_true, decide_eq_true_eq] at h
  exact h.1

theorem dereference_of_at_rank {c : xarray α} {target : List Nat} {L : layout_type} {k : Nat}
    {it : array_iterator α} (h : at_rank c target L k it)
    (hc : broadcast_compatible c.shape target = true) :
    it.dereference = c.element (source_index c.shape it.stepper.index) := by
  obtain ⟨h1, h2, h3, h4, h5, h6, h7, h8, h9⟩ := h
  have := offset_at_eq_linear_offset it.stepper it.stepper.index
    (by rw [h3, h4]; exact length_le_of_broadcast_compatible _ _ hc) (h6.trans (by rw [h4]))
  simp only [xiterator.dereference, xstepper.dereference, h5, xarray.element]
  rw [h9, this, h3]
  simp

theorem visited_dereference (L : layout_type) (c : xarray α) (target : List Nat) (fl : Bool)
    (hc : broadcast_compatible c.shape target = true) :
    ∀ it ∈ ((List.range (size target)).map fun j =>
        increment^[j] (⟨begin_stepper c target, target, fl, L⟩ : array_iterator α)),
      it.dereference = c.element (source_index c.shape it.stepper.index) := by
  intro it hit
  rw [List.mem_map] at hit
  obtain ⟨k, hk, rfl⟩ := hit
  have hk2 := List.mem_range.mp hk
  exact dereference_of_at_rank
    (at_rank_iterate (at_rank_begin L c target fl (by omega)) k hk2).1 hc

/-- Claim C3. For every array and every traversal shape that is broadcast compatible with the
shape of the array, the row-major walk `begin(T)..end(T)` dereferences exactly `size(T)`
iterators, visits all the indices of `T` in lexicographic order, and at index `t` yields the
element of the array at `t` restricted to the trailing axes of the array with 0 on every axis
of extent 1. For `A = [3]`, `T = [2,3]` the source indices are `0,1,2,0,1,2`; for `A = [1,4]`,
`T = [3,4]` the source row is yielded three times in a row, 12 dereferences in all. -/
theorem C3_broadcast_walk_yields_source_elements [DecidableEq α] (c : xarray α)
    (target : List Nat) (extra : Nat) (hc : broadcast_compatible c.shape target = true) :
    (∃ b e visited,
      xconst_iterable.begin_broadcast layout_type.row_major c.derived target
        = noexcept_result.returned b ∧
      xconst_iterable.end_broadcast layout_type.row_major c.derived target
        = noexcept_result.returned e ∧
      xiterator.traverse (size target + extra) b e = some visited ∧
      visited.length = size target ∧
      (∀ idx, idx ∈ (visited.map fun it => it.stepper.index) ↔ in_shape target idx) ∧
      ((visited.map fun it => it.stepper.index).Pairwise
        fun x y => List.Lex (fun a b => a < b) x y) ∧
      ∀ it ∈ visited,
        it.dereference = c.element (source_index c.shape it.stepper.index)) ∧
    (∃ b e visited,
      xconst_iterable.begin_broadcast layout_type.row_major example_3.derived [2, 3]
        = noexcept_result.returned b ∧
      xconst_iterable.end_broadcast layout_type.row_major example_3.derived [2, 3]
        = noexcept_result.returned e ∧
      xiterator.traverse 6 b e = some visited ∧
      (visited.map fun it => source_index [3] it.stepper.index)
        = [[0], [1], [2], [0], [1], [2]] ∧
      visited.map xiterator.dereference
        = [some 10, some 20, some 30, some 10, some 20, some 30]) ∧
    (∃ b e visited,
      xconst_iterable.begin_broadcast layout_type.row_major example_1x4.derived [3, 4]
        = noexcept_result.returned b ∧
      xconst_iterable.end_broadcast layout_type.row_major example_1x4.derived [3, 4]
        = noexcept_result.returned e ∧
      xiterator.traverse 12 b e = some visited ∧
      visited.length = 12 ∧
      visited.map xiterator.dereference
        = [some 7, some 8, some 9, some 10, some 7, some 8, some 9, some 10,
           some 7, some 8, some 9, some 10]) := by
  refine ⟨?_, ?_, ?_⟩
  · refine ⟨_, _, _, begin_broadcast_eq _ c target hc, end_broadcast_eq _ c target hc,
      traverse_begin _ c target false _ rfl rfl _ (by omega),
      (visited_indices _ c target false _ rfl).1,
      (visited_indices _ c target false _ rfl).2.2, ?_, ?_⟩
    · exact visited_sorted _ c target false _
        (fun x y hx hy h => lex_of_lin_row_lt _ x y hx hy h)
    · exact visited_dereference _ c target false hc
  · exact ⟨_, _, _, rfl, rfl, rfl, rfl, rfl⟩
  · exact ⟨_, _, _, rfl, rfl, rfl, rfl, rfl⟩

/-- Witness of claim C3 on the array of shape `[3]` traversed with shape `[2,3]`. -/
theorem C3_broadcast_walk_witness :
    broadcast_compatible example_3.shape [2, 3] = true ∧
    ∃ b e visited,
      xconst_iterable.begin_broadcast layout_type.row_major example_3.derived [2, 3]
        = noexcept_result.returned b ∧
      xconst_iterable.end_broadcast layout_type.row_major example_3.derived [2, 3]
        = noexcept_result.returned e ∧
      xiterator.traverse (size [2, 3] + 0) b e = some visited ∧
      visited.length = size [2, 3] :=
  ⟨by decide, by
    obtain ⟨⟨b, e, visited, h1, h2, h3, h4, _⟩, _⟩ :=
      C3_broadcast_walk_yields_source_elements example_3 [2, 3] 0 (by decide)
    exact ⟨b, e, visited, h1, h2, h3, h4⟩⟩

theorem borrow_gt (s : List Nat) :
    ∀ (o : List Nat) (st : xstepper α), o.Nodup → st.target = s →
      (∀ a ∈ o, a < st.index.length ∧ a < st.target.length) →
      (∀ a ∈ o, st.index.getD a 0 < s.getD a 0) →
      0 < lin s st.index o →
      st.offset = offset_at st st.index →
      (borrow st o).c = st.c ∧ (borrow st o).target = st.target ∧
      (borrow st o).past_end = st.past_end ∧
      (borrow st o).index.length = st.index.length ∧
      lin s (borrow st o).index o + 1 = lin s st.index o ∧
      (∀ a ∈ o, (borrow st o).index.getD a 0 < s.getD a 0) ∧
      (∀ a, a ∉ o → (borrow st o).index.getD a 0 = st.index.getD a 0) ∧
      (borrow st o).offset = offset_at st (borrow st o).index := by
  intro o
  induction o with
  | nil => intro st _ _ _ _ h; simp [lin] at h
  | cons b r ih =>
    intro st hnd htar hlen hrange hpos hoff
    have hb := hlen b (by simp)
    have hbr := hrange b (by simp)
    have hbnr : b ∉ r := (List.nodup_cons.mp hnd).1
    have hrnd : r.Nodup := (List.nodup_cons.mp hnd).2
    by_cases hzero : st.index.getD b 0 = 0
    · -- the axis is at its first position: back to the last one and borrow
      have hborrow : borrow st (b :: r) = borrow (st.reset_back b) r := by
        simp only [borrow]
        rw [if_pos hzero]
      have hidx2 : (st.reset_back b).index = st.index.set b (s.getD b 0 - 1) := by
        simp [xstepper.reset_back, htar]
      have hset := offset_at_set st st.index b (s.getD b 0 - 1) hb.1 hb.2
      have hoff2 : (st.reset_back b).offset
          = offset_at (st.reset_back b) (st.reset_back b).index := by
        rw [offset_at_congr st (st.reset_back b) rfl rfl, hidx2]
        simp only [xstepper.reset_back]
        rw [hoff, htar]
        rw [hzero] at hset ⊢
        simp only [Nat.zero_mul, Nat.add_zero, Nat.sub_zero] at hset ⊢
        exact hset.symm
      have hl2 : lin s (st.reset_back b).index r = lin s st.index r := by
        rw [hidx2, lin_set_not_mem _ _ _ _ _ hbnr]
      have hpos2 : 0 < lin s (st.reset_back b).index r := by
        rw [hl2]
        simp only [lin, hzero, Nat.zero_add] at hpos
        exact Nat.pos_of_mul_pos_left hpos
      have hres := ih (st.reset_back b) hrnd htar
        (fun a ha => by
          rw [hidx2, List.length_set]
          exact hlen a (by simp [ha]))
        (fun a ha => by
          have hne : b ≠ a := fun e => hbnr (e ▸ ha)
          rw [hidx2, getD_set_eq, if_neg (fun e => hne e.1)]
          exact hrange a (by simp [ha]))
        hpos2 hoff2
      rw [hborrow]
      obtain ⟨h1, h2, h3, h4, h5, h6, h7, h8⟩ := hres
      have hb0 : (borrow (st.reset_back b) r).index.getD b 0 = s.getD b 0 - 1 := by
        rw [h7 b hbnr, hidx2, getD_set_eq, if_pos ⟨rfl, hb.1⟩]
      refine ⟨h1, h2, h3, ?_, ?_, ?_, ?_, ?_⟩
      · rw [h4, hidx2, List.length_set]
      · simp only [lin]
        rw [hb0, hzero, Nat.zero_add, ← hl2, ← h5]
        have : s.getD b 0 * (lin s (borrow (st.reset_back b) r).index r + 1)
            = s.getD b 0 * lin s (borrow (st.reset_back b) r).index r + s.getD b 0 := by ring
        omega
      · intro a ha
        rcases List.mem_cons.mp ha with e | e
        · subst e
          rw [hb0]
          omega
        · exact h6 a e
      · intro a ha
        have hne : b ≠ a := fun e => ha (by simp [e])
        have har : a ∉ r := fun e => ha (by simp [e])
        rw [h7 a har, hidx2, getD_set_eq, if_neg (fun e => hne e.1)]
      · rw [h8]
        exact offset_at_congr _ _ rfl rfl _
    · -- the axis steps back
      have hborrow : borrow st (b :: r) = st.step_back b 1 := by
        simp only [borrow]
        rw [if_neg hzero]
      rw [hborrow]
      have hidx1 : (st.step_back b 1).index = st.index.set b (st.index.getD b 0 - 1) := rfl
      have hset := offset_at_set st st.index b (st.index.getD b 0 - 1) hb.1 hb.2
      have hget : (st.index.set b (st.index.getD b 0 - 1)).getD b 0 = st.index.getD b 0 - 1 := by
        rw [getD_set_eq, if_pos ⟨rfl, hb.1⟩]
      refine ⟨rfl, rfl, rfl, ?_, ?_, ?_, ?_, ?_⟩
      · rw [hidx1, List.length_set]
      · simp only [lin]
        rw [hidx1, hget, lin_set_not_mem _ _ _ _ _ hbnr]
        omega
      · intro a ha
        rcases List.mem_cons.mp ha with e | e
        · subst e
          rw [hidx1, hget]
          omega
        · have hne : b ≠ a := fun h => hbnr (h ▸ e)
          rw [hidx1, getD_set_eq, if_neg (fun h => hne h.1)]
          exact hrange a (by simp [e])
      · intro a ha
        have hne : b ≠ a := fun e => ha (by simp [e])
        rw [hidx1, getD_set_eq, if_neg (fun e => hne e.1)]
      · rw [hidx1]
        simp only [xstepper.step_back]
        rw [hoff]
        have h1 : st.index.getD b 0 * st.stride b
            = (st.index.getD b 0 - 1) * st.stride b + st.stride b := by
          have : st.index.getD b 0 = (st.index.getD b 0 - 1) + 1 := by omega
          conv_lhs => rw [this]
          ring
        omega

theorem xstepper_eq (a b : xstepper α) (h1 : a.c = b.c) (h2 : a.target = b.target)
    (h3 : a.index = b.index) (h4 : a.offset = b.offset) (h5 : a.past_end = b.past_end) :
    a = b := by
  cases a
  cases b
  simp_all

theorem stepper_eq_of_at_rank {c : xarray α} {target : List Nat} {L : layout_type} {k : Nat}
    {it it2 : array_iterator α} (h : at_rank c target L k it) (h2 : at_rank c target L k it2) :
    it.stepper = it2.stepper := by
  have hidx := index_eq_of_at_rank h it2.stepper.index (in_shape_of_at_rank h2)
    h2.2.2.2.2.2.2.2.1
  obtain ⟨_, _, a3, a4, a5, _, _, _, a9⟩ := h
  obtain ⟨_, _, b3, b4, b5, _, _, _, b9⟩ := h2
  apply xstepper_eq _ _ (a3.trans b3.symm) (a4.trans b4.symm) hidx _ (a5.trans b5.symm)
  rw [a9, b9, hidx]
  exact offset_at_congr _ _ (a3.trans b3.symm) (a4.trans b4.symm) _

theorem rank_eq_of_stepper_eq {c : xarray α} {target : List Nat} {L : layout_type} {k k2 : Nat}
    {it it2 : array_iterator α} (h : at_rank c target L k it) (h2 : at_rank c target L k2 it2)
    (heq : it.stepper = it2.stepper) : k = k2 := by
  rw [← h.2.2.2.2.2.2.2.1, ← h2.2.2.2.2.2.2.2.1, heq]

theorem decrement_at_rank {c : xarray α} {target : List Nat} {L : layout_type} {k : Nat}
    {it : array_iterator α} (h : at_rank c target L (k + 1) it) :
    at_rank c target L k (decrement it) ∧ (decrement it).end_index = it.end_index := by
  obtain ⟨h1, h2, h3, h4, h5, h6, h7, h8, h9⟩ := h
  subst h1 h2 h3
  have hb := borrow_gt it.shape (axis_order it.L it.stepper.c.layout it.shape.length)
    it.stepper (axis_order_nodup _ _ _) h4
    (fun a ha => by
      have := (mem_axis_order _ _ _ _).mp ha
      rw [h6, h4]
      exact ⟨this, this⟩)
    (fun a ha => h7 a ((mem_axis_order _ _ _ _).mp ha))
    (by rw [h8]; omega)
    h9
  obtain ⟨c1, c2, c3, c4, c5, c6, c7, c8⟩ := hb
  have hdec : (decrement it).stepper
      = borrow it.stepper (axis_order it.L it.stepper.c.layout it.shape.length) := by
    simp only [decrement]
    rw [if_neg (by rw [h5]; simp)]
  refine ⟨⟨rfl, rfl, ?_, ?_, ?_, ?_, ?_, ?_, ?_⟩, rfl⟩
  · rw [hdec]; exact c1
  · rw [hdec]; exact c2.trans h4
  · rw [hdec]; exact c3.trans h5
  · rw [hdec]; exact c4.trans h6
  · intro a ha
    rw [hdec]
    exact c6 a ((mem_axis_order _ _ _ _).mpr ha)
  · rw [hdec]
    rw [h8] at c5
    omega
  · rw [hdec, c8]
    exact (offset_at_congr _ _ c1 c2 _).symm

theorem lin_of_last (s idx : List Nat) :
    ∀ o : List Nat, (∀ a ∈ o, idx.getD a 0 + 1 = s.getD a 0) →
      lin s idx o + 1 = vol s o := by
  intro o
  induction o with
  | nil => intro _; rfl
  | cons b r ih =>
    intro h
    have hb := h b (by simp)
    have hr := ih (fun a ha => h a (by simp [ha]))
    simp only [lin, vol]
    rw [← hr, ← hb]
    ring

theorem getD_map_pred (s : List Nat) (a : Nat) (ha : a < s.length) :
    (s.map fun extent => extent - 1).getD a 0 = s.getD a 0 - 1 := by
  simp [List.getD_eq_getElem?_getD, List.getElem?_map, List.getElem?_eq_getElem ha]

theorem decrement_end {c : xarray α} {target : List Nat} {L : layout_type}
    {it : array_iterator α} (hst : it.stepper = end_stepper c target) (hs : it.shape = target)
    (hL : it.L = L) (hn : size target ≠ 0) :
    at_rank c target L (size target - 1) (decrement it) ∧
      (decrement it).end_index = it.end_index := by
  have hdec : (decrement it).stepper = (end_stepper c target).to_last := by
    simp only [decrement]
    rw [hst, if_pos (by simp [end_stepper])]
  have hpos : ∀ a, a < target.length → 0 < target.getD a 0 :=
    getD_pos_of_size_ne_zero target hn
  refine ⟨⟨hs, hL, ?_, ?_, ?_, ?_, ?_, ?_, ?_⟩, rfl⟩
  · rw [hdec]; rfl
  · rw [hdec]; rfl
  · rw [hdec]; rfl
  · rw [hdec]; simp [xstepper.to_last, end_stepper]
  · intro a ha
    rw [hdec]
    show (target.map fun extent => extent - 1).getD a 0 < _
    rw [getD_map_pred _ _ ha]
    have := hpos a ha
    omega
  · rw [hdec]
    have := lin_of_last target (target.map fun extent => extent - 1)
      (axis_order L c.layout target.length)
      (fun a ha => by
        have ha2 := (mem_axis_order _ _ _ _).mp ha
        rw [getD_map_pred _ _ ha2]
        have := hpos a ha2
        omega)
    rw [vol_axis_order] at this
    show lin target (target.map fun extent => extent - 1) _ = _
    omega
  · rw [hdec]
    simp only [offset_at, xstepper.to_last, end_stepper]
    apply congrArg
    apply List.map_congr_left
    intro a ha
    rw [getD_map_pred _ _ (List.mem_range.mp ha)]
    rfl

theorem decrement_at_position {c : xarray α} {target : List Nat} {L : layout_type} {m : Nat}
    {it : array_iterator α} (h : at_position c target L (m + 1) it) :
    at_rank c target L m (decrement it) := by
  rcases h with ⟨h1, h2, h3, h4⟩ | h
  · have := (decrement_end h2 h3 h4 (by omega)).1
    rw [← h1] at this
    exact this
  · exact (decrement_at_rank h).1

theorem equal_begin_of_at_position [DecidableEq α] {c : xarray α} {target : List Nat}
    {L : layout_type} {m : Nat} {it : array_iterator α} (fl : Bool)
    (h : at_position c target L m it) :
    equal it ⟨begin_stepper c target, target, fl, L⟩ = decide (m = 0) := by
  cases m with
  | zero =>
    rcases h with ⟨h1, h2, h3, _⟩ | h
    · simp [equal, h2, h3, begin_stepper_empty c target h1.symm]
    · have hb := at_rank_begin L c target fl (by have := at_rank_lt h; omega)
      simp [equal, stepper_eq_of_at_rank h hb, h.1]
  | succ m =>
    have hne : it.stepper ≠ begin_stepper c target := by
      rcases h with ⟨h1, h2, _, _⟩ | h
      · rw [h2]
        intro heq
        have := congrArg xstepper.past_end heq
        simp [end_stepper, begin_stepper] at this
        omega
      · intro heq
        have hb := at_rank_begin L c target fl (by have := at_rank_lt h; omega)
        have := rank_eq_of_stepper_eq h hb heq
        omega
    simp [equal, hne]

theorem reverse_traverse_at_position [DecidableEq α] {c : xarray α} {target : List Nat}
    {L : layout_type} (fl : Bool) :
    ∀ (m fuel : Nat) (it : array_iterator α), at_position c target L m it → m ≤ fuel →
      reverse_iterator.traverse fuel ⟨it⟩ ⟨⟨begin_stepper c target, target, fl, L⟩⟩
        = some ((List.range m).map fun j => ⟨decrement^[j] it⟩) := by
  intro m
  induction m with
  | zero =>
    intro fuel it h _
    have := equal_begin_of_at_position fl h
    cases fuel <;> simp [reverse_iterator.traverse, reverse_iterator.equal, this]
  | succ m ih =>
    intro fuel it h hfuel
    obtain ⟨f, rfl⟩ : ∃ f, fuel = f + 1 := ⟨fuel - 1, by omega⟩
    have hne := equal_begin_of_at_position fl h
    simp only [Nat.add_one_ne_zero, decide_False] at hne
    simp only [reverse_iterator.traverse, reverse_iterator.equal, hne]
    have hd := decrement_at_position h
    have := ih f (decrement it) (Or.inr hd) (by omega)
    simp only [reverse_iterator.increment]
    rw [this]
    simp only [Option.map_some', List.range_succ_eq_map, List.map_cons, List.map_map,
      Function.iterate_zero, id_eq]
    rfl

theorem at_rank_iterate_decrement {c : xarray α} {target : List Nat} {L : layout_type}
    {it : array_iterator α} (hst : it.stepper = end_stepper c target) (hs : it.shape = target)
    (hL : it.L = L) :
    ∀ j, j < size target → at_rank c target L (size target - 1 - j) (decrement^[j + 1] it) := by
  intro j
  induction j with
  | zero =>
    intro hj
    exact (decrement_end hst hs hL (by omega)).1
  | succ j ih =>
    intro hj
    have hprev := ih (by omega)
    rw [Function.iterate_succ_apply']
    have heq : size target - 1 - j = (size target - 1 - (j + 1)) + 1 := by omega
    rw [heq] at hprev
    exact (decrement_at_rank hprev).1

theorem rbegin_eq (L : layout_type) (c : xarray α) :
    xconst_iterable.rbegin L c.derived
      = noexcept_result.returned ⟨⟨end_stepper c c.shape, c.shape, true, L⟩⟩ := by
  simp [xconst_iterable.rbegin, xconst_iterable.crbegin, xconst_iterable.get_cend,
    xconst_iterable.get_stepper_end, xconst_iterable.get_shape, xarray.derived,
    xarray.stepper_end, broadcast_compatible_self, noexcept, noexcept_result.map, end_stepper,
    xstepper.to_end]

theorem rend_eq (L : layout_type) (c : xarray α) :
    xconst_iterable.rend L c.derived
      = noexcept_result.returned ⟨⟨begin_stepper c c.shape, c.shape, false, L⟩⟩ := by
  simp [xconst_iterable.rend, xconst_iterable.crend, xconst_iterable.get_cbegin,
    xconst_iterable.get_stepper_begin, xconst_iterable.get_shape, xarray.derived,
    xarray.stepper_begin, broadcast_compatible_self, noexcept, noexcept_result.map,
    begin_stepper]

theorem reverse_steppers (L : layout_type) (c : xarray α) (target : List Nat) (fl : Bool)
    (e : array_iterator α) (hst : e.stepper = end_stepper c target) (hs : e.shape = target)
    (hL : e.L = L) :
    ((List.range (size target)).map fun j => (decrement^[j + 1] e).stepper)
      = ((List.range (size target)).map fun j =>
          (increment^[j] (⟨begin_stepper c target, target, fl, L⟩ : array_iterator α)).stepper
        ).reverse := by
  apply List.ext_getElem
  · simp
  · intro j h1 h2
    have hj : j < size target := by simpa using h1
    simp only [List.getElem_map, List.getElem_range, List.getElem_reverse, List.length_map,
      List.length_range]
    exact stepper_eq_of_at_rank (at_rank_iterate_decrement hst hs hL j hj)
      (at_rank_iterate (at_rank_begin L c target fl (by omega)) _ (by omega)).1

/-- Claim C4. For every array and every layout, the walk from `rbegin<L>()` to `rend<L>()`
is completed, dereferences as many iterators as the walk from `begin<L>()` to `end<L>()`,
and yields the elements (and visits the positions) of the forward walk in reverse order;
a reverse iterator yields the element just before the position of the iterator it wraps. -/
theorem C4_reverse_walk_is_forward_walk_reversed [DecidableEq α] (L : layout_type)
    (c : xarray α) (extra : Nat) :
    ∃ b e rb re visited rvisited,
      xconst_iterable.begin L c.derived = noexcept_result.returned b ∧
      xconst_iterable.end_ L c.derived = noexcept_result.returned e ∧
      xconst_iterable.rbegin L c.derived = noexcept_result.returned rb ∧
      xconst_iterable.rend L c.derived = noexcept_result.returned re ∧
      xiterator.traverse (size c.shape + extra) b e = some visited ∧
      reverse_iterator.traverse (size c.shape + extra) rb re = some rvisited ∧
      rvisited.length = visited.length ∧
      rvisited.map reverse_iterator.dereference
        = (visited.map xiterator.dereference).reverse ∧
      (rvisited.map fun r => (decrement r.current).stepper)
        = (visited.map fun it => it.stepper).reverse := by
  have hst := reverse_steppers L c c.shape false
    (⟨end_stepper c c.shape, c.shape, true, L⟩ : array_iterator α) rfl rfl rfl
  simp only [Function.iterate_succ_apply'] at hst
  refine ⟨_, _, _, _, _, _, begin_broadcast_eq L c c.shape (broadcast_compatible_self _),
    end_broadcast_eq L c c.shape (broadcast_compatible_self _), rbegin_eq L c, rend_eq L c,
    traverse_begin L c c.shape false _ rfl rfl _ (by omega),
    reverse_traverse_at_position false (size c.shape) _ _ (Or.inl ⟨rfl, rfl, rfl, rfl⟩)
      (by omega), by simp, ?_, ?_⟩
  · have := congrArg (List.map xstepper.dereference) hst
    simp only [List.map_map, List.map_reverse, Function.comp_def] at this ⊢
    exact this
  · simp only [List.map_map, Function.comp_def]
    exact hst

/-- Claim C5. For every traversal shape that is broadcast compatible with the array and every
layout, `begin<L>(S)` incremented `size(S)` times compares equal to `end<L>(S)`, which is the
iterator built from `stepper_end(S, L)` with the end flag set, and after fewer increments it
does not compare equal to `end<L>(S)`. -/
theorem C5_end_reached_after_exactly_size_increments [DecidableEq α] (L : layout_type)
    (c : xarray α) (target : List Nat) (hc : broadcast_compatible c.shape target = true) :
    ∃ b e st,
      xconst_iterable.begin_broadcast L c.derived target = noexcept_result.returned b ∧
      xconst_iterable.end_broadcast L c.derived target = noexcept_result.returned e ∧
      c.stepper_end target L = Except.ok st ∧
      e = ⟨st, target, true, L⟩ ∧
      equal (increment^[size target] b) e = true ∧
      ∀ k, k < size target → equal (increment^[k] b) e = false := by
  refine ⟨_, _, end_stepper c target, begin_broadcast_eq L c target hc,
    end_broadcast_eq L c target hc, ?_, rfl, ?_, ?_⟩
  · simp [xarray.stepper_end, hc, end_stepper, xstepper.to_end]
  · by_cases h : size target = 0
    · rw [h]
      simp [equal, begin_stepper_empty c target h]
    · obtain ⟨n, hn⟩ : ∃ n, size target = n + 1 := ⟨size target - 1, by omega⟩
      rw [hn, Function.iterate_succ_apply']
      have hr := (at_rank_iterate (at_rank_begin L c target false h) n (by omega)).1
      have hl := increment_last hr hn.symm
      simp [equal, hl.1, hl.2]
  · intro k hk
    have hr := (at_rank_iterate (at_rank_begin L c target false (by omega)) k hk).1
    have hp : (increment^[k]
        (⟨begin_stepper c target, target, false, L⟩ : array_iterator α)).stepper.past_end
        = false := hr.2.2.2.2.1
    have hne : (increment^[k]
        (⟨begin_stepper c target, target, false, L⟩ : array_iterator α)).stepper
        ≠ end_stepper c target := by
      intro heq
      rw [heq] at hp
      simp [end_stepper] at hp
    simp [equal, hne]

/-- Witness of claim C5 on the array of shape `[1,4]` traversed with shape `[3,4]`. -/
theorem C5_end_reached_witness :
    broadcast_compatible example_1x4.shape [3, 4] = true ∧
    ∃ b e,
      xconst_iterable.begin_broadcast layout_type.column_major example_1x4.derived [3, 4]
        = noexcept_result.returned b ∧
      xconst_iterable.end_broadcast layout_type.column_major example_1x4.derived [3, 4]
        = noexcept_result.returned e ∧
      equal (increment^[size [3, 4]] b) e = true ∧
      ∀ k, k < size [3, 4] → equal (increment^[k] b) e = false :=
  ⟨by decide, by
    obtain ⟨b, e, _, h1, h2, _, _, h5, h6⟩ :=
      C5_end_reached_after_exactly_size_increments layout_type.column_major example_1x4 [3, 4]
        (by decide)
    exact ⟨b, e, h1, h2, h5, h6⟩⟩

theorem storage_traverse [DecidableEq α] (buffer : List α) :
    ∀ (m fuel k : Nat), k + m = buffer.length → m ≤ fuel →
      storage_pointer.traverse fuel ⟨buffer, k⟩ ⟨buffer, buffer.length⟩
        = some ((List.range m).map fun j => ⟨buffer, k + j⟩) := by
  intro m
  induction m with
  | zero =>
    intro fuel k hk _
    have : k = buffer.length := by omega
    subst this
    cases fuel <;> simp [storage_pointer.traverse, storage_pointer.equal]
  | succ m ih =>
    intro fuel k hk hfuel
    obtain ⟨f, rfl⟩ : ∃ f, fuel = f + 1 := ⟨fuel - 1, by omega⟩
    have hne : k ≠ buffer.length := by omega
    simp only [storage_pointer.traverse, storage_pointer.equal, storage_pointer.increment]
    rw [if_neg (by simp [hne])]
    rw [ih f (k + 1) (by omega) (by omega)]
    simp only [Option.map_some', List.range_succ_eq_map, List.map_cons, List.map_map,
      Nat.add_zero, Option.some.injEq, List.cons.injEq, true_and]
    apply List.map_congr_left
    intro j _
    simp only [Function.comp, Nat.succ_eq_add_one]
    congr 1
    omega

theorem linear_offset_row (s : List Nat) :
    ∀ x : List Nat, x.length = s.length →
      linear_offset (row_major_strides s) x = lin s x (List.range s.length).reverse := by
  induction s with
  | nil => intro x hx; simp [linear_offset, row_major_strides, lin]
  | cons s0 ss ih =>
    intro x hx
    cases x with
    | nil => simp at hx
    | cons x0 xs =>
      simp only [List.length_cons]
      rw [lin_row_cons, ← ih xs (by simpa using hx)]
      simp only [linear_offset, row_major_strides, List.zipWith_cons_cons, List.sum_cons]
      ring

theorem linear_offset_column (s : List Nat) :
    ∀ (stride : Nat) (x : List Nat), x.length = s.length →
      linear_offset (column_major_strides_from stride s) x
        = stride * lin s x (List.range s.length) := by
  induction s with
  | nil => intro stride x hx; simp [linear_offset, column_major_strides_from, lin]
  | cons s0 ss ih =>
    intro stride x hx
    cases x with
    | nil => simp at hx
    | cons x0 xs =>
      simp only [List.length_cons]
      rw [lin_col_cons]
      have := ih (stride * s0) xs (by simpa using hx)
      simp only [linear_offset, column_major_strides_from, List.zipWith_cons_cons,
        List.sum_cons] at this ⊢
      rw [this]
      ring

theorem source_index_self (s : List Nat) :
    ∀ x : List Nat, in_shape s x → source_index s x = x := by
  intro x hx
  simp only [source_index, hx.1, Nat.sub_self, List.drop_zero]
  induction s generalizing x with
  | nil => rw [in_shape_nil_left x hx]; rfl
  | cons s0 ss ih =>
    obtain ⟨x0, xs, rfl⟩ := in_shape_cons_left s0 ss x hx
    rw [in_shape_cons] at hx
    simp only [List.zipWith_cons_cons, ih xs hx.2]
    congr 1
    split
    · omega
    · rfl

theorem mutable_begin_eq (L : layout_type) (c : xarray α) :
    xiterable.begin L c.derived
      = noexcept_result.returned ⟨begin_stepper c c.shape, c.shape, false, L⟩ := by
  simp [xiterable.begin, xiterable.get_begin, xiterable.get_stepper_begin,
    xconst_iterable.get_shape, xarray.derived, xarray.stepper_begin, broadcast_compatible_self,
    noexcept, noexcept_result.map, begin_stepper]

theorem mutable_end_eq (L : layout_type) (c : xarray α) :
    xiterable.end_ L c.derived
      = noexcept_result.returned ⟨end_stepper c c.shape, c.shape, true, L⟩ := by
  simp [xiterable.end_, xiterable.get_end, xiterable.get_stepper_end,
    xconst_iterable.get_shape, xarray.derived, xarray.stepper_end, broadcast_compatible_self,
    noexcept, noexcept_result.map, end_stepper, xstepper.to_end]

theorem dereference_contiguous {c : xarray α} {L : layout_type} {k : Nat}
    {it : array_iterator α} (h : at_rank c c.shape L k it) (hc : c.contiguous L = true) :
    it.dereference = c.storage.get? k := by
  rw [dereference_of_at_rank h (broadcast_compatible_self _),
    source_index_self _ _ (in_shape_of_at_rank h), xarray.element]
  have hlen := h.2.2.2.2.2.1
  have hlin := h.2.2.2.2.2.2.2.1
  cases L with
  | row_major =>
    simp only [xarray.contiguous, decide_eq_true_eq] at hc
    rw [hc.1, linear_offset_row _ _ hlen]
    exact congrArg _ hlin
  | column_major =>
    simp only [xarray.contiguous, decide_eq_true_eq] at hc
    rw [hc.1, column_major_strides, linear_offset_column _ _ _ hlen, Nat.one_mul]
    exact congrArg _ hlin
  | dynamic => simp [xarray.contiguous] at hc

theorem storage_length_of_contiguous {c : xarray α} {L : layout_type}
    (hc : c.contiguous L = true) : c.storage.length = size c.shape := by
  cases L <;> simp [xarray.contiguous] at hc <;> exact hc.2

/-- Claim C6. For a contiguous array whose static layout equals the requested layout `L`,
`xcontiguous_iterable::begin<L>()` and `end<L>()` are the storage iterators, and the elements
yielded by the walk between them are, one by one and in the same order, the elements yielded
by the walk between the stepper-based `xiterable::begin<L>()` and `xiterable::end<L>()` of the
same array (the elements of the storage in linear order). -/
theorem C6_fast_path_yields_stepper_path_elements [DecidableEq α] (L : layout_type)
    (c : xarray α) (extra : Nat) (hc : c.contiguous L = true) :
    ∃ sb se svisited b e visited,
      xcontiguous_iterable.begin L (c.contiguous_derived L)
        = noexcept_result.returned (select_iterator_impl.storage sb) ∧
      xcontiguous_iterable.end_ L (c.contiguous_derived L)
        = noexcept_result.returned (select_iterator_impl.storage se) ∧
      storage_pointer.traverse (size c.shape + extra) sb se = some svisited ∧
      xiterable.begin L (c.contiguous_derived L).toderived_type = noexcept_result.returned b ∧
      xiterable.end_ L (c.contiguous_derived L).toderived_type = noexcept_result.returned e ∧
      xiterator.traverse (size c.shape + extra) b e = some visited ∧
      svisited.map storage_pointer.dereference = visited.map xiterator.dereference ∧
      svisited.map storage_pointer.dereference = c.storage.map some := by
  have hlen := storage_length_of_contiguous hc
  have hstorage : ((List.range c.storage.length).map fun j =>
      storage_pointer.dereference (⟨c.storage, 0 + j⟩ : storage_pointer α))
      = c.storage.map some := by
    apply List.ext_getElem
    · simp
    · intro j h1 h2
      have hj : j < c.storage.length := by simpa using h1
      simp [storage_pointer.dereference, List.getElem?_eq_getElem hj]
  refine ⟨_, _, _, _, _, _, ?_, ?_,
    storage_traverse c.storage c.storage.length _ 0 (by omega) (by omega),
    mutable_begin_eq L c, mutable_end_eq L c,
    traverse_begin L c c.shape false _ rfl rfl _ (by omega), ?_, ?_⟩
  · simp [xcontiguous_iterable.begin, xcontiguous_iterable.static_if,
      xcontiguous_iterable.static_layout, xarray.container_types, xarray.contiguous_derived]
  · simp [xcontiguous_iterable.end_, xcontiguous_iterable.static_if,
      xcontiguous_iterable.static_layout, xarray.container_types, xarray.contiguous_derived]
  · rw [List.map_map, List.map_map, hlen]
    apply List.map_congr_left
    intro k hk
    have hk2 := List.mem_range.mp hk
    have hr := (at_rank_iterate (at_rank_begin L c c.shape false (by omega)) k hk2).1
    simp only [Function.comp]
    rw [dereference_contiguous hr hc]
    simp [storage_pointer.dereference]
  · rw [List.map_map]
    exact hstorage

/-- Witness of claim C6 on the row-major array of shape `[2,3]`. -/
theorem C6_fast_path_witness :
    example_2x3.contiguous layout_type.row_major = true ∧
    ∃ sb se svisited b e visited,
      xcontiguous_iterable.begin layout_type.row_major
          (example_2x3.contiguous_derived layout_type.row_major)
        = noexcept_result.returned (select_iterator_impl.storage sb) ∧
      xcontiguous_iterable.end_ layout_type.row_major
          (example_2x3.contiguous_derived layout_type.row_major)
        = noexcept_result.returned (select_iterator_impl.storage se) ∧
      storage_pointer.traverse (size example_2x3.shape + 0) sb se = some svisited ∧
      xiterable.begin layout_type.row_major
          (example_2x3.contiguous_derived layout_type.row_major).toderived_type
        = noexcept_result.returned b ∧
      xiterable.end_ layout_type.row_major
          (example_2x3.contiguous_derived layout_type.row_major).toderived_type
        = noexcept_result.returned e ∧
      xiterator.traverse (size example_2x3.shape + 0) b e = some visited ∧
      svisited.map storage_pointer.dereference = visited.map xiterator.dereference ∧
      svisited.map storage_pointer.dereference = example_2x3.storage.map some :=
  ⟨by decide,
    C6_fast_path_yields_stepper_path_elements layout_type.row_major example_2x3 0 (by decide)⟩

/-- Claim C7 as stated fails: with a dynamic static layout (so `contiguous_layout` is false)
and `L = dynamic`, `begin<L>()` is the storage iterator of the derived type, not the
stepper-based iterator of `xiterable`. -/
theorem C7_dynamic_static_layout_takes_storage_path :
    xcontiguous_iterable.contiguous_layout (plain_container_types layout_type.dynamic) = false ∧
    xcontiguous_iterable.begin layout_type.dynamic (plain_derived layout_type.dynamic 2 0)
      = noexcept_result.returned (select_iterator_impl.storage (0 : Nat)) ∧
    xcontiguous_iterable.begin layout_type.dynamic (plain_derived layout_type.dynamic 2 0)
      ≠ (xiterable.begin layout_type.dynamic
          (plain_derived layout_type.dynamic 2 0).toderived_type).map
          select_iterator_impl.layout := by
  refine ⟨rfl, rfl, ?_⟩
  intro h
  cases h

/-- Claim C7, amended. Each no-argument entry point of `xcontiguous_iterable` returns the
storage iterator of the derived type exactly when `L` equals the static layout (also when both
are dynamic), and the stepper-based iterator of `xiterable` or `xconst_iterable` otherwise. -/
theorem C7_storage_path_iff_layout_is_static_layout {I : xiterable_inner_types}
    {C : xcontainer_inner_types} (L : layout_type) (d : contiguous_derived_type I C) :
    xcontiguous_iterable.begin L d
      = (if L = C.layout then
           noexcept_result.returned (select_iterator_impl.storage d.storage_begin)
         else (xiterable.begin L d.toderived_type).map select_iterator_impl.layout) ∧
    xcontiguous_iterable.end_ L d
      = (if L = C.layout then noexcept_result.returned (select_iterator_impl.storage d.storage_end)
         else (xiterable.end_ L d.toderived_type).map select_iterator_impl.layout) ∧
    xcontiguous_iterable.cbegin L d
      = (if L = C.layout then
           noexcept_result.returned (select_iterator_impl.storage d.storage_cbegin)
         else (xconst_iterable.cbegin L d.toderived_type).map select_iterator_impl.layout) ∧
    xcontiguous_iterable.cend L d
      = (if L = C.layout then noexcept_result.returned (select_iterator_impl.storage d.storage_cend)
         else (xconst_iterable.cend L d.toderived_type).map select_iterator_impl.layout) ∧
    xcontiguous_iterable.rbegin L d
      = (if L = C.layout then
           noexcept_result.returned (select_iterator_impl.storage d.storage_rbegin)
         else (xiterable.rbegin L d.toderived_type).map select_iterator_impl.layout) ∧
    xcontiguous_iterable.rend L d
      = (if L = C.layout then noexcept_result.returned (select_iterator_impl.storage d.storage_rend)
         else (xiterable.rend L d.toderived_type).map select_iterator_impl.layout) ∧
    xcontiguous_iterable.crbegin L d
      = (if L = C.layout then
           noexcept_result.returned (select_iterator_impl.storage d.storage_crbegin)
         else (xconst_iterable.crbegin L d.toderived_type).map select_iterator_impl.layout) ∧
    xcontiguous_iterable.crend L d
      = (if L = C.layout then
           noexcept_result.returned (select_iterator_impl.storage d.storage_crend)
         else (xconst_iterable.crend L d.toderived_type).map select_iterator_impl.layout) ∧
    xcontiguous_iterable.begin_const L d = xcontiguous_iterable.cbegin L d ∧
    xcontiguous_iterable.end_const L d = xcontiguous_iterable.cend L d ∧
    xcontiguous_iterable.rbegin_const L d = xcontiguous_iterable.crbegin L d ∧
    xcontiguous_iterable.rend_const L d = xcontiguous_iterable.crend L d := by
  refine ⟨?_, ?_, ?_, ?_, ?_, ?_, ?_, ?_, rfl, rfl, rfl, rfl⟩ <;>
    by_cases h : L = C.layout <;>
    simp [xcontiguous_iterable.begin, xcontiguous_iterable.end_, xcontiguous_iterable.cbegin,
      xcontiguous_iterable.cend, xcontiguous_iterable.rbegin, xcontiguous_iterable.rend,
      xcontiguous_iterable.crbegin, xcontiguous_iterable.crend, xcontiguous_iterable.static_if,
      xcontiguous_iterable.static_layout, h]

/-- Claim C8. On `xconst_iterable` and `xiterable`, for every layout, with or without a shape
argument, `rbegin` is the reverse adaptor applied to what the matching `end` returns and `rend`
is the reverse adaptor applied to what the matching `begin` returns; likewise `crbegin` and
`crend` with `cend` and `cbegin`. -/
theorem C8_reverse_entry_points_wrap_forward_entry_points {I : xiterable_inner_types}
    (L : layout_type) (d : derived_type I) (s : I.inner_shape_type) :
    xconst_iterable.rbegin L d = (xconst_iterable.end_ L d).map reverse_iterator.mk ∧
    xconst_iterable.rend L d = (xconst_iterable.begin L d).map reverse_iterator.mk ∧
    xconst_iterable.crbegin L d = (xconst_iterable.cend L d).map reverse_iterator.mk ∧
    xconst_iterable.crend L d = (xconst_iterable.cbegin L d).map reverse_iterator.mk ∧
    xconst_iterable.rbegin_broadcast L d s
      = (xconst_iterable.end_broadcast L d s).map reverse_iterator.mk ∧
    xconst_iterable.rend_broadcast L d s
      = (xconst_iterable.begin_broadcast L d s).map reverse_iterator.mk ∧
    xconst_iterable.crbegin_broadcast L d s
      = (xconst_iterable.cend_broadcast L d s).map reverse_iterator.mk ∧
    xconst_iterable.crend_broadcast L d s
      = (xconst_iterable.cbegin_broadcast L d s).map reverse_iterator.mk ∧
    xiterable.rbegin L d = (xiterable.end_ L d).map reverse_iterator.mk ∧
    xiterable.rend L d = (xiterable.begin L d).map reverse_iterator.mk ∧
    xiterable.rbegin_broadcast L d s
      = (xiterable.end_broadcast L d s).map reverse_iterator.mk ∧
    xiterable.rend_broadcast L d s
      = (xiterable.begin_broadcast L d s).map reverse_iterator.mk :=
  ⟨rfl, rfl, rfl, rfl, rfl, rfl, rfl, rfl, rfl, rfl, rfl, rfl⟩

/-- Claim C10. On `xconst_iterable` and `xiterable`, for every layout, each entry point
without a shape argument returns what the entry point of the same name returns when it is
given the shape of the array: same stepper, same end flag, same traversal shape. -/
theorem C10_own_shape_entry_points_are_broadcast_entry_points_at_own_shape
    {I : xiterable_inner_types} (L : layout_type) (d : derived_type I) :
    xconst_iterable.begin L d = xconst_iterable.begin_broadcast L d d.shape ∧
    xconst_iterable.end_ L d = xconst_iterable.end_broadcast L d d.shape ∧
    xconst_iterable.cbegin L d = xconst_iterable.cbegin_broadcast L d d.shape ∧
    xconst_iterable.cend L d = xconst_iterable.cend_broadcast L d d.shape ∧
    xconst_iterable.rbegin L d = xconst_iterable.rbegin_broadcast L d d.shape ∧
    xconst_iterable.rend L d = xconst_iterable.rend_broadcast L d d.shape ∧
    xconst_iterable.crbegin L d = xconst_iterable.crbegin_broadcast L d d.shape ∧
    xconst_iterable.crend L d = xconst_iterable.crend_broadcast L d d.shape ∧
    xiterable.begin L d = xiterable.begin_broadcast L d d.shape ∧
    xiterable.end_ L d = xiterable.end_broadcast L d d.shape ∧
    xiterable.rbegin L d = xiterable.rbegin_broadcast L d d.shape ∧
    xiterable.rend L d = xiterable.rend_broadcast L d d.shape :=
  ⟨rfl, rfl, rfl, rfl, rfl, rfl, rfl, rfl, rfl, rfl, rfl, rfl⟩

theorem noexcept_result_all_map {α β : Type} (p : β → Prop) (f : α → β)
    (r : noexcept_result α) : (r.map f).all p ↔ r.all fun a => p (f a) := by
  cases r <;> rfl

theorem noexcept_all_map {ε α β : Type} (p : β → Prop) (f : α → β) (body : Except ε α)
    (h : ∀ a, p (f a)) : ((noexcept body).map f).all p := by
  cases body with
  | error e => trivial
  | ok a => exact h a

theorem broadcast_compatible_iff (A T : List Nat) :
    broadcast_compatible A T = true ↔
      A.length ≤ T.length ∧
        ∀ j, j < A.length →
          A.getD j 0 = T.getD (T.length - A.length + j) 0 ∨ A.getD j 0 = 1 := by
  simp only [broadcast_compatible, Bool.and_eq_true, decide_eq_true_eq, List.all_eq_true, id]
  constructor
  · rintro ⟨hlen, hall⟩
    refine ⟨hlen, ?_⟩
    intro j hj
    have hj2 : j < (List.drop (T.length - A.length) T).length := by
      rw [List.length_drop]
      omega
    have hmem := hall _ (List.getElem_mem (l := List.zipWith
      (fun a t => decide (a = t ∨ a = 1)) A (List.drop (T.length - A.length) T))
      (n := j) (by simp [List.length_zipWith]; omega))
    simp only [List.getElem_zipWith, decide_eq_true_eq, List.getElem_drop] at hmem
    have h1 : A.getD j 0 = A[j] := by
      simp [List.getD_eq_getElem?_getD, List.getElem?_eq_getElem hj]
    have h3 : T.length - A.length + j < T.length := by omega
    have h2 : T.getD (T.length - A.length + j) 0 = T[T.length - A.length + j] := by
      simp [List.getD_eq_getElem?_getD, List.getElem?_eq_getElem h3]
    rw [h1, h2]
    exact hmem
  · rintro ⟨hlen, hall⟩
    refine ⟨hlen, ?_⟩
    intro x hx
    rw [List.mem_iff_getElem] at hx
    obtain ⟨j, hj, rfl⟩ := hx
    have hjA : j < A.length := by
      simp only [List.length_zipWith, List.length_drop] at hj
      omega
    have := hall j hjA
    have h1 : A.getD j 0 = A[j] := by
      simp [List.getD_eq_getElem?_getD, List.getElem?_eq_getElem hjA]
    have h3 : T.length - A.length + j < T.length := by omega
    have h2 : T.getD (T.length - A.length + j) 0 = T[T.length - A.length + j] := by
      simp [List.getD_eq_getElem?_getD, List.getElem?_eq_getElem h3]
    rw [h1, h2] at this
    simp only [List.getElem_zipWith, decide_eq_true_eq, List.getElem_drop]
    exact this

theorem broadcast_compatible_eq_false (A T : List Nat)
    (h : T.length < A.length ∨
      ∃ j, j < A.length ∧ A.getD j 0 ≠ 1 ∧
        A.getD j 0 ≠ T.getD (T.length - A.length + j) 0) :
    broadcast_compatible A T = false := by
  rw [← Bool.not_eq_true, broadcast_compatible_iff]
  rintro ⟨hlen, hall⟩
  rcases h with h | ⟨j, hj, h1, h2⟩
  · omega
  · rcases hall j hj with e | e
    · exact h2 e
    · exact h1 e

/-- Claim C11 as stated fails: for the array of shape `[2,3]` and the lower-rank traversal
shape `[3]` the stepper request signals `IncompatibleShapeError`, but `begin(shape)` and
`end(shape)` are declared `noexcept`: the caller observes the end of the program, not the
error. -/
theorem C11_incompatible_shape_terminates_instead_of_signalling :
    example_2x3.stepper_begin [3] = Except.error shape_error.IncompatibleShapeError ∧
    (xconst_iterable.begin_broadcast layout_type.row_major example_2x3.derived [3]).observed
      = observation.program_terminated ∧
    (xconst_iterable.end_broadcast layout_type.row_major example_2x3.derived [3]).observed
      = observation.program_terminated ∧
    (xconst_iterable.begin_broadcast layout_type.row_major example_2x3.derived [3]).observed
      ≠ observation.signalled shape_error.IncompatibleShapeError := by
  refine ⟨rfl, rfl, rfl, ?_⟩
  intro h
  cases h

/-- Claim C11, amended. For every array and every traversal shape that is not broadcast
compatible with the shape of the array (its rank is smaller, or an aligned axis of the array
has an extent that is neither 1 nor the traversal extent), `stepper_begin` and `stepper_end`
signal `IncompatibleShapeError`, and `begin(shape)`, `end(shape)`, `cbegin(shape)` and
`cend(shape)`, const and mutable, return no iterator: the error stops at their `noexcept`
boundary and the program is terminated. A lower-rank traversal shape is rejected this way. -/
theorem C11_incompatible_shape_is_rejected_and_call_terminates (L : layout_type) (c : xarray α)
    (target : List Nat)
    (h : target.length < c.shape.length ∨
      ∃ j, j < c.shape.length ∧ c.shape.getD j 0 ≠ 1 ∧
        c.shape.getD j 0 ≠ target.getD (target.length - c.shape.length + j) 0) :
    c.stepper_begin target = Except.error shape_error.IncompatibleShapeError ∧
    c.stepper_end target L = Except.error shape_error.IncompatibleShapeError ∧
    xconst_iterable.begin_broadcast L c.derived target = noexcept_result.terminated ∧
    xconst_iterable.end_broadcast L c.derived target = noexcept_result.terminated ∧
    xconst_iterable.cbegin_broadcast L c.derived target = noexcept_result.terminated ∧
    xconst_iterable.cend_broadcast L c.derived target = noexcept_result.terminated ∧
    xiterable.begin_broadcast L c.derived target = noexcept_result.terminated ∧
    xiterable.end_broadcast L c.derived target = noexcept_result.terminated := by
  have hc := broadcast_compatible_eq_false c.shape target h
  have hb : c.stepper_begin target = Except.error shape_error.IncompatibleShapeError := by
    simp [xarray.stepper_begin, hc]
  have he : c.stepper_end target L = Except.error shape_error.IncompatibleShapeError := by
    simp [xarray.stepper_end, hc]
  refine ⟨hb, he, ?_, ?_, ?_, ?_, ?_, ?_⟩ <;>
    simp [xconst_iterable.begin_broadcast, xconst_iterable.end_broadcast,
      xconst_iterable.cbegin_broadcast, xconst_iterable.cend_broadcast,
      xconst_iterable.get_cbegin_broadcast, xconst_iterable.get_cend_broadcast,
      xconst_iterable.get_stepper_begin, xconst_iterable.get_stepper_end,
      xiterable.begin_broadcast, xiterable.end_broadcast, xiterable.get_begin_broadcast,
      xiterable.get_end_broadcast, xiterable.get_stepper_begin, xiterable.get_stepper_end,
      xarray.derived, hb, he, noexcept, noexcept_result.map]

/-- Witness of claim C11 on the array of shape `[2,3]` and the traversal shape `[3]`. -/
theorem C11_incompatible_shape_witness :
    ([3] : List Nat).length < example_2x3.shape.length ∧
    example_2x3.stepper_begin [3] = Except.error shape_error.IncompatibleShapeError ∧
    xconst_iterable.begin_broadcast layout_type.row_major example_2x3.derived [3]
      = noexcept_result.terminated ∧
    xconst_iterable.end_broadcast layout_type.row_major example_2x3.derived [3]
      = noexcept_result.terminated :=
  ⟨by decide, by
    obtain ⟨h1, _, h3, h4, _⟩ :=
      C11_incompatible_shape_is_rejected_and_call_terminates layout_type.row_major
        example_2x3 [3] (Or.inl (by decide))
    exact ⟨h1, h3, h4⟩⟩

/-- Claim C12. On `xconst_iterable` (whose const overloads `xiterable` inherits) and on
`xcontiguous_iterable`, fast path included, for every layout and every shape, the const
entry points `begin`, `end`, `rbegin`, `rend` return what `cbegin`, `cend`, `crbegin`,
`crend` return, without and with a shape argument. -/
theorem C12_const_entry_points_are_their_c_prefixed_forms {I : xiterable_inner_types}
    {C : xcontainer_inner_types} (L : layout_type) (d : contiguous_derived_type I C)
    (s : I.inner_shape_type) :
    xconst_iterable.begin L d.toderived_type = xconst_iterable.cbegin L d.toderived_type ∧
    xconst_iterable.end_ L d.toderived_type = xconst_iterable.cend L d.toderived_type ∧
    xconst_iterable.rbegin L d.toderived_type = xconst_iterable.crbegin L d.toderived_type ∧
    xconst_iterable.rend L d.toderived_type = xconst_iterable.crend L d.toderived_type ∧
    xconst_iterable.begin_broadcast L d.toderived_type s
      = xconst_iterable.cbegin_broadcast L d.toderived_type s ∧
    xconst_iterable.end_broadcast L d.toderived_type s
      = xconst_iterable.cend_broadcast L d.toderived_type s ∧
    xconst_iterable.rbegin_broadcast L d.toderived_type s
      = xconst_iterable.crbegin_broadcast L d.toderived_type s ∧
    xconst_iterable.rend_broadcast L d.toderived_type s
      = xconst_iterable.crend_broadcast L d.toderived_type s ∧
    xcontiguous_iterable.begin_const L d = xcontiguous_iterable.cbegin L d ∧
    xcontiguous_iterable.end_const L d = xcontiguous_iterable.cend L d ∧
    xcontiguous_iterable.rbegin_const L d = xcontiguous_iterable.crbegin L d ∧
    xcontiguous_iterable.rend_const L d = xcontiguous_iterable.crend L d ∧
    xcontiguous_iterable.begin_broadcast_const L d s
      = xcontiguous_iterable.cbegin_broadcast L d s ∧
    xcontiguous_iterable.end_broadcast_const L d s
      = xcontiguous_iterable.cend_broadcast L d s ∧
    xcontiguous_iterable.rbegin_broadcast_const L d s
      = xcontiguous_iterable.crbegin_broadcast L d s ∧
    xcontiguous_iterable.rend_broadcast_const L d s
      = xcontiguous_iterable.crend_broadcast L d s :=
  ⟨rfl, rfl, rfl, rfl, rfl, rfl, rfl, rfl, rfl, rfl, rfl, rfl, rfl, rfl, rfl, rfl⟩

/-- Claim C13. On `xconst_iterable` and `xiterable`, each storage entry point returns what the
entry point of the same name without the `storage_` part returns at the default layout:
`storage_begin() = begin<DL>()`, `storage_end() = end<DL>()`, `storage_rbegin() = rbegin<DL>()`,
`storage_rend() = rend<DL>()`, for const and for mutable access, and the c-prefixed forms
likewise. -/
theorem C13_storage_entry_points_are_default_layout_traversal {I : xiterable_inner_types}
    (DL : layout_type) (d : derived_type I) :
    xconst_iterable.storage_begin DL d = xconst_iterable.begin DL d ∧
    xconst_iterable.storage_end DL d = xconst_iterable.end_ DL d ∧
    xconst_iterable.storage_rbegin DL d = xconst_iterable.rbegin DL d ∧
    xconst_iterable.storage_rend DL d = xconst_iterable.rend DL d ∧
    xconst_iterable.storage_cbegin DL d = xconst_iterable.cbegin DL d ∧
    xconst_iterable.storage_cend DL d = xconst_iterable.cend DL d ∧
    xconst_iterable.storage_crbegin DL d = xconst_iterable.crbegin DL d ∧
    xconst_iterable.storage_crend DL d = xconst_iterable.crend DL d ∧
    xiterable.storage_begin DL d = xiterable.begin DL d ∧
    xiterable.storage_end DL d = xiterable.end_ DL d ∧
    xiterable.storage_rbegin DL d = xiterable.rbegin DL d ∧
    xiterable.storage_rend DL d = xiterable.rend DL d :=
  ⟨rfl, rfl, rfl, rfl, rfl, rfl, rfl, rfl, rfl, rfl, rfl, rfl⟩

theorem noexcept_result_map_map {α β γ : Type} (f : α → β) (g : β → γ)
    (r : noexcept_result α) : (r.map f).map g = r.map fun a => g (f a) := by
  cases r <;> rfl

theorem noexcept_map {ε α β : Type} (f : α → β) (body : Except ε α) :
    noexcept (body.map f) = (noexcept body).map f := by
  cases body <;> rfl

theorem instrumented_get_cbegin {I : xiterable_inner_types} (L : layout_type)
    (d : derived_type I) (s : I.inner_shape_type) (fl : Bool) :
    xconst_iterable.get_cbegin_broadcast L (instrumented d) s fl
      = (noexcept (d.stepper_begin_const s)).map fun st =>
          ⟨(stepper_request.stepper_begin s, st), s, fl, L⟩ := by
  simp only [xconst_iterable.get_cbegin_broadcast, xconst_iterable.get_stepper_begin,
    instrumented, noexcept_map, noexcept_result_map_map]

theorem instrumented_get_cend {I : xiterable_inner_types} (L : layout_type)
    (d : derived_type I) (s : I.inner_shape_type) (fl : Bool) :
    xconst_iterable.get_cend_broadcast L (instrumented d) s fl
      = (noexcept (d.stepper_end_const s L)).map fun st =>
          ⟨(stepper_request.stepper_end s L, st), s, fl, L⟩ := by
  simp only [xconst_iterable.get_cend_broadcast, xconst_iterable.get_stepper_end,
    instrumented, noexcept_map, noexcept_result_map_map]

theorem instrumented_get_begin {I : xiterable_inner_types} (L : layout_type)
    (d : derived_type I) (s : I.inner_shape_type) (fl : Bool) :
    xiterable.get_begin_broadcast L (instrumented d) s fl
      = (noexcept (d.stepper_begin s)).map fun st =>
          ⟨(stepper_request.stepper_begin s, st), s, fl, L⟩ := by
  simp only [xiterable.get_begin_broadcast, xiterable.get_stepper_begin,
    instrumented, noexcept_map, noexcept_result_map_map]

theorem instrumented_get_end {I : xiterable_inner_types} (L : layout_type)
    (d : derived_type I) (s : I.inner_shape_type) (fl : Bool) :
    xiterable.get_end_broadcast L (instrumented d) s fl
      = (noexcept (d.stepper_end s L)).map fun st =>
          ⟨(stepper_request.stepper_end s L, st), s, fl, L⟩ := by
  simp only [xiterable.get_end_broadcast, xiterable.get_stepper_end,
    instrumented, noexcept_map, noexcept_result_map_map]

theorem const_begin_all {I : xiterable_inner_types} (L : layout_type) (d : derived_type I)
    (s : I.inner_shape_type) (fl : Bool)
    (p : xconst_iterable.const_layout_iterator (instrumented_types I) → Prop)
    (h : ∀ st, p ⟨(stepper_request.stepper_begin s, st), s, fl, L⟩) :
    (xconst_iterable.get_cbegin_broadcast L (instrumented d) s fl).all p := by
  rw [instrumented_get_cbegin]
  exact noexcept_all_map p _ _ h

theorem const_end_all {I : xiterable_inner_types} (L : layout_type) (d : derived_type I)
    (s : I.inner_shape_type) (fl : Bool)
    (p : xconst_iterable.const_layout_iterator (instrumented_types I) → Prop)
    (h : ∀ st, p ⟨(stepper_request.stepper_end s L, st), s, fl, L⟩) :
    (xconst_iterable.get_cend_broadcast L (instrumented d) s fl).all p := by
  rw [instrumented_get_cend]
  exact noexcept_all_map p _ _ h

theorem mutable_begin_all {I : xiterable_inner_types} (L : layout_type) (d : derived_type I)
    (s : I.inner_shape_type) (fl : Bool)
    (p : xiterable.layout_iterator (instrumented_types I) → Prop)
    (h : ∀ st, p ⟨(stepper_request.stepper_begin s, st), s, fl, L⟩) :
    (xiterable.get_begin_broadcast L (instrumented d) s fl).all p := by
  rw [instrumented_get_begin]
  exact noexcept_all_map p _ _ h

theorem mutable_end_all {I : xiterable_inner_types} (L : layout_type) (d : derived_type I)
    (s : I.inner_shape_type) (fl : Bool)
    (p : xiterable.layout_iterator (instrumented_types I) → Prop)
    (h : ∀ st, p ⟨(stepper_request.stepper_end s L, st), s, fl, L⟩) :
    (xiterable.get_end_broadcast L (instrumented d) s fl).all p := by
  rw [instrumented_get_end]
  exact noexcept_all_map p _ _ h

theorem reversed_all {It : Type} (p : It → Prop) (r : noexcept_result It) (h : r.all p) :
    (r.map reverse_iterator.mk).all fun rev => p rev.current :=
  (noexcept_result_all_map (fun rev : reverse_iterator It => p rev.current) _ r).mpr h

/-- Claim C14 as stated fails: for the array of shape `[2,3]`, which reports the row-major
layout at run time, `end<dynamic>()` requests `stepper_end(shape, dynamic)` and builds an
iterator with the tag `dynamic`; the layout handed to `stepper_end` is not the row-major
layout that the array reports. -/
theorem C14_end_dynamic_hands_the_literal_tag :
    example_2x3.layout = layout_type.row_major ∧
    (xconst_iterable.end_ layout_type.dynamic (instrumented example_2x3.derived)).all
      (fun it => it.stepper.1 = stepper_request.stepper_end [2, 3] layout_type.dynamic ∧
        it.L = layout_type.dynamic) ∧
    ¬ (xconst_iterable.end_ layout_type.dynamic (instrumented example_2x3.derived)).all
      (fun it => it.stepper.1.layout = some example_2x3.layout) := by
  refine ⟨rfl, ⟨rfl, rfl⟩, ?_⟩
  intro h
  have h2 : some layout_type.dynamic = some layout_type.row_major := h
  cases h2

/-- Claim C14, amended. For a traversal requested with the dynamic layout, every end-like
entry point of `xconst_iterable` and `xiterable` hands the literal tag `dynamic` to
`stepper_end`, with the shape it traverses, and gives the iterator the layout tag `dynamic`;
no runtime layout of the array is consulted in `xiterable.hpp`. -/
theorem C14_dynamic_layout_is_handed_on_unresolved {I : xiterable_inner_types}
    (d : derived_type I) (s : I.inner_shape_type) (fl : Bool) :
    xconst_iterable.get_cend layout_type.dynamic d fl
      = (noexcept (d.stepper_end_const d.shape layout_type.dynamic)).map
          (fun st => ⟨st, d.shape, fl, layout_type.dynamic⟩) ∧
    xconst_iterable.get_cend_broadcast layout_type.dynamic d s fl
      = (noexcept (d.stepper_end_const s layout_type.dynamic)).map
          (fun st => ⟨st, s, fl, layout_type.dynamic⟩) ∧
    xiterable.get_end layout_type.dynamic d fl
      = (noexcept (d.stepper_end d.shape layout_type.dynamic)).map
          (fun st => ⟨st, d.shape, fl, layout_type.dynamic⟩) ∧
    xiterable.get_end_broadcast layout_type.dynamic d s fl
      = (noexcept (d.stepper_end s layout_type.dynamic)).map
          (fun st => ⟨st, s, fl, layout_type.dynamic⟩) ∧
    (xconst_iterable.end_ layout_type.dynamic (instrumented d)).all
      (fun it => it.stepper.1 = stepper_request.stepper_end d.shape layout_type.dynamic ∧
        it.L = layout_type.dynamic) ∧
    (xconst_iterable.cend layout_type.dynamic (instrumented d)).all
      (fun it => it.stepper.1 = stepper_request.stepper_end d.shape layout_type.dynamic ∧
        it.L = layout_type.dynamic) ∧
    (xconst_iterable.end_broadcast layout_type.dynamic (instrumented d) s).all
      (fun it => it.stepper.1 = stepper_request.stepper_end s layout_type.dynamic ∧
        it.L = layout_type.dynamic) ∧
    (xconst_iterable.cend_broadcast layout_type.dynamic (instrumented d) s).all
      (fun it => it.stepper.1 = stepper_request.stepper_end s layout_type.dynamic ∧
        it.L = layout_type.dynamic) ∧
    (xiterable.end_ layout_type.dynamic (instrumented d)).all
      (fun it => it.stepper.1 = stepper_request.stepper_end d.shape layout_type.dynamic ∧
        it.L = layout_type.dynamic) ∧
    (xiterable.end_broadcast layout_type.dynamic (instrumented d) s).all
      (fun it => it.stepper.1 = stepper_request.stepper_end s layout_type.dynamic ∧
        it.L = layout_type.dynamic) :=
  ⟨rfl, rfl, rfl, rfl,
    const_end_all _ d d.shape true _ (fun _ => ⟨rfl, rfl⟩),
    const_end_all _ d d.shape true _ (fun _ => ⟨rfl, rfl⟩),
    const_end_all _ d s true _ (fun _ => ⟨rfl, rfl⟩),
    const_end_all _ d s true _ (fun _ => ⟨rfl, rfl⟩),
    mutable_end_all _ d d.shape true _ (fun _ => ⟨rfl, rfl⟩),
    mutable_end_all _ d s true _ (fun _ => ⟨rfl, rfl⟩)⟩

/-- Claim C17. Every end-like entry point of `xconst_iterable` and `xiterable` (`end`, `cend`,
`rbegin`, `crbegin`, without and with a shape argument) returns an iterator whose stepper is
the value returned by one request `stepper_end(shape, L)` to the derived type, as it was
returned: nothing is applied to it before it is handed to the iterator. -/
theorem C17_end_iterators_hold_the_stepper_of_stepper_end {I : xiterable_inner_types}
    (L : layout_type) (d : derived_type I) (s : I.inner_shape_type) :
    xconst_iterable.end_ L d
      = (noexcept (d.stepper_end_const d.shape L)).map (fun st => ⟨st, d.shape, true, L⟩) ∧
    xconst_iterable.cend L d
      = (noexcept (d.stepper_end_const d.shape L)).map (fun st => ⟨st, d.shape, true, L⟩) ∧
    xconst_iterable.rbegin L d
      = (noexcept (d.stepper_end_const d.shape L)).map
          (fun st => ⟨⟨st, d.shape, true, L⟩⟩) ∧
    xconst_iterable.crbegin L d
      = (noexcept (d.stepper_end_const d.shape L)).map
          (fun st => ⟨⟨st, d.shape, true, L⟩⟩) ∧
    xconst_iterable.end_broadcast L d s
      = (noexcept (d.stepper_end_const s L)).map (fun st => ⟨st, s, true, L⟩) ∧
    xconst_iterable.cend_broadcast L d s
      = (noexcept (d.stepper_end_const s L)).map (fun st => ⟨st, s, true, L⟩) ∧
    xconst_iterable.rbegin_broadcast L d s
      = (noexcept (d.stepper_end_const s L)).map (fun st => ⟨⟨st, s, true, L⟩⟩) ∧
    xconst_iterable.crbegin_broadcast L d s
      = (noexcept (d.stepper_end_const s L)).map (fun st => ⟨⟨st, s, true, L⟩⟩) ∧
    xiterable.end_ L d
      = (noexcept (d.stepper_end d.shape L)).map (fun st => ⟨st, d.shape, true, L⟩) ∧
    xiterable.rbegin L d
      = (noexcept (d.stepper_end d.shape L)).map (fun st => ⟨⟨st, d.shape, true, L⟩⟩) ∧
    xiterable.end_broadcast L d s
      = (noexcept (d.stepper_end s L)).map (fun st => ⟨st, s, true, L⟩) ∧
    xiterable.rbegin_broadcast L d s
      = (noexcept (d.stepper_end s L)).map (fun st => ⟨⟨st, s, true, L⟩⟩) :=
  ⟨rfl, rfl, noexcept_result_map_map _ _ _, noexcept_result_map_map _ _ _, rfl, rfl,
    noexcept_result_map_map _ _ _, noexcept_result_map_map _ _ _, rfl,
    noexcept_result_map_map _ _ _, rfl, noexcept_result_map_map _ _ _⟩

theorem noexcept_congr_map {α β γ : Type} (to_const : α → β) (body : Except shape_error α)
    (body_const : Except shape_error β) (h : body_const = body.map to_const)
    (f : α → γ) (g : β → γ) (hfg : ∀ a, g (to_const a) = f a) :
    (noexcept body_const).map g = (noexcept body).map f := by
  subst h
  cases body with
  | error e => rfl
  | ok a => exact congrArg noexcept_result.returned (hfg a)

/-- Claim C16. On `xiterable`, every mutable entry point (`begin`, `end`, `rbegin`, `rend`,
without and with a shape argument) builds its iterator from the shape, the layout and the end
flag that the const entry point of the same name uses, and takes its stepper from the mutable
`stepper_begin` or `stepper_end` where the const one takes it from the const request. Hence,
when the const steppers of the derived type are the images of its mutable steppers under a
map `to_const`, each const iterator is the mutable iterator with its stepper mapped. -/
theorem C16_mutable_entry_points_mirror_const_entry_points {I : xiterable_inner_types}
    (L : layout_type) (d : derived_type I) (s : I.inner_shape_type)
    (to_const : I.stepper → I.const_stepper)
    (hbegin : ∀ shape, d.stepper_begin_const shape = (d.stepper_begin shape).map to_const)
    (hend : ∀ shape l, d.stepper_end_const shape l = (d.stepper_end shape l).map to_const) :
    (∀ fl, xiterable.get_begin L d fl
      = (noexcept (d.stepper_begin d.shape)).map (fun st => ⟨st, d.shape, fl, L⟩)) ∧
    (∀ fl, xconst_iterable.get_cbegin L d fl
      = (noexcept (d.stepper_begin_const d.shape)).map (fun st => ⟨st, d.shape, fl, L⟩)) ∧
    (∀ fl, xiterable.get_end L d fl
      = (noexcept (d.stepper_end d.shape L)).map (fun st => ⟨st, d.shape, fl, L⟩)) ∧
    (∀ fl, xconst_iterable.get_cend L d fl
      = (noexcept (d.stepper_end_const d.shape L)).map (fun st => ⟨st, d.shape, fl, L⟩)) ∧
    (∀ fl, xiterable.get_begin_broadcast L d s fl
      = (noexcept (d.stepper_begin s)).map (fun st => ⟨st, s, fl, L⟩)) ∧
    (∀ fl, xconst_iterable.get_cbegin_broadcast L d s fl
      = (noexcept (d.stepper_begin_const s)).map (fun st => ⟨st, s, fl, L⟩)) ∧
    (∀ fl, xiterable.get_end_broadcast L d s fl
      = (noexcept (d.stepper_end s L)).map (fun st => ⟨st, s, fl, L⟩)) ∧
    (∀ fl, xconst_iterable.get_cend_broadcast L d s fl
      = (noexcept (d.stepper_end_const s L)).map (fun st => ⟨st, s, fl, L⟩)) ∧
    xconst_iterable.begin L d = (xiterable.begin L d).map (xiterator.map_stepper to_const) ∧
    xconst_iterable.end_ L d = (xiterable.end_ L d).map (xiterator.map_stepper to_const) ∧
    xconst_iterable.rbegin L d
      = (xiterable.rbegin L d).map
          (fun r => ⟨xiterator.map_stepper to_const r.current⟩) ∧
    xconst_iterable.rend L d
      = (xiterable.rend L d).map (fun r => ⟨xiterator.map_stepper to_const r.current⟩) ∧
    xconst_iterable.begin_broadcast L d s
      = (xiterable.begin_broadcast L d s).map (xiterator.map_stepper to_const) ∧
    xconst_iterable.end_broadcast L d s
      = (xiterable.end_broadcast L d s).map (xiterator.map_stepper to_const) ∧
    xconst_iterable.rbegin_broadcast L d s
      = (xiterable.rbegin_broadcast L d s).map
          (fun r => ⟨xiterator.map_stepper to_const r.current⟩) ∧
    xconst_iterable.rend_broadcast L d s
      = (xiterable.rend_broadcast L d s).map
          (fun r => ⟨xiterator.map_stepper to_const r.current⟩) := by
  have hb : ∀ (shape : I.inner_shape_type) (fl : Bool),
      xconst_iterable.get_cbegin_broadcast L d shape fl
        = (xiterable.get_begin_broadcast L d shape fl).map (xiterator.map_stepper to_const) := by
    intro shape fl
    simp only [xconst_iterable.get_cbegin_broadcast, xiterable.get_begin_broadcast,
      xconst_iterable.get_stepper_begin, xiterable.get_stepper_begin, noexcept_result_map_map]
    exact noexcept_congr_map to_const _ _ (hbegin shape) _ _ (fun _ => rfl)
  have he : ∀ (shape : I.inner_shape_type) (fl : Bool),
      xconst_iterable.get_cend_broadcast L d shape fl
        = (xiterable.get_end_broadcast L d shape fl).map (xiterator.map_stepper to_const) := by
    intro shape fl
    simp only [xconst_iterable.get_cend_broadcast, xiterable.get_end_broadcast,
      xconst_iterable.get_stepper_end, xiterable.get_stepper_end, noexcept_result_map_map]
    exact noexcept_congr_map to_const _ _ (hend shape L) _ _ (fun _ => rfl)
  have hrb : ∀ (shape : I.inner_shape_type) (fl : Bool),
      (xconst_iterable.get_cbegin_broadcast L d shape fl).map reverse_iterator.mk
        = ((xiterable.get_begin_broadcast L d shape fl).map reverse_iterator.mk).map
            (fun r => ⟨xiterator.map_stepper to_const r.current⟩) := by
    intro shape fl
    rw [hb, noexcept_result_map_map, noexcept_result_map_map]
  have hre : ∀ (shape : I.inner_shape_type) (fl : Bool),
      (xconst_iterable.get_cend_broadcast L d shape fl).map reverse_iterator.mk
        = ((xiterable.get_end_broadcast L d shape fl).map reverse_iterator.mk).map
            (fun r => ⟨xiterator.map_stepper to_const r.current⟩) := by
    intro shape fl
    rw [he, noexcept_result_map_map, noexcept_result_map_map]
  exact ⟨fun _ => rfl, fun _ => rfl, fun _ => rfl, fun _ => rfl, fun _ => rfl, fun _ => rfl,
    fun _ => rfl, fun _ => rfl, hb d.shape false, he d.shape true, hre d.shape true,
    hrb d.shape false, hb s false, he s true, hre s true, hrb s false⟩

/-- Witness of claim C16 on a derived type whose const and mutable steppers are the same
positions. -/
theorem C16_mutable_entry_points_witness :
    (∀ shape, (plain_derived layout_type.row_major 2 0).stepper_begin_const shape
      = ((plain_derived layout_type.row_major 2 0).stepper_begin shape).map id) ∧
    (∀ shape l, (plain_derived layout_type.row_major 2 0).stepper_end_const shape l
      = ((plain_derived layout_type.row_major 2 0).stepper_end shape l).map id) ∧
    xconst_iterable.begin layout_type.column_major
        (plain_derived layout_type.row_major 2 0).toderived_type
      = (xiterable.begin layout_type.column_major
          (plain_derived layout_type.row_major 2 0).toderived_type).map
          (xiterator.map_stepper id) ∧
    xconst_iterable.end_broadcast layout_type.column_major
        (plain_derived layout_type.row_major 2 0).toderived_type [4, 2]
      = (xiterable.end_broadcast layout_type.column_major
          (plain_derived layout_type.row_major 2 0).toderived_type [4, 2]).map
          (xiterator.map_stepper id) :=
  have h := C16_mutable_entry_points_mirror_const_entry_points layout_type.column_major
    (plain_derived layout_type.row_major 2 0).toderived_type [4, 2] id
    (fun _ => rfl) (fun _ _ => rfl)
  ⟨fun _ => rfl, fun _ _ => rfl, h.2.2.2.2.2.2.2.2.1, h.2.2.2.2.2.2.2.2.2.2.2.2.2.1⟩

/-- Claim C18. For every iterator returned by a public entry point of `xconst_iterable` or
`xiterable` (for a reverse iterator, the forward iterator it wraps), the end flag handed to the
iterator is true exactly when the stepper comes from `stepper_end` and false exactly when it
comes from `stepper_begin`. -/
theorem C18_end_flag_matches_the_stepper_request {I : xiterable_inner_types}
    (L DL : layout_type) (d : derived_type I) (s : I.inner_shape_type) :
    (xconst_iterable.begin L (instrumented d)).all flag_matches_request ∧
    (xconst_iterable.end_ L (instrumented d)).all flag_matches_request ∧
    (xconst_iterable.cbegin L (instrumented d)).all flag_matches_request ∧
    (xconst_iterable.cend L (instrumented d)).all flag_matches_request ∧
    (xconst_iterable.rbegin L (instrumented d)).all
      (fun r => flag_matches_request r.current) ∧
    (xconst_iterable.rend L (instrumented d)).all
      (fun r => flag_matches_request r.current) ∧
    (xconst_iterable.crbegin L (instrumented d)).all
      (fun r => flag_matches_request r.current) ∧
    (xconst_iterable.crend L (instrumented d)).all
      (fun r => flag_matches_request r.current) ∧
    (xconst_iterable.begin_broadcast L (instrumented d) s).all flag_matches_request ∧
    (xconst_iterable.end_broadcast L (instrumented d) s).all flag_matches_request ∧
    (xconst_iterable.cbegin_broadcast L (instrumented d) s).all flag_matches_request ∧
    (xconst_iterable.cend_broadcast L (instrumented d) s).all flag_matches_request ∧
    (xconst_iterable.rbegin_broadcast L (instrumented d) s).all
      (fun r => flag_matches_request r.current) ∧
    (xconst_iterable.rend_broadcast L (instrumented d) s).all
      (fun r => flag_matches_request r.current) ∧
    (xconst_iterable.crbegin_broadcast L (instrumented d) s).all
      (fun r => flag_matches_request r.current) ∧
    (xconst_iterable.crend_broadcast L (instrumented d) s).all
      (fun r => flag_matches_request r.current) ∧
    (xconst_iterable.storage_begin DL (instrumented d)).all flag_matches_request ∧
    (xconst_iterable.storage_end DL (instrumented d)).all flag_matches_request ∧
    (xconst_iterable.storage_cbegin DL (instrumented d)).all flag_matches_request ∧
    (xconst_iterable.storage_cend DL (instrumented d)).all flag_matches_request ∧
    (xconst_iterable.storage_rbegin DL (instrumented d)).all
      (fun r => flag_matches_request r.current) ∧
    (xconst_iterable.storage_rend DL (instrumented d)).all
      (fun r => flag_matches_request r.current) ∧
    (xconst_iterable.storage_crbegin DL (instrumented d)).all
      (fun r => flag_matches_request r.current) ∧
    (xconst_iterable.storage_crend DL (instrumented d)).all
      (fun r => flag_matches_request r.current) ∧
    (xiterable.begin L (instrumented d)).all flag_matches_request ∧
    (xiterable.end_ L (instrumented d)).all flag_matches_request ∧
    (xiterable.rbegin L (instrumented d)).all
      (fun r => flag_matches_request r.current) ∧
    (xiterable.rend L (instrumented d)).all
      (fun r => flag_matches_request r.current) ∧
    (xiterable.begin_broadcast L (instrumented d) s).all flag_matches_request ∧
    (xiterable.end_broadcast L (instrumented d) s).all flag_matches_request ∧
    (xiterable.rbegin_broadcast L (instrumented d) s).all
      (fun r => flag_matches_request r.current) ∧
    (xiterable.rend_broadcast L (instrumented d) s).all
      (fun r => flag_matches_request r.current) ∧
    (xiterable.storage_begin DL (instrumented d)).all flag_matches_request ∧
    (xiterable.storage_end DL (instrumented d)).all flag_matches_request ∧
    (xiterable.storage_rbegin DL (instrumented d)).all
      (fun r => flag_matches_request r.current) ∧
    (xiterable.storage_rend DL (instrumented d)).all
      (fun r => flag_matches_request r.current) :=
  ⟨const_begin_all L d d.shape false flag_matches_request (fun _ => rfl),
    const_end_all L d d.shape true flag_matches_request (fun _ => rfl),
    const_begin_all L d d.shape false flag_matches_request (fun _ => rfl),
    const_end_all L d d.shape true flag_matches_request (fun _ => rfl),
    reversed_all flag_matches_request _
      (const_end_all L d d.shape true flag_matches_request (fun _ => rfl)),
    reversed_all flag_matches_request _
      (const_begin_all L d d.shape false flag_matches_request (fun _ => rfl)),
    reversed_all flag_matches_request _
      (const_end_all L d d.shape true flag_matches_request (fun _ => rfl)),
    reversed_all flag_matches_request _
      (const_begin_all L d d.shape false flag_matches_request (fun _ => rfl)),
    const_begin_all L d s false flag_matches_request (fun _ => rfl),
    const_end_all L d s true flag_matches_request (fun _ => rfl),
    const_begin_all L d s false flag_matches_request (fun _ => rfl),
    const_end_all L d s true flag_matches_request (fun _ => rfl),
    reversed_all flag_matches_request _
      (const_end_all L d s true flag_matches_request (fun _ => rfl)),
    reversed_all flag_matches_request _
      (const_begin_all L d s false flag_matches_request (fun _ => rfl)),
    reversed_all flag_matches_request _
      (const_end_all L d s true flag_matches_request (fun _ => rfl)),
    reversed_all flag_matches_request _
      (const_begin_all L d s false flag_matches_request (fun _ => rfl)),
    const_begin_all DL d d.shape false flag_matches_request (fun _ => rfl),
    const_end_all DL d d.shape true flag_matches_request (fun _ => rfl),
    const_begin_all DL d d.shape false flag_matches_request (fun _ => rfl),
    const_end_all DL d d.shape true flag_matches_request (fun _ => rfl),
    reversed_all flag_matches_request _
      (const_end_all DL d d.shape true flag_matches_request (fun _ => rfl)),
    reversed_all flag_matches_request _
      (const_begin_all DL d d.shape false flag_matches_request (fun _ => rfl)),
    reversed_all flag_matches_request _
      (const_end_all DL d d.shape true flag_matches_request (fun _ => rfl)),
    reversed_all flag_matches_request _
      (const_begin_all DL d d.shape false flag_matches_request (fun _ => rfl)),
    mutable_begin_all L d d.shape false flag_matches_request (fun _ => rfl),
    mutable_end_all L d d.shape true flag_matches_request (fun _ => rfl),
    reversed_all flag_matches_request _
      (mutable_end_all L d d.shape true flag_matches_request (fun _ => rfl)),
    reversed_all flag_matches_request _
      (mutable_begin_all L d d.shape false flag_matches_request (fun _ => rfl)),
    mutable_begin_all L d s false flag_matches_request (fun _ => rfl),
    mutable_end_all L d s true flag_matches_request (fun _ => rfl),
    reversed_all flag_matches_request _
      (mutable_end_all L d s true flag_matches_request (fun _ => rfl)),
    reversed_all flag_matches_request _
      (mutable_begin_all L d s false flag_matches_request (fun _ => rfl)),
    mutable_begin_all DL d d.shape false flag_matches_request (fun _ => rfl),
    mutable_end_all DL d d.shape true flag_matches_request (fun _ => rfl),
    reversed_all flag_matches_request _
      (mutable_end_all DL d d.shape true flag_matches_request (fun _ => rfl)),
    reversed_all flag_matches_request _
      (mutable_begin_all DL d d.shape false flag_matches_request (fun _ => rfl))⟩

theorem begin_request_traversed {S St : Type} (shape : S) (L : layout_type) (st : St) :
    requested_as_traversed shape L
      (⟨(stepper_request.stepper_begin shape, st), shape, false, L⟩ :
        xiterator (stepper_request S × St) S) :=
  ⟨rfl, rfl, rfl, fun _ h => Option.noConfusion h⟩

theorem end_request_traversed {S St : Type} (shape : S) (L : layout_type) (st : St) :
    requested_as_traversed shape L
      (⟨(stepper_request.stepper_end shape L, st), shape, true, L⟩ :
        xiterator (stepper_request S × St) S) :=
  ⟨rfl, rfl, rfl, fun _ h => (Option.some.inj h).symm⟩

/-- Claim C19. For every iterator returned by `xconst_iterable` or `xiterable`, the shape for
which its stepper was requested is the shape the iterator traverses: the shape of the array for
the entry points without argument, the shape supplied by the caller for the others; and the
layout handed to `stepper_end` is the layout parameter of the entry point. -/
theorem C19_stepper_is_requested_for_the_traversed_shape {I : xiterable_inner_types}
    (L DL : layout_type) (d : derived_type I) (s : I.inner_shape_type) :
    (xconst_iterable.begin L (instrumented d)).all (requested_as_traversed d.shape L) ∧
    (xconst_iterable.end_ L (instrumented d)).all (requested_as_traversed d.shape L) ∧
    (xconst_iterable.cbegin L (instrumented d)).all (requested_as_traversed d.shape L) ∧
    (xconst_iterable.cend L (instrumented d)).all (requested_as_traversed d.shape L) ∧
    (xconst_iterable.rbegin L (instrumented d)).all
      (fun r => (requested_as_traversed d.shape L) r.current) ∧
    (xconst_iterable.rend L (instrumented d)).all
      (fun r => (requested_as_traversed d.shape L) r.current) ∧
    (xconst_iterable.crbegin L (instrumented d)).all
      (fun r => (requested_as_traversed d.shape L) r.current) ∧
    (xconst_iterable.crend L (instrumented d)).all
      (fun r => (requested_as_traversed d.shape L) r.current) ∧
    (xconst_iterable.begin_broadcast L (instrumented d) s).all (requested_as_traversed s L) ∧
    (xconst_iterable.end_broadcast L (instrumented d) s).all (requested_as_traversed s L) ∧
    (xconst_iterable.cbegin_broadcast L (instrumented d) s).all (requested_as_traversed s L) ∧
    (xconst_iterable.cend_broadcast L (instrumented d) s).all (requested_as_traversed s L) ∧
    (xconst_iterable.rbegin_broadcast L (instrumented d) s).all
      (fun r => (requested_as_traversed s L) r.current) ∧
    (xconst_iterable.rend_broadcast L (instrumented d) s).all
      (fun r => (requested_as_traversed s L) r.current) ∧
    (xconst_iterable.crbegin_broadcast L (instrumented d) s).all
      (fun r => (requested_as_traversed s L) r.current) ∧
    (xconst_iterable.crend_broadcast L (instrumented d) s).all
      (fun r => (requested_as_traversed s L) r.current) ∧
    (xconst_iterable.storage_begin DL (instrumented d)).all (requested_as_traversed d.shape DL) ∧
    (xconst_iterable.storage_end DL (instrumented d)).all (requested_as_traversed d.shape DL) ∧
    (xconst_iterable.storage_cbegin DL (instrumented d)).all (requested_as_traversed d.shape DL) ∧
    (xconst_iterable.storage_cend DL (instrumented d)).all (requested_as_traversed d.shape DL) ∧
    (xconst_iterable.storage_rbegin DL (instrumented d)).all
      (fun r => (requested_as_traversed d.shape DL) r.current) ∧
    (xconst_iterable.storage_rend DL (instrumented d)).all
      (fun r => (requested_as_traversed d.shape DL) r.current) ∧
    (xconst_iterable.storage_crbegin DL (instrumented d)).all
      (fun r => (requested_as_traversed d.shape DL) r.current) ∧
    (xconst_iterable.storage_crend DL (instrumented d)).all
      (fun r => (requested_as_traversed d.shape DL) r.current) ∧
    (xiterable.begin L (instrumented d)).all (requested_as_traversed d.shape L) ∧
    (xiterable.end_ L (instrumented d)).all (requested_as_traversed d.shape L) ∧
    (xiterable.rbegin L (instrumented d)).all
      (fun r => (requested_as_traversed d.shape L) r.current) ∧
    (xiterable.rend L (instrumented d)).all
      (fun r => (requested_as_traversed d.shape L) r.current) ∧
    (xiterable.begin_broadcast L (instrumented d) s).all (requested_as_traversed s L) ∧
    (xiterable.end_broadcast L (instrumented d) s).all (requested_as_traversed s L) ∧
    (xiterable.rbegin_broadcast L (instrumented d) s).all
      (fun r => (requested_as_traversed s L) r.current) ∧
    (xiterable.rend_broadcast L (instrumented d) s).all
      (fun r => (requested_as_traversed s L) r.current) ∧
    (xiterable.storage_begin DL (instrumented d)).all (requested_as_traversed d.shape DL) ∧
    (xiterable.storage_end DL (instrumented d)).all (requested_as_traversed d.shape DL) ∧
    (xiterable.storage_rbegin DL (instrumented d)).all
      (fun r => (requested_as_traversed d.shape DL) r.current) ∧
    (xiterable.storage_rend DL (instrumented d)).all
      (fun r => (requested_as_traversed d.shape DL) r.current) :=
  ⟨const_begin_all L d d.shape false _ (begin_request_traversed _ _),
    const_end_all L d d.shape true _ (end_request_traversed _ _),
    const_begin_all L d d.shape false _ (begin_request_traversed _ _),
    const_end_all L d d.shape true _ (end_request_traversed _ _),
    reversed_all (requested_as_traversed d.shape L) _
      (const_end_all L d d.shape true _ (end_request_traversed _ _)),
    reversed_all (requested_as_traversed d.shape L) _
      (const_begin_all L d d.shape false _ (begin_request_traversed _ _)),
    reversed_all (requested_as_traversed d.shape L) _
      (const_end_all L d d.shape true _ (end_request_traversed _ _)),
    reversed_all (requested_as_traversed d.shape L) _
      (const_begin_all L d d.shape false _ (begin_request_traversed _ _)),
    const_begin_all L d s false _ (begin_request_traversed _ _),
    const_end_all L d s true _ (end_request_traversed _ _),
    const_begin_all L d s false _ (begin_request_traversed _ _),
    const_end_all L d s true _ (end_request_traversed _ _),
    reversed_all (requested_as_traversed s L) _
      (const_end_all L d s true _ (end_request_traversed _ _)),
    reversed_all (requested_as_traversed s L) _
      (const_begin_all L d s false _ (begin_request_traversed _ _)),
    reversed_all (requested_as_traversed s L) _
      (const_end_all L d s true _ (end_request_traversed _ _)),
    reversed_all (requested_as_traversed s L) _
      (const_begin_all L d s false _ (begin_request_traversed _ _)),
    const_begin_all DL d d.shape false _ (begin_request_traversed _ _),
    const_end_all DL d d.shape true _ (end_request_traversed _ _),
    const_begin_all DL d d.shape false _ (begin_request_traversed _ _),
    const_end_all DL d d.shape true _ (end_request_traversed _ _),
    reversed_all (requested_as_traversed d.shape DL) _
      (const_end_all DL d d.shape true _ (end_request_traversed _ _)),
    reversed_all (requested_as_traversed d.shape DL) _
      (const_begin_all DL d d.shape false _ (begin_request_traversed _ _)),
    reversed_all (requested_as_traversed d.shape DL) _
      (const_end_all DL d d.shape true _ (end_request_traversed _ _)),
    reversed_all (requested_as_traversed d.shape DL) _
      (const_begin_all DL d d.shape false _ (begin_request_traversed _ _)),
    mutable_begin_all L d d.shape false _ (begin_request_traversed _ _),
    mutable_end_all L d d.shape true _ (end_request_traversed _ _),
    reversed_all (requested_as_traversed d.shape L) _
      (mutable_end_all L d d.shape true _ (end_request_traversed _ _)),
    reversed_all (requested_as_traversed d.shape L) _
      (mutable_begin_all L d d.shape false _ (begin_request_traversed _ _)),
    mutable_begin_all L d s false _ (begin_request_traversed _ _),
    mutable_end_all L d s true _ (end_request_traversed _ _),
    reversed_all (requested_as_traversed s L) _
      (mutable_end_all L d s true _ (end_request_traversed _ _)),
    reversed_all (requested_as_traversed s L) _
      (mutable_begin_all L d s false _ (begin_request_traversed _ _)),
    mutable_begin_all DL d d.shape false _ (begin_request_traversed _ _),
    mutable_end_all DL d d.shape true _ (end_request_traversed _ _),
    reversed_all (requested_as_traversed d.shape DL) _
      (mutable_end_all DL d d.shape true _ (end_request_traversed _ _)),
    reversed_all (requested_as_traversed d.shape DL) _
      (mutable_begin_all DL d d.shape false _ (begin_request_traversed _ _))⟩

/-- Claim C20. On `xconst_iterable` and `xiterable`, for two layouts `L1`, `L2` and every shape,
`begin<L1>` and `begin<L2>` (likewise `cbegin`), without and with a shape argument, return
iterators with the same stepper, the same shape and the same end flag, which differ only in
their layout tag; the request behind a begin-like entry point carries no layout, the request
behind an end-like entry point carries the layout of the entry point. -/
theorem C20_begin_does_not_depend_on_the_layout {I : xiterable_inner_types}
    (L1 L2 : layout_type) (d : derived_type I) (s : I.inner_shape_type) :
    (xconst_iterable.begin L1 d).map (xiterator.with_layout L2) = xconst_iterable.begin L2 d ∧
    (xconst_iterable.cbegin L1 d).map (xiterator.with_layout L2)
      = xconst_iterable.cbegin L2 d ∧
    (xconst_iterable.begin_broadcast L1 d s).map (xiterator.with_layout L2)
      = xconst_iterable.begin_broadcast L2 d s ∧
    (xconst_iterable.cbegin_broadcast L1 d s).map (xiterator.with_layout L2)
      = xconst_iterable.cbegin_broadcast L2 d s ∧
    (xiterable.begin L1 d).map (xiterator.with_layout L2) = xiterable.begin L2 d ∧
    (xiterable.begin_broadcast L1 d s).map (xiterator.with_layout L2)
      = xiterable.begin_broadcast L2 d s ∧
    (xconst_iterable.begin L1 (instrumented d)).all (fun it => it.stepper.1.layout = none) ∧
    (xconst_iterable.cbegin L1 (instrumented d)).all (fun it => it.stepper.1.layout = none) ∧
    (xconst_iterable.begin_broadcast L1 (instrumented d) s).all
      (fun it => it.stepper.1.layout = none) ∧
    (xconst_iterable.cbegin_broadcast L1 (instrumented d) s).all
      (fun it => it.stepper.1.layout = none) ∧
    (xiterable.begin L1 (instrumented d)).all (fun it => it.stepper.1.layout = none) ∧
    (xiterable.begin_broadcast L1 (instrumented d) s).all
      (fun it => it.stepper.1.layout = none) ∧
    (xconst_iterable.end_ L1 (instrumented d)).all
      (fun it => it.stepper.1.layout = some L1) ∧
    (xconst_iterable.cend L1 (instrumented d)).all
      (fun it => it.stepper.1.layout = some L1) ∧
    (xconst_iterable.end_broadcast L1 (instrumented d) s).all
      (fun it => it.stepper.1.layout = some L1) ∧
    (xconst_iterable.cend_broadcast L1 (instrumented d) s).all
      (fun it => it.stepper.1.layout = some L1) ∧
    (xiterable.end_ L1 (instrumented d)).all (fun it => it.stepper.1.layout = some L1) ∧
    (xiterable.end_broadcast L1 (instrumented d) s).all
      (fun it => it.stepper.1.layout = some L1) :=
  ⟨noexcept_result_map_map _ _ _, noexcept_result_map_map _ _ _,
    noexcept_result_map_map _ _ _, noexcept_result_map_map _ _ _,
    noexcept_result_map_map _ _ _, noexcept_result_map_map _ _ _,
    const_begin_all L1 d d.shape false _ (fun _ => rfl),
    const_begin_all L1 d d.shape false _ (fun _ => rfl),
    const_begin_all L1 d s false _ (fun _ => rfl),
    const_begin_all L1 d s false _ (fun _ => rfl),
    mutable_begin_all L1 d d.shape false _ (fun _ => rfl),
    mutable_begin_all L1 d s false _ (fun _ => rfl),
    const_end_all L1 d d.shape true _ (fun _ => rfl),
    const_end_all L1 d d.shape true _ (fun _ => rfl),
    const_end_all L1 d s true _ (fun _ => rfl),
    const_end_all L1 d s true _ (fun _ => rfl),
    mutable_end_all L1 d d.shape true _ (fun _ => rfl),
    mutable_end_all L1 d s true _ (fun _ => rfl)⟩

/-- Claim C21. On `xcontiguous_iterable`, every entry point that takes a shape returns what the
entry point of the same name and constness of `xiterable` (mutable) or `xconst_iterable`
(const) returns for that shape and layout, for every layout and every shape, also for the
static layout with the shape of the array itself: its result is a stepper-based iterator, the
storage path is not taken. -/
theorem C21_shape_entry_points_forward_to_the_stepper_path {I : xiterable_inner_types}
    {C : xcontainer_inner_types} (L : layout_type) (d : contiguous_derived_type I C)
    (s : I.inner_shape_type) :
    xcontiguous_iterable.begin_broadcast L d s = xiterable.begin_broadcast L d.toderived_type s ∧
    xcontiguous_iterable.end_broadcast L d s = xiterable.end_broadcast L d.toderived_type s ∧
    xcontiguous_iterable.begin_broadcast_const L d s
      = xconst_iterable.begin_broadcast L d.toderived_type s ∧
    xcontiguous_iterable.end_broadcast_const L d s
      = xconst_iterable.end_broadcast L d.toderived_type s ∧
    xcontiguous_iterable.cbegin_broadcast L d s
      = xconst_iterable.cbegin_broadcast L d.toderived_type s ∧
    xcontiguous_iterable.cend_broadcast L d s
      = xconst_iterable.cend_broadcast L d.toderived_type s ∧
    xcontiguous_iterable.rbegin_broadcast L d s
      = xiterable.rbegin_broadcast L d.toderived_type s ∧
    xcontiguous_iterable.rend_broadcast L d s = xiterable.rend_broadcast L d.toderived_type s ∧
    xcontiguous_iterable.rbegin_broadcast_const L d s
      = xconst_iterable.rbegin_broadcast L d.toderived_type s ∧
    xcontiguous_iterable.rend_broadcast_const L d s
      = xconst_iterable.rend_broadcast L d.toderived_type s ∧
    xcontiguous_iterable.crbegin_broadcast L d s
      = xconst_iterable.crbegin_broadcast L d.toderived_type s ∧
    xcontiguous_iterable.crend_broadcast L d s
      = xconst_iterable.crend_broadcast L d.toderived_type s ∧
    xcontiguous_iterable.begin_broadcast (xcontiguous_iterable.static_layout C) d d.shape
      = xiterable.begin (xcontiguous_iterable.static_layout C) d.toderived_type ∧
    xcontiguous_iterable.end_broadcast (xcontiguous_iterable.static_layout C) d d.shape
      = xiterable.end_ (xcontiguous_iterable.static_layout C) d.toderived_type ∧
    xcontiguous_iterable.cbegin_broadcast (xcontiguous_iterable.static_layout C) d d.shape
      = xconst_iterable.cbegin (xcontiguous_iterable.static_layout C) d.toderived_type ∧
    xcontiguous_iterable.cend_broadcast (xcontiguous_iterable.static_layout C) d d.shape
      = xconst_iterable.cend (xcontiguous_iterable.static_layout C) d.toderived_type ∧
    xcontiguous_iterable.begin layout_type.row_major (plain_derived layout_type.row_major 2 0)
      = noexcept_result.returned (select_iterator_impl.storage (0 : Nat)) ∧
    xcontiguous_iterable.begin_broadcast layout_type.row_major
        (plain_derived layout_type.row_major 2 0) [2]
      = noexcept_result.returned
          (⟨(0 : Nat), [2], false, layout_type.row_major⟩ : xiterator Nat (List Nat)) :=
  ⟨rfl, rfl, rfl, rfl, rfl, rfl, rfl, rfl, rfl, rfl, rfl, rfl, rfl, rfl, rfl, rfl, rfl, rfl⟩

theorem static_if_storage {It1 It2 : Type} (L : layout_type) (it : It1)
    (other : noexcept_result It2) :
    xcontiguous_iterable.static_if (decide (L = L)) it other
      = noexcept_result.returned (select_iterator_impl.storage it) := by
  simp [xcontiguous_iterable.static_if]

/-- Claim C22. On the fast path of `xcontiguous_iterable` (`L` is the static layout), each of
the eight entry points without argument returns the value of the storage function of the
derived type with the matching name: `begin` the one of `storage_begin`, `end` of
`storage_end`, `cbegin` of `storage_cbegin`, `cend` of `storage_cend`, `rbegin` of
`storage_rbegin`, `rend` of `storage_rend`, `crbegin` of `storage_crbegin`, `crend` of
`storage_crend`; the const overloads of `begin`, `end`, `rbegin`, `rend` return the values of
`storage_cbegin`, `storage_cend`, `storage_crbegin`, `storage_crend`. On a derived type whose
storage functions return their own names, each entry point returns the matching name. -/
theorem C22_fast_path_forwards_to_the_matching_storage_function {I : xiterable_inner_types}
    {C : xcontainer_inner_types} (d : contiguous_derived_type I C) (static : layout_type) :
    xcontiguous_iterable.begin (xcontiguous_iterable.static_layout C) d
      = noexcept_result.returned (select_iterator_impl.storage d.storage_begin) ∧
    xcontiguous_iterable.end_ (xcontiguous_iterable.static_layout C) d
      = noexcept_result.returned (select_iterator_impl.storage d.storage_end) ∧
    xcontiguous_iterable.cbegin (xcontiguous_iterable.static_layout C) d
      = noexcept_result.returned (select_iterator_impl.storage d.storage_cbegin) ∧
    xcontiguous_iterable.cend (xcontiguous_iterable.static_layout C) d
      = noexcept_result.returned (select_iterator_impl.storage d.storage_cend) ∧
    xcontiguous_iterable.rbegin (xcontiguous_iterable.static_layout C) d
      = noexcept_result.returned (select_iterator_impl.storage d.storage_rbegin) ∧
    xcontiguous_iterable.rend (xcontiguous_iterable.static_layout C) d
      = noexcept_result.returned (select_iterator_impl.storage d.storage_rend) ∧
    xcontiguous_iterable.crbegin (xcontiguous_iterable.static_layout C) d
      = noexcept_result.returned (select_iterator_impl.storage d.storage_crbegin) ∧
    xcontiguous_iterable.crend (xcontiguous_iterable.static_layout C) d
      = noexcept_result.returned (select_iterator_impl.storage d.storage_crend) ∧
    xcontiguous_iterable.begin_const (xcontiguous_iterable.static_layout C) d
      = noexcept_result.returned (select_iterator_impl.storage d.storage_cbegin) ∧
    xcontiguous_iterable.end_const (xcontiguous_iterable.static_layout C) d
      = noexcept_result.returned (select_iterator_impl.storage d.storage_cend) ∧
    xcontiguous_iterable.rbegin_const (xcontiguous_iterable.static_layout C) d
      = noexcept_result.returned (select_iterator_impl.storage d.storage_crbegin) ∧
    xcontiguous_iterable.rend_const (xcontiguous_iterable.static_layout C) d
      = noexcept_result.returned (select_iterator_impl.storage d.storage_crend) ∧
    xcontiguous_iterable.begin static (labelled_derived static)
      = noexcept_result.returned (select_iterator_impl.storage storage_function.storage_begin) ∧
    xcontiguous_iterable.end_ static (labelled_derived static)
      = noexcept_result.returned (select_iterator_impl.storage storage_function.storage_end) ∧
    xcontiguous_iterable.cbegin static (labelled_derived static)
      = noexcept_result.returned (select_iterator_impl.storage storage_function.storage_cbegin) ∧
    xcontiguous_iterable.cend static (labelled_derived static)
      = noexcept_result.returned (select_iterator_impl.storage storage_function.storage_cend) ∧
    xcontiguous_iterable.rbegin static (labelled_derived static)
      = noexcept_result.returned (select_iterator_impl.storage storage_function.storage_rbegin) ∧
    xcontiguous_iterable.rend static (labelled_derived static)
      = noexcept_result.returned (select_iterator_impl.storage storage_function.storage_rend) ∧
    xcontiguous_iterable.crbegin static (labelled_derived static)
      = noexcept_result.returned (select_iterator_impl.storage storage_function.storage_crbegin) ∧
    xcontiguous_iterable.crend static (labelled_derived static)
      = noexcept_result.returned (select_iterator_impl.storage storage_function.storage_crend) ∧
    xcontiguous_iterable.begin_const static (labelled_derived static)
      = noexcept_result.returned (select_iterator_impl.storage storage_function.storage_cbegin) ∧
    xcontiguous_iterable.end_const static (labelled_derived static)
      = noexcept_result.returned (select_iterator_impl.storage storage_function.storage_cend) ∧
    xcontiguous_iterable.rbegin_const static (labelled_derived static)
      = noexcept_result.returned (select_iterator_impl.storage storage_function.storage_crbegin) ∧
    xcontiguous_iterable.rend_const static (labelled_derived static)
      = noexcept_result.returned (select_iterator_impl.storage storage_function.storage_crend) :=
  ⟨static_if_storage _ _ _, static_if_storage _ _ _, static_if_storage _ _ _,
    static_if_storage _ _ _, static_if_storage _ _ _, static_if_storage _ _ _,
    static_if_storage _ _ _, static_if_storage _ _ _, static_if_storage _ _ _,
    static_if_storage _ _ _, static_if_storage _ _ _, static_if_storage _ _ _,
    static_if_storage _ _ _, static_if_storage _ _ _, static_if_storage _ _ _,
    static_if_storage _ _ _, static_if_storage _ _ _, static_if_storage _ _ _,
    static_if_storage _ _ _, static_if_storage _ _ _, static_if_storage _ _ _,
    static_if_storage _ _ _, static_if_storage _ _ _, static_if_storage _ _ _⟩

theorem run_eq_embedded {I : xiterable_inner_types} {C : xcontainer_inner_types}
    (d : contiguous_derived_type I C) (DL : layout_type) (inherited : Bool) (k : Nat)
    (inv : invocation I.inner_shape_type) :
    (run d DL inherited (k + 8) inv).map Prod.fst = embedded d DL inherited inv := by
  rcases inv with ⟨⟨o, n, s, c⟩, L, sh, fl⟩
  cases o
  · cases n <;> cases s <;> cases c <;> rfl
  · cases n <;> cases s <;> cases c <;> rfl
  · cases C with
    | mk a b e f static =>
      cases static <;> cases L <;> cases inherited <;> cases n <;> cases s <;> cases c <;> rfl
  · cases inherited <;> cases n <;> cases s <;> cases c <;> rfl

theorem entry_points_embedded {I : xiterable_inner_types} {C : xcontainer_inner_types}
    (d : contiguous_derived_type I C) (DL : layout_type) (inherited : Bool)
    (L : layout_type) (s : I.inner_shape_type) (fl : Bool) :
    ((iterable_entry_points ++ contiguous_entry_points).all fun m =>
      (embedded d DL inherited (m.called L s fl)).isSome) = true := by
  cases C with
  | mk a b e f static =>
    cases static <;> cases L <;> cases inherited <;> rfl

theorem entry_points_entered_once {I : xiterable_inner_types} {C : xcontainer_inner_types}
    (d : contiguous_derived_type I C) (DL : layout_type) (inherited : Bool)
    (L : layout_type) (s : I.inner_shape_type) (fl : Bool) :
    ((iterable_entry_points ++ contiguous_entry_points).all fun m =>
      entered_once m (run d DL inherited 8 (m.called L s fl))) = true := by
  cases C with
  | mk a b e f static =>
    cases static <;> cases L <;> cases inherited <;> rfl

theorem inherited_storage_begin_run {I : xiterable_inner_types} {C : xcontainer_inner_types}
    (d : contiguous_derived_type I C) (DL : layout_type) (s : I.inner_shape_type) (fl : Bool) :
    run d DL true 7
        ((contiguous_member function_name.begin false false).called
          (xcontiguous_iterable.static_layout C) s fl)
      = some (outcome.iterator (xiterable.storage_begin DL d.toderived_type),
          [contiguous_member function_name.begin false false,
            contiguous_member function_name.derived_cast false false,
            derived_member function_name.storage_begin false false,
            mutable_member function_name.storage_begin false false,
            mutable_member function_name.begin false false,
            mutable_member function_name.get_begin false false,
            const_member function_name.get_shape false,
            const_member function_name.derived_cast false,
            derived_member function_name.shape false true,
            mutable_member function_name.get_stepper_begin true false,
            mutable_member function_name.derived_cast false false,
            derived_member function_name.stepper_begin true false,
            const_member function_name.get_shape false,
            const_member function_name.derived_cast false,
            derived_member function_name.shape false true]) := by
  cases C with
  | mk a b e f static => cases static <;> rfl

theorem inherited_storage_begin_depth {I : xiterable_inner_types} {C : xcontainer_inner_types}
    (d : contiguous_derived_type I C) (DL : layout_type) (s : I.inner_shape_type) (fl : Bool) :
    run d DL true 6
        ((contiguous_member function_name.begin false false).called
          (xcontiguous_iterable.static_layout C) s fl) = none := by
  cases C with
  | mk a b e f static => cases static <;> rfl

/-- Claim C23. Every member function of the three bases is run as the calls its body makes,
with a bound on the depth to which calls may nest. For every derived object, every layout,
shape and end flag, whether the derived type has storage functions of its own or inherits
them from `xiterable` and `xconst_iterable`: a call of any member function returns within
nesting depth 8 (and with any larger bound alike), and what it returns is the value of the
embedded member function, so no chain of forwarding calls comes back to a member it went
through; every public entry point is such a member function and is entered once during its
own call. A call of a public entry point of `xconst_iterable` or `xiterable` returns within
nesting depth 5, enters `stepper_begin` or `stepper_end` of the derived type, and enters at
most 12 member functions; depth 4 is not enough for `storage_begin() const`. With inherited
storage functions, `xcontiguous_iterable::begin<static_layout>()` returns what
`xiterable::storage_begin()` returns, through `storage_begin`, `xiterable::begin`, `get_begin`
and `get_stepper_begin` down to `stepper_begin`, at nesting depth 7 and not less. -/
theorem C23_every_call_returns_within_bounded_forwarding {I : xiterable_inner_types}
    {C : xcontainer_inner_types} (d : contiguous_derived_type I C) (DL : layout_type)
    (inherited : Bool) (L : layout_type) (s : I.inner_shape_type) (fl : Bool) :
    (∀ (k : Nat) (inv : invocation I.inner_shape_type),
      (run d DL inherited (k + 8) inv).map Prod.fst = embedded d DL inherited inv) ∧
    ((iterable_entry_points ++ contiguous_entry_points).all fun m =>
      (embedded d DL inherited (m.called L s fl)).isSome) = true ∧
    ((iterable_entry_points ++ contiguous_entry_points).all fun m =>
      entered_once m (run d DL inherited 8 (m.called L s fl))) = true ∧
    (iterable_entry_points.all fun m =>
      reaches_stepper_request 12 (run d DL inherited 5 (m.called L s fl))) = true ∧
    run d DL inherited 4 ((const_member function_name.storage_begin false).called L s fl)
      = none ∧
    run d DL true 7
        ((contiguous_member function_name.begin false false).called
          (xcontiguous_iterable.static_layout C) s fl)
      = some (outcome.iterator (xiterable.storage_begin DL d.toderived_type),
          [contiguous_member function_name.begin false false,
            contiguous_member function_name.derived_cast false false,
            derived_member function_name.storage_begin false false,
            mutable_member function_name.storage_begin false false,
            mutable_member function_name.begin false false,
            mutable_member function_name.get_begin false false,
            const_member function_name.get_shape false,
            const_member function_name.derived_cast false,
            derived_member function_name.shape false true,
            mutable_member function_name.get_stepper_begin true false,
            mutable_member function_name.derived_cast false false,
            derived_member function_name.stepper_begin true false,
            const_member function_name.get_shape false,
            const_member function_name.derived_cast false,
            derived_member function_name.shape false true]) ∧
    run d DL true 6
        ((contiguous_member function_name.begin false false).called
          (xcontiguous_iterable.static_layout C) s fl) = none :=
  ⟨fun k inv => run_eq_embedded d DL inherited k inv,
    entry_points_embedded d DL inherited L s fl,
    entry_points_entered_once d DL inherited L s fl, rfl, rfl,
    inherited_storage_begin_run d DL s fl, inherited_storage_begin_depth d DL s fl⟩

end xt
